import Mathlib

/-!
# DIO and Port drivers for the Tiva C GPIO block

A shallow embedding of `IO/DIO/DIO.c`, `IO/PortDriver/Port.c` and
`common files/TivaHW.{c,h}`.

* C integers are natural numbers; a conversion to `uint8` is `% 256`, a
  conversion to `uint32` (and `uint32` arithmetic) is `% 2 ^ 32`.
* The register file is an address-to-word map together with the list of
  accesses made so far, oldest first.
* A driver call ends in one of three ways: it returns (`done`), one of its
  `assert`s fails (`abort`), or it reaches undefined behaviour such as a
  null dereference or an out-of-range table index (`fault`).  Each outcome
  carries the register file as it was at that point.
-/

namespace Autosar

/-! ## Std_Types.h -/

/-- Std_Types.h: `#define E_OK 0x00u`. -/
abbrev E_OK : Nat := 0x00

/-- Std_Types.h: `#define E_NOT_OK 0x01u`. -/
abbrev E_NOT_OK : Nat := 0x01

/-- Std_Types.h: `#define STD_HIGH 0x01u`. -/
abbrev STD_HIGH : Nat := 0x01

/-- Std_Types.h: `#define STD_LOW 0x00u`. -/
abbrev STD_LOW : Nat := 0x00

/-! ## TivaHW.h / TivaHW.c -/

/-- TivaHW.h: `#define HW_NO_OF_PORTS 6`. -/
abbrev HW_NO_OF_PORTS : Nat := 6

/-- TivaHW.h: `#define HW_GPIODATA_OFFSET 0x000`. -/
abbrev HW_GPIODATA_OFFSET : Nat := 0x000

/-- TivaHW.h: `#define HW_GPIODIR_OFFSET 0x400`. -/
abbrev HW_GPIODIR_OFFSET : Nat := 0x400

/-- TivaHW.h: `#define HW_GPIO_UNLOCK_PATTERN 0x4C4F434B`. -/
abbrev HW_GPIO_UNLOCK_PATTERN : Nat := 0x4C4F434B

/-- TivaHW.h: `#define HW_GPIOAFSEL_OFFSET 0x420`. -/
abbrev HW_GPIOAFSEL_OFFSET : Nat := 0x420

/-- TivaHW.h: `#define HW_GPIODR2R_OFFSET 0x500`. -/
abbrev HW_GPIODR2R_OFFSET : Nat := 0x500

/-- TivaHW.h: `#define HW_GPIODR4R_OFFSET 0x504`. -/
abbrev HW_GPIODR4R_OFFSET : Nat := 0x504

/-- TivaHW.h: `#define HW_GPIODR8R_OFFSET 0x508`. -/
abbrev HW_GPIODR8R_OFFSET : Nat := 0x508

/-- TivaHW.h: `#define HW_GPIOODR_OFFSET 0x50C`. -/
abbrev HW_GPIOODR_OFFSET : Nat := 0x50C

/-- TivaHW.h: `#define HW_GPIOPUR_OFFSET 0x510`. -/
abbrev HW_GPIOPUR_OFFSET : Nat := 0x510

/-- TivaHW.h: `#define HW_GPIOPDR_OFFSET 0x514`. -/
abbrev HW_GPIOPDR_OFFSET : Nat := 0x514

/-- TivaHW.h: `#define HW_GPIODEN_OFFSET 0x51C`. -/
abbrev HW_GPIODEN_OFFSET : Nat := 0x51C

/-- TivaHW.h: `#define HW_GPIOLOCK_OFFSET 0x520`. -/
abbrev HW_GPIOLOCK_OFFSET : Nat := 0x520

/-- TivaHW.h: `#define HW_GPIOCR_OFFSET 0x524`. -/
abbrev HW_GPIOCR_OFFSET : Nat := 0x524

/-- TivaHW.h: `#define HW_SYSTEM_CONTROL_BA 0x400FE000`. -/
abbrev HW_SYSTEM_CONTROL_BA : Nat := 0x400FE000

/-- TivaHW.h: `#define HW_RCGCGPIO_OFFSET 0x608`. -/
abbrev HW_RCGCGPIO_OFFSET : Nat := 0x608

/-- TivaHW.h: `#define HW_RCGC2_OFFSET 0x108`. -/
abbrev HW_RCGC2_OFFSET : Nat := 0x108

/-- TivaHW.c: base addresses of GPIO ports A to F. -/
def HW_PortsAddresses : List Nat :=
  [0x40004000, 0x40005000, 0x40006000, 0x40007000, 0x40024000, 0x40025000]

/-- One access to a memory-mapped register. -/
inductive Access where
  | read (addr : Nat)
  | write (addr : Nat) (val : Nat)
  deriving DecidableEq, Repr

/-- The register file: `mem` maps an address to the 32-bit word stored there,
`log` records the accesses made so far, oldest first. -/
structure HW where
  mem : Nat → Nat
  log : List Access

/-- How a driver call ends. -/
inductive Outcome (α : Type) where
  | done (val : α) (hw : HW)
  | abort (hw : HW)
  | fault (hw : HW)

/-- The register file an outcome carries. -/
def Outcome.hw {α : Type} : Outcome α → HW
  | .done _ s => s
  | .abort s => s
  | .fault s => s

/-- Sequencing of driver calls: an abort or a fault ends the run. -/
def Outcome.bind {α β : Type} (o : Outcome α) (f : α → HW → Outcome β) : Outcome β :=
  match o with
  | .done v s => f v s
  | .abort s => .abort s
  | .fault s => .fault s

/-- TivaHW.h: `HW_R_8RIG(ADDRESS)` is `*((volatile uint32 *)(ADDRESS))`; the
word read together with the register file after the read. -/
def HW_R_8RIG (s : HW) (ADDRESS : Nat) : Nat × HW :=
  (s.mem ADDRESS % 2 ^ 32, { s with log := s.log ++ [Access.read ADDRESS] })

/-- TivaHW.h: `HW_W_8RIG(ADDRESS,DATA)` is `*((volatile uint32 *)(ADDRESS)) = DATA`. -/
def HW_W_8RIG (s : HW) (ADDRESS DATA : Nat) : HW :=
  { mem := fun a => if a = ADDRESS then DATA % 2 ^ 32 else s.mem a
    log := s.log ++ [Access.write ADDRESS (DATA % 2 ^ 32)] }

/-- TivaHW.h: `HW_S_BIT(ADDRESS,BIT)` is
`*((volatile uint32 *)(ADDRESS)) |= (1<<BIT)`: one read, then one write. -/
def HW_S_BIT (s : HW) (ADDRESS BIT : Nat) : HW :=
  let r := HW_R_8RIG s ADDRESS
  HW_W_8RIG r.2 ADDRESS (r.1 ||| (1 <<< BIT))

/-- TivaHW.h: `HW_C_BIT(ADDRESS,BIT)` is
`*((volatile uint32 *)(ADDRESS)) &=~ (1<<BIT)`: one read, then one write; the
`int` value `~(1<<BIT)` converted to `uint32` is `0xFFFFFFFF ^ (1<<BIT)`. -/
def HW_C_BIT (s : HW) (ADDRESS BIT : Nat) : HW :=
  let r := HW_R_8RIG s ADDRESS
  HW_W_8RIG r.2 ADDRESS (r.1 &&& (0xFFFFFFFF ^^^ (1 <<< BIT)))

/-- The register file with every word zero and no access made yet. -/
def HW.zero : HW := { mem := fun _ => 0, log := [] }

/-! ## DIO.h -/

/-- DIO.h: `Dio_ChannelGroupType`; `mask` and `offset` are `uint8`, `port` is
a `Dio_PortType`. -/
structure Dio_ChannelGroupType where
  mask : Nat
  offset : Nat
  port : Nat
  deriving DecidableEq, Repr

/-! ## DIO.c -/

/-- DIO.c: `DIO_ChannelIdCheck`, with the enumerators of `Dio_ChannelType`
written as their values. -/
def DIO_ChannelIdCheck (ChannelId : Nat) : Nat :=
  if ChannelId ≥ 0x00 ∧ ChannelId ≤ 0x07 then E_OK
  else if ChannelId ≥ 0x10 ∧ ChannelId ≤ 0x17 then E_OK
  else if ChannelId ≥ 0x20 ∧ ChannelId ≤ 0x27 then E_OK
  else if ChannelId ≥ 0x30 ∧ ChannelId ≤ 0x37 then E_OK
  else if ChannelId ≥ 0x40 ∧ ChannelId ≤ 0x45 then E_OK
  else if ChannelId ≥ 0x50 ∧ ChannelId ≤ 0x54 then E_OK
  else E_NOT_OK

/-- DIO.c: `DIO_PortIdCheck`, `DIO_PORTA` = 0 and `DIO_PORTF` = 5. -/
def DIO_PortIdCheck (PortId : Nat) : Nat :=
  if PortId ≥ 0 ∧ PortId ≤ 5 then E_OK else E_NOT_OK

/-- DIO.c: `DIO_ChannelOffsetCheck`. -/
def DIO_ChannelOffsetCheck (ChannelOffset : Nat) : Nat :=
  if ChannelOffset ≥ 0 ∧ ChannelOffset ≤ 7 then E_OK else E_NOT_OK

/-- DIO.c: `Dio_ReadChannel`. -/
def Dio_ReadChannel (s : HW) (ChannelId : Nat) : Outcome Nat :=
  if E_OK = DIO_ChannelIdCheck ChannelId then
    let DIO_Port := (ChannelId &&& 0xF0) >>> 4
    let DIO_Pin := (ChannelId &&& 0x0F) % 256
    let DIO_RegOffset := (1 <<< DIO_Pin) % 256
    match HW_PortsAddresses[DIO_Port]? with
    | none => .fault s
    | some base =>
      let r := HW_R_8RIG s ((base + (DIO_RegOffset <<< 2)) % 2 ^ 32)
      .done (if r.1 ≠ 0 then STD_HIGH else STD_LOW) r.2
  else .abort s

/-- DIO.c: `Dio_WriteChannel`. -/
def Dio_WriteChannel (s : HW) (ChannelId Level : Nat) : Outcome Unit :=
  if E_OK = DIO_ChannelIdCheck ChannelId then
    if Level = STD_HIGH ∨ Level = STD_LOW then
      let DIO_Port := (ChannelId &&& 0xF0) >>> 4
      let DIO_Pin := (ChannelId &&& 0x0F) % 256
      let DIO_RegOffset := (1 <<< DIO_Pin) % 256
      match HW_PortsAddresses[DIO_Port]? with
      | none => .fault s
      | some base =>
        .done () (HW_W_8RIG s ((base + (DIO_RegOffset <<< 2)) % 2 ^ 32) (Level <<< DIO_Pin))
    else .abort s
  else .abort s

/-- DIO.c: `Dio_ReadPort`; the word read is returned as a `uint8`. -/
def Dio_ReadPort (s : HW) (PortId : Nat) : Outcome Nat :=
  if E_OK = DIO_PortIdCheck PortId then
    match HW_PortsAddresses[PortId]? with
    | none => .fault s
    | some base =>
      let r := HW_R_8RIG s ((base + 0x3FC) % 2 ^ 32)
      .done (r.1 % 256) r.2
  else .abort s

/-- DIO.c: `Dio_WritePort`. -/
def Dio_WritePort (s : HW) (PortId Level : Nat) : Outcome Unit :=
  if E_OK = DIO_PortIdCheck PortId then
    match HW_PortsAddresses[PortId]? with
    | none => .fault s
    | some base => .done () (HW_W_8RIG s ((base + 0x3FC) % 2 ^ 32) Level)
  else .abort s

/-- DIO.c: `Dio_ReadChannelGroup`; `none` is the null pointer.  The word read
is returned as a `uint8`. -/
def Dio_ReadChannelGroup (s : HW) (ChannelGroupIdPtr : Option Dio_ChannelGroupType) :
    Outcome Nat :=
  match ChannelGroupIdPtr with
  | none => .abort s
  | some g =>
    if E_OK = DIO_ChannelOffsetCheck g.offset then
      if E_OK = DIO_PortIdCheck g.port then
        match HW_PortsAddresses[g.port]? with
        | none => .fault s
        | some base =>
          let r := HW_R_8RIG s ((base + (g.mask <<< (2 + g.offset))) % 2 ^ 32)
          .done (r.1 % 256) r.2
      else .abort s
    else .abort s

/-- DIO.c: `Dio_WriteChannelGroup`; `none` is the null pointer. -/
def Dio_WriteChannelGroup (s : HW) (ChannelGroupIdPtr : Option Dio_ChannelGroupType)
    (Level : Nat) : Outcome Unit :=
  match ChannelGroupIdPtr with
  | none => .abort s
  | some g =>
    if E_OK = DIO_ChannelOffsetCheck g.offset then
      if E_OK = DIO_PortIdCheck g.port then
        match HW_PortsAddresses[g.port]? with
        | none => .fault s
        | some base =>
          .done () (HW_W_8RIG s ((base + (g.mask <<< (2 + g.offset))) % 2 ^ 32) Level)
      else .abort s
    else .abort s

/-- DIO.c: `Dio_FlipChannel` (compiled in: `DioFlipChannelApi` is `STD_ON`);
the new level is `(Dio_LevelType)!Dio_ReadChannel(ChannelId)`. -/
def Dio_FlipChannel (s : HW) (ChannelId : Nat) : Outcome Nat :=
  if E_OK = DIO_ChannelIdCheck ChannelId then
    (Dio_ReadChannel s ChannelId).bind fun r s1 =>
      let DIO_ReturnLevel := (if r = 0 then 1 else 0) % 256
      (Dio_WriteChannel s1 ChannelId DIO_ReturnLevel).bind fun _ s2 =>
        .done DIO_ReturnLevel s2
  else .abort s

/-- DIO.c: `Dio_MaskedWritePort`, the body under
`#if(DioMaskedWritePortApi == STD_ON)`; DioGeneral.h as shipped sets that
switch to `STD_OFF`. -/
def Dio_MaskedWritePort (s : HW) (PortId Level Mask : Nat) : Outcome Unit :=
  if E_OK = DIO_PortIdCheck PortId then
    match HW_PortsAddresses[PortId]? with
    | none => .fault s
    | some base => .done () (HW_W_8RIG s ((base + (Mask <<< 2)) % 2 ^ 32) Level)
  else .abort s

/-! ## Port.h -/

/-- Port.h: `#define PORT_PIN_DIO 0x00`. -/
abbrev PORT_PIN_DIO : Nat := 0x00

/-- Port.h: `#define PORT_PIN_ADC 0x01`. -/
abbrev PORT_PIN_ADC : Nat := 0x01

/-- Port.h: `#define PORT_PIN_UART 0x02`. -/
abbrev PORT_PIN_UART : Nat := 0x02

/-- Port.h: `#define PORT_PIN_SSI 0x03` (and `PORT_PIN_SPI`, the same value). -/
abbrev PORT_PIN_SSI : Nat := 0x03

/-- Port.h: `#define PORT_PIN_I2C 0x04`. -/
abbrev PORT_PIN_I2C : Nat := 0x04

/-- Port.h: `#define PORT_PIN_CAN 0x05`. -/
abbrev PORT_PIN_CAN : Nat := 0x05

/-- Port.h: `#define PORT_PIN_USB 0x06`. -/
abbrev PORT_PIN_USB : Nat := 0x06

/-- Port.h: `#define PORT_PIN_AC 0x07`. -/
abbrev PORT_PIN_AC : Nat := 0x07

/-- Port.h: `#define PORT_PIN_PWM 0x08`. -/
abbrev PORT_PIN_PWM : Nat := 0x08

/-- Port.h: `#define PORT_PIN_QEI 0x09`. -/
abbrev PORT_PIN_QEI : Nat := 0x09

/-- Port.h: `#define PORT_PIN_IN 0x00`. -/
abbrev PORT_PIN_IN : Nat := 0x00

/-- Port.h: `#define PORT_PIN_OUT 0x01`. -/
abbrev PORT_PIN_OUT : Nat := 0x01

/-- Port.h: `#define PORT_PULL_UP_DISABLE 0x00`. -/
abbrev PORT_PULL_UP_DISABLE : Nat := 0x00

/-- Port.h: `#define PORT_PULL_UP_ENABLE 0x01`. -/
abbrev PORT_PULL_UP_ENABLE : Nat := 0x01

/-- Port.h: `#define PORT_PULL_DOWN_DISABLE 0x00`. -/
abbrev PORT_PULL_DOWN_DISABLE : Nat := 0x00

/-- Port.h: `#define PORT_PULL_DOWN_ENABLE 0x01`. -/
abbrev PORT_PULL_DOWN_ENABLE : Nat := 0x01

/-- Port.h: `#define PORT_OPEN_DRAIN_DISABLE 0x00`. -/
abbrev PORT_OPEN_DRAIN_DISABLE : Nat := 0x00

/-- Port.h: `#define PORT_OPEN_DRAIN_ENABLE 0x01`. -/
abbrev PORT_OPEN_DRAIN_ENABLE : Nat := 0x01

/-- Port.h: `#define PORT_CURRENT_DEFAULT 0x00`. -/
abbrev PORT_CURRENT_DEFAULT : Nat := 0x00

/-- Port.h: `#define PORT_CURRENT_2mA 0x01`. -/
abbrev PORT_CURRENT_2mA : Nat := 0x01

/-- Port.h: `#define PORT_CURRENT_4mA 0x02`. -/
abbrev PORT_CURRENT_4mA : Nat := 0x02

/-- Port.h: `#define PORT_CURRENT_8mA 0x03`. -/
abbrev PORT_CURRENT_8mA : Nat := 0x03

/-- Port.h: `Port_ConfigType`.  `Port_Pin` is a `Port_PinType`; the other
members are bit-fields of `uint8` types. -/
structure Port_ConfigType where
  Port_Pin : Nat
  Port_PinMode : Nat
  Port_Current : Nat
  Port_PinDirection : Nat
  Port_PinLevelInit : Nat
  Port_PinPullUpRes : Nat
  Port_PinPullDownRes : Nat
  Port_PinOpenDrain : Nat
  deriving DecidableEq, Repr

/-- Port.h: the widths of the bit-fields of `Port_ConfigType`:
`Port_PinMode :4`, `Port_Current :2`, and one bit for each of
`Port_PinDirection`, `Port_PinLevelInit`, `Port_PinPullUpRes`,
`Port_PinPullDownRes` and `Port_PinOpenDrain`. -/
def Port_ConfigType.fits (cfg : Port_ConfigType) : Prop :=
  cfg.Port_PinMode < 16 ∧ cfg.Port_Current < 4 ∧ cfg.Port_PinDirection < 2 ∧
    cfg.Port_PinLevelInit < 2 ∧ cfg.Port_PinPullUpRes < 2 ∧ cfg.Port_PinPullDownRes < 2 ∧
    cfg.Port_PinOpenDrain < 2

instance (cfg : Port_ConfigType) : Decidable cfg.fits := by
  unfold Port_ConfigType.fits
  infer_instance

/-! ## Port.c -/

/-- Port.c: macro `PORT_GET_PORT`. -/
def PORT_GET_PORT (PORT_PIN_TYPE : Nat) : Nat := (PORT_PIN_TYPE &&& 0xF0) >>> 4

/-- Port.c: macro `PORT_GET_PIN`, a `uint8`. -/
def PORT_GET_PIN (PORT_PIN_TYPE : Nat) : Nat := (PORT_PIN_TYPE &&& 0x0F) % 256

/-- Port.c: `Port_PortPinCheck`; the `switch` on the port is written as a
chain of comparisons with `PORT_DIO_PORTA` = 0 to `PORT_DIO_PORTF` = 5. -/
def Port_PortPinCheck (Port_PortPin : Nat) : Nat :=
  let Port_PortId := PORT_GET_PORT Port_PortPin
  let Port_PinNumber := PORT_GET_PIN Port_PortPin
  if Port_PortId = 0 ∨ Port_PortId = 1 ∨ Port_PortId = 2 ∨ Port_PortId = 3 then
    if Port_PinNumber > 7 then E_NOT_OK else E_OK
  else if Port_PortId = 4 then
    if Port_PinNumber > 5 then E_NOT_OK else E_OK
  else if Port_PortId = 5 then
    if Port_PinNumber > 4 then E_NOT_OK else E_OK
  else E_NOT_OK

/-- Port.c: `Port_PortPinModeCheck`; the `switch` is written as one test of
the ten case labels. -/
def Port_PortPinModeCheck (Port_PortPinMode : Nat) : Nat :=
  if Port_PortPinMode = PORT_PIN_DIO ∨ Port_PortPinMode = PORT_PIN_ADC ∨
      Port_PortPinMode = PORT_PIN_UART ∨ Port_PortPinMode = PORT_PIN_SSI ∨
      Port_PortPinMode = PORT_PIN_I2C ∨ Port_PortPinMode = PORT_PIN_CAN ∨
      Port_PortPinMode = PORT_PIN_USB ∨ Port_PortPinMode = PORT_PIN_AC ∨
      Port_PortPinMode = PORT_PIN_PWM ∨ Port_PortPinMode = PORT_PIN_QEI then E_OK
  else E_NOT_OK

/-- Port.c: `Port_ConfigTypeCheck`; `none` is the null pointer.  The
statements are kept in source order, each one updating `Port_RetData`:
the null test (which only sets `Port_RetData` and goes on, so that the next
member access dereferences the null pointer: no result), the `sizeof` test
(never true), the pin test, the call of `Port_PortPinModeCheck` whose result
is discarded, and the six `switch` statements, the second of which has the
case labels `PORT_PIN_IN` and `PORT_PIN_OUT` but switches on
`ConfigPtr->Port_PinMode`. -/
def Port_ConfigTypeCheck (ConfigPtr : Option Port_ConfigType) : Option Nat :=
  match ConfigPtr with
  | none => none
  | some cfg =>
    let Port_RetData := E_OK
    let Port_RetData :=
      if E_NOT_OK = Port_PortPinCheck cfg.Port_Pin then E_NOT_OK else Port_RetData
    let _ := Port_PortPinModeCheck cfg.Port_PinMode
    let Port_RetData :=
      if cfg.Port_Current = PORT_CURRENT_DEFAULT ∨ cfg.Port_Current = PORT_CURRENT_2mA ∨
          cfg.Port_Current = PORT_CURRENT_4mA ∨ cfg.Port_Current = PORT_CURRENT_8mA
        then Port_RetData else E_NOT_OK
    let Port_RetData :=
      if cfg.Port_PinMode = PORT_PIN_IN ∨ cfg.Port_PinMode = PORT_PIN_OUT
        then Port_RetData else E_NOT_OK
    let Port_RetData :=
      if cfg.Port_PinLevelInit = STD_HIGH ∨ cfg.Port_PinLevelInit = STD_LOW
        then Port_RetData else E_NOT_OK
    let Port_RetData :=
      if cfg.Port_PinPullUpRes = PORT_PULL_UP_DISABLE ∨
          cfg.Port_PinPullUpRes = PORT_PULL_UP_ENABLE
        then Port_RetData else E_NOT_OK
    let Port_RetData :=
      if cfg.Port_PinPullDownRes = PORT_PULL_DOWN_DISABLE ∨
          cfg.Port_PinPullDownRes = PORT_PULL_DOWN_ENABLE
        then Port_RetData else E_NOT_OK
    let Port_RetData :=
      if cfg.Port_PinOpenDrain = PORT_OPEN_DRAIN_DISABLE ∨
          cfg.Port_PinOpenDrain = PORT_OPEN_DRAIN_ENABLE
        then Port_RetData else E_NOT_OK
    some Port_RetData

/-- Port.c, `Port_SetPinDirection`: the `switch(Direction)` statement, on the
register block at `base`. -/
def Port_SetPinDirection_regs (s : HW) (base Port_PinNumber Direction : Nat) : HW :=
  if Direction = PORT_PIN_IN then
    HW_C_BIT s ((base + HW_GPIODIR_OFFSET) % 2 ^ 32) Port_PinNumber
  else if Direction = PORT_PIN_OUT then
    HW_S_BIT s ((base + HW_GPIODIR_OFFSET) % 2 ^ 32) Port_PinNumber
  else s

/-- Port.c: `Port_SetPinDirection`; `base` is `HW_PortsAddresses[Port_PortId]`. -/
def Port_SetPinDirection (s : HW) (Pin Direction : Nat) : Outcome Unit :=
  if E_OK = Port_PortPinCheck Pin then
    if PORT_PIN_IN = Direction ∨ PORT_PIN_OUT = Direction then
      let Port_PortId := PORT_GET_PORT Pin
      let Port_PinNumber := PORT_GET_PIN Pin
      match HW_PortsAddresses[Port_PortId]? with
      | none => .fault s
      | some base => .done () (Port_SetPinDirection_regs s base Port_PinNumber Direction)
    else .abort s
  else .abort s

/-- Port.c, `Port_SetPinMode`: the statements after the parameter checks, on
the register block at `base`: unlock, commit, digital enable, then unlock,
commit, alternate function select. -/
def Port_SetPinMode_regs (s : HW) (base Port_PinNumber Mode : Nat) : HW :=
  let s := HW_W_8RIG s ((base + HW_GPIOLOCK_OFFSET) % 2 ^ 32) HW_GPIO_UNLOCK_PATTERN
  let s := HW_S_BIT s ((base + HW_GPIOCR_OFFSET) % 2 ^ 32) Port_PinNumber
  let s :=
    if Mode = PORT_PIN_ADC then HW_C_BIT s ((base + HW_GPIODEN_OFFSET) % 2 ^ 32) Port_PinNumber
    else HW_S_BIT s ((base + HW_GPIODEN_OFFSET) % 2 ^ 32) Port_PinNumber
  let s := HW_W_8RIG s ((base + HW_GPIOLOCK_OFFSET) % 2 ^ 32) HW_GPIO_UNLOCK_PATTERN
  let s := HW_S_BIT s ((base + HW_GPIOCR_OFFSET) % 2 ^ 32) Port_PinNumber
  if Mode = PORT_PIN_ADC ∨ Mode = PORT_PIN_DIO then
    HW_C_BIT s ((base + HW_GPIOAFSEL_OFFSET) % 2 ^ 32) Port_PinNumber
  else HW_S_BIT s ((base + HW_GPIOAFSEL_OFFSET) % 2 ^ 32) Port_PinNumber

/-- Port.c: `Port_SetPinMode`; `base` is `HW_PortsAddresses[Port_PortId]`. -/
def Port_SetPinMode (s : HW) (Pin Mode : Nat) : Outcome Unit :=
  if E_OK = Port_PortPinCheck Pin then
    if E_OK = Port_PortPinModeCheck Mode then
      let Port_PortId := PORT_GET_PORT Pin
      let Port_PinNumber := PORT_GET_PIN Pin
      match HW_PortsAddresses[Port_PortId]? with
      | none => .fault s
      | some base => .done () (Port_SetPinMode_regs s base Port_PinNumber Mode)
    else .abort s
  else .abort s

/-- Port.c, `Port_Init`: the two clock enable statements, `HW_S_BIT` on
`HW_SYSTEM_CONTROL_BA + HW_RCGC2_OFFSET` and then on
`HW_SYSTEM_CONTROL_BA + HW_RCGCGPIO_OFFSET`. -/
def Port_Init_clock (s : HW) (Port_PortId : Nat) : HW :=
  let s := HW_S_BIT s (HW_SYSTEM_CONTROL_BA + HW_RCGC2_OFFSET) Port_PortId
  HW_S_BIT s (HW_SYSTEM_CONTROL_BA + HW_RCGCGPIO_OFFSET) Port_PortId

/-- Port.c, `Port_Init`: the `switch(ConfigPtr->Port_Current)` statement. -/
def Port_Init_driveStrength (s : HW) (base Port_PinNumber Port_Current : Nat) : HW :=
  if Port_Current = PORT_CURRENT_DEFAULT then
    let s := HW_C_BIT s ((base + HW_GPIODR2R_OFFSET) % 2 ^ 32) Port_PinNumber
    let s := HW_C_BIT s ((base + HW_GPIODR4R_OFFSET) % 2 ^ 32) Port_PinNumber
    HW_C_BIT s ((base + HW_GPIODR8R_OFFSET) % 2 ^ 32) Port_PinNumber
  else if Port_Current = PORT_CURRENT_2mA then
    let s := HW_S_BIT s ((base + HW_GPIODR2R_OFFSET) % 2 ^ 32) Port_PinNumber
    let s := HW_C_BIT s ((base + HW_GPIODR4R_OFFSET) % 2 ^ 32) Port_PinNumber
    HW_C_BIT s ((base + HW_GPIODR8R_OFFSET) % 2 ^ 32) Port_PinNumber
  else if Port_Current = PORT_CURRENT_4mA then
    let s := HW_C_BIT s ((base + HW_GPIODR2R_OFFSET) % 2 ^ 32) Port_PinNumber
    let s := HW_S_BIT s ((base + HW_GPIODR4R_OFFSET) % 2 ^ 32) Port_PinNumber
    HW_C_BIT s ((base + HW_GPIODR8R_OFFSET) % 2 ^ 32) Port_PinNumber
  else if Port_Current = PORT_CURRENT_8mA then
    let s := HW_C_BIT s ((base + HW_GPIODR2R_OFFSET) % 2 ^ 32) Port_PinNumber
    let s := HW_C_BIT s ((base + HW_GPIODR4R_OFFSET) % 2 ^ 32) Port_PinNumber
    HW_S_BIT s ((base + HW_GPIODR8R_OFFSET) % 2 ^ 32) Port_PinNumber
  else s

/-- Port.c, `Port_Init`: the pull-up statements: unlock, commit, then the
`switch(ConfigPtr->Port_PinPullUpRes)`. -/
def Port_Init_pullUp (s : HW) (base Port_PinNumber Port_PinPullUpRes : Nat) : HW :=
  let s := HW_W_8RIG s ((base + HW_GPIOLOCK_OFFSET) % 2 ^ 32) HW_GPIO_UNLOCK_PATTERN
  let s := HW_S_BIT s ((base + HW_GPIOCR_OFFSET) % 2 ^ 32) Port_PinNumber
  if Port_PinPullUpRes = PORT_PULL_UP_DISABLE then
    HW_C_BIT s ((base + HW_GPIOPUR_OFFSET) % 2 ^ 32) Port_PinNumber
  else if Port_PinPullUpRes = PORT_PULL_UP_ENABLE then
    HW_S_BIT s ((base + HW_GPIOPUR_OFFSET) % 2 ^ 32) Port_PinNumber
  else s

/-- Port.c, `Port_Init`: the pull-down statements: unlock, commit, then the
`switch(ConfigPtr->Port_PinPullDownRes)`. -/
def Port_Init_pullDown (s : HW) (base Port_PinNumber Port_PinPullDownRes : Nat) : HW :=
  let s := HW_W_8RIG s ((base + HW_GPIOLOCK_OFFSET) % 2 ^ 32) HW_GPIO_UNLOCK_PATTERN
  let s := HW_S_BIT s ((base + HW_GPIOCR_OFFSET) % 2 ^ 32) Port_PinNumber
  if Port_PinPullDownRes = PORT_PULL_DOWN_DISABLE then
    HW_C_BIT s ((base + HW_GPIOPDR_OFFSET) % 2 ^ 32) Port_PinNumber
  else if Port_PinPullDownRes = PORT_PULL_DOWN_ENABLE then
    HW_S_BIT s ((base + HW_GPIOPDR_OFFSET) % 2 ^ 32) Port_PinNumber
  else s

/-- Port.c, `Port_Init`: the `switch(ConfigPtr->Port_PinOpenDrain)` statement,
which follows the pull-down `switch` directly. -/
def Port_Init_openDrain (s : HW) (base Port_PinNumber Port_PinOpenDrain : Nat) : HW :=
  if Port_PinOpenDrain = PORT_OPEN_DRAIN_DISABLE then
    HW_C_BIT s ((base + HW_GPIOODR_OFFSET) % 2 ^ 32) Port_PinNumber
  else if Port_PinOpenDrain = PORT_OPEN_DRAIN_ENABLE then
    HW_S_BIT s ((base + HW_GPIOODR_OFFSET) % 2 ^ 32) Port_PinNumber
  else s

/-- Port.c: `Port_Init`; `none` is the null pointer.  After the assertion:
clock enable, `Port_SetPinDirection`, drive strength, pull-up, pull-down,
open drain, `Port_SetPinMode`.  `base` is `HW_PortsAddresses[Port_PortId]`,
first needed right after `Port_SetPinDirection` returns. -/
def Port_Init (s : HW) (ConfigPtr : Option Port_ConfigType) : Outcome Unit :=
  match ConfigPtr, Port_ConfigTypeCheck ConfigPtr with
  | some cfg, some r =>
    if r = E_OK then
      let Port_PortId := PORT_GET_PORT cfg.Port_Pin
      let Port_PinNumber := PORT_GET_PIN cfg.Port_Pin
      let s := Port_Init_clock s Port_PortId
      (Port_SetPinDirection s cfg.Port_Pin cfg.Port_PinDirection).bind fun _ s =>
        match HW_PortsAddresses[Port_PortId]? with
        | none => .fault s
        | some base =>
          let s := Port_Init_driveStrength s base Port_PinNumber cfg.Port_Current
          let s := Port_Init_pullUp s base Port_PinNumber cfg.Port_PinPullUpRes
          let s := Port_Init_pullDown s base Port_PinNumber cfg.Port_PinPullDownRes
          let s := Port_Init_openDrain s base Port_PinNumber cfg.Port_PinOpenDrain
          Port_SetPinMode s cfg.Port_Pin cfg.Port_PinMode
    else .abort s
  | _, _ => .fault s

/-- Port.c, `Port_Init`: all register accesses of a call whose assertions
pass, in source order, on the register block at `base`. -/
def Port_Init_regs (s : HW) (base : Nat) (cfg : Port_ConfigType) : HW :=
  let Port_PortId := PORT_GET_PORT cfg.Port_Pin
  let Port_PinNumber := PORT_GET_PIN cfg.Port_Pin
  let s := Port_Init_clock s Port_PortId
  let s := Port_SetPinDirection_regs s base Port_PinNumber cfg.Port_PinDirection
  let s := Port_Init_driveStrength s base Port_PinNumber cfg.Port_Current
  let s := Port_Init_pullUp s base Port_PinNumber cfg.Port_PinPullUpRes
  let s := Port_Init_pullDown s base Port_PinNumber cfg.Port_PinPullDownRes
  let s := Port_Init_openDrain s base Port_PinNumber cfg.Port_PinOpenDrain
  Port_SetPinMode_regs s base Port_PinNumber cfg.Port_PinMode

/-! ## The data alias region as the hardware treats it -/

/-- Modelled from the spec: the hardware's treatment of a port's data alias
region, which is not part of the driver sources.  A write at
`base + (m << 2)`, m in 0..255, changes only the bits of the 8-bit data
register that m selects, to the corresponding bits of the value written; a
write elsewhere leaves the data register alone.  The data register after
one write. -/
def gpioDataWrite (base data addr val : Nat) : Nat :=
  if base ≤ addr ∧ addr ≤ base + 0x3FC ∧ (addr - base) % 4 = 0 then
    (data &&& (0xFF ^^^ ((addr - base) >>> 2))) ||| (val &&& ((addr - base) >>> 2))
  else data

/-- Modelled from the spec: the data register of the port at `base` after the
writes of an access log, oldest first, each applied as `gpioDataWrite`
describes. -/
def gpioDataReplay (base : Nat) : Nat → List Access → Nat
  | data, [] => data
  | data, Access.read _ :: rest => gpioDataReplay base data rest
  | data, Access.write addr val :: rest =>
    gpioDataReplay base (gpioDataWrite base data addr val) rest

/-! ## Access-log predicates -/

/-- The addresses an access log writes to, oldest first. -/
def writeAddrs : List Access → List Nat
  | [] => []
  | Access.read _ :: rest => writeAddrs rest
  | Access.write addr _ :: rest => addr :: writeAddrs rest

/-- The configuration stage a register of the port at `base` belongs to:
0 for the two clock gating registers, 1 for the direction register, 2 for
the drive strength registers, 3 for the pull-up, pull-down and open-drain
registers, 4 for the digital-enable and alternate-function-select registers;
none for the lock and commit-control registers and every other address. -/
def stageOf (base addr : Nat) : Option Nat :=
  if addr = HW_SYSTEM_CONTROL_BA + HW_RCGC2_OFFSET ∨
      addr = HW_SYSTEM_CONTROL_BA + HW_RCGCGPIO_OFFSET then some 0
  else if addr = base + HW_GPIODIR_OFFSET then some 1
  else if addr = base + HW_GPIODR2R_OFFSET ∨ addr = base + HW_GPIODR4R_OFFSET ∨
      addr = base + HW_GPIODR8R_OFFSET then some 2
  else if addr = base + HW_GPIOPUR_OFFSET ∨ addr = base + HW_GPIOPDR_OFFSET ∨
      addr = base + HW_GPIOODR_OFFSET then some 3
  else if addr = base + HW_GPIODEN_OFFSET ∨ addr = base + HW_GPIOAFSEL_OFFSET then some 4
  else none

/-- The ordering asked of an access log `L`: every write in `L` to one of the
addresses in `prot` comes right after four accesses that are, in order, a
write of the unlock pattern to `lock`, a read of `cr`, a write to `cr` of a
word with bit `bit` set, and a read of the address written. -/
def UnlockedBeforeEachWrite (lock cr bit : Nat) (prot : List Nat) (L : List Access) : Prop :=
  ∀ pre post addr v, L = pre ++ Access.write addr v :: post → addr ∈ prot →
    ∃ pre1 c, pre = pre1 ++ [Access.write lock HW_GPIO_UNLOCK_PATTERN, Access.read cr,
        Access.write cr c, Access.read addr] ∧
      c.testBit bit = true

/-- `UnlockedBeforeEachWrite` for a log `L` that continues the accesses
`R`, given latest first. -/
def UnlockedAfter (lock cr bit : Nat) (prot : List Nat) (R L : List Access) : Prop :=
  ∀ pre post addr v, L = pre ++ Access.write addr v :: post → addr ∈ prot →
    ∃ rest c, pre.reverse ++ R = Access.read addr :: Access.write cr c :: Access.read cr ::
        Access.write lock HW_GPIO_UNLOCK_PATTERN :: rest ∧
      c.testBit bit = true

/-- A change of the register file that treats every bit of every word in one
of two ways: it keeps the bit, or it gives the bit a value that does not
depend on the register file it starts from. -/
def BitAssign (T : HW → HW) : Prop :=
  ∀ x i, (∀ s, ((T s).mem x).testBit i = (s.mem x).testBit i) ∨
    ∃ c, ∀ s, ((T s).mem x).testBit i = c

/-! ## Channel identifiers -/

/-- An accepted channel identifier is at most `DIO_CHANNEL_F4`. -/
theorem dio_accepted_le {c : Nat} (h : DIO_ChannelIdCheck c = E_OK) : c ≤ 0x54 := by
  unfold DIO_ChannelIdCheck at h
  split_ifs at h <;> omega

set_option maxRecDepth 100000 in
/-- The channel check against the decoded port and bit, on all 8-bit identifiers. -/
theorem dio_check_table : ∀ c, c < 256 →
    (DIO_ChannelIdCheck c = E_OK ↔
      ((c &&& 0xF0) >>> 4 ≤ 3 ∧ c &&& 0x0F ≤ 7) ∨ ((c &&& 0xF0) >>> 4 = 4 ∧ c &&& 0x0F ≤ 5) ∨
        ((c &&& 0xF0) >>> 4 = 5 ∧ c &&& 0x0F ≤ 4)) ∧
    (DIO_ChannelIdCheck c ≠ E_OK → DIO_ChannelIdCheck c = E_NOT_OK) := by
  decide

set_option maxRecDepth 100000 in
/-- On 8-bit identifiers the two validators accept the same values, and an
accepted value is the encoding of its decoded port and bit. -/
theorem pin_check_table : ∀ c, c < 256 →
    (DIO_ChannelIdCheck c = E_OK ∨ Port_PortPinCheck c = E_OK) →
    DIO_ChannelIdCheck c = E_OK ∧ Port_PortPinCheck c = E_OK ∧
      (((c &&& 0xF0) >>> 4 ≤ 3 ∧ c &&& 0x0F ≤ 7) ∨ ((c &&& 0xF0) >>> 4 = 4 ∧ c &&& 0x0F ≤ 5) ∨
        ((c &&& 0xF0) >>> 4 = 5 ∧ c &&& 0x0F ≤ 4)) ∧
      (((c &&& 0xF0) >>> 4) <<< 4) ||| (c &&& 0x0F) = c := by
  decide

set_option maxRecDepth 100000 in
/-- An accepted channel decodes to a port below `HW_NO_OF_PORTS` and a bit
below 8. -/
theorem dio_decode_bounds : ∀ c, c < 256 → DIO_ChannelIdCheck c = E_OK →
    (c &&& 0xF0) >>> 4 ≤ 5 ∧ c &&& 0x0F ≤ 7 := by
  decide

/-- C1: for every channel identifier c in 0..255, `DIO_ChannelIdCheck c` is
`E_OK` exactly when the decoded port `(c & 0xF0) >> 4` is one of 0..5 and the
decoded bit `c & 0x0F` is in that port's range (ports 0-3: 0..7, port 4:
0..5, port 5: 0..4); otherwise it is `E_NOT_OK`; channel 0x08 is rejected. -/
theorem DIO_ChannelIdCheck_iff_decoded_in_range (c : Nat) (hc : c < 256) :
    (DIO_ChannelIdCheck c = E_OK ↔
      ((c &&& 0xF0) >>> 4 ≤ 3 ∧ c &&& 0x0F ≤ 7) ∨ ((c &&& 0xF0) >>> 4 = 4 ∧ c &&& 0x0F ≤ 5) ∨
        ((c &&& 0xF0) >>> 4 = 5 ∧ c &&& 0x0F ≤ 4)) ∧
    (DIO_ChannelIdCheck c ≠ E_OK → DIO_ChannelIdCheck c = E_NOT_OK) ∧
    DIO_ChannelIdCheck 0x08 = E_NOT_OK :=
  ⟨(dio_check_table c hc).1, (dio_check_table c hc).2, by decide⟩

/-- C1 at channel E5 (0x45): its decoded port 4 and bit 5 are in range, so it
is accepted. -/
theorem DIO_ChannelIdCheck_iff_decoded_in_range_witness :
    0x45 < 256 ∧ DIO_ChannelIdCheck 0x45 = E_OK :=
  ⟨by decide, (DIO_ChannelIdCheck_iff_decoded_in_range 0x45 (by decide)).1.2 (by decide)⟩

/-- A channel c accepted by `DIO_ChannelIdCheck`, or an identifier in 0..255
accepted by `Port_PortPinCheck`, is accepted by both validators, decodes to a
port in 0..5 with a bit inside that port's range, and `(port << 4) | bit`
gives back c. -/
theorem valid_channel_decode_encode (c : Nat)
    (h : DIO_ChannelIdCheck c = E_OK ∨ (c < 256 ∧ Port_PortPinCheck c = E_OK)) :
    DIO_ChannelIdCheck c = E_OK ∧ Port_PortPinCheck c = E_OK ∧
      (((c &&& 0xF0) >>> 4 ≤ 3 ∧ c &&& 0x0F ≤ 7) ∨ ((c &&& 0xF0) >>> 4 = 4 ∧ c &&& 0x0F ≤ 5) ∨
        ((c &&& 0xF0) >>> 4 = 5 ∧ c &&& 0x0F ≤ 4)) ∧
      (((c &&& 0xF0) >>> 4) <<< 4) ||| (c &&& 0x0F) = c := by
  rcases h with h | ⟨hc, h⟩
  · exact pin_check_table c (by have := dio_accepted_le h; omega) (Or.inl h)
  · exact pin_check_table c hc (Or.inr h)

/-- Channel F4 (0x54) decodes to port 5, bit 4, and `(5 << 4) | 4 = 0x54`. -/
theorem valid_channel_decode_encode_witness :
    (DIO_ChannelIdCheck 0x54 = E_OK ∨ (0x54 < 256 ∧ Port_PortPinCheck 0x54 = E_OK)) ∧
      (((0x54 &&& 0xF0) >>> 4) <<< 4) ||| (0x54 &&& 0x0F) = 0x54 :=
  ⟨Or.inl (by decide), (valid_channel_decode_encode 0x54 (Or.inl (by decide))).2.2.2⟩

/-- C2: the two validators are not equivalent, and an identifier that
`Port_PortPinCheck` accepts need not decode and re-encode to itself.  The
identifier 0x100 is accepted by `Port_PortPinCheck` and rejected by
`DIO_ChannelIdCheck`; it decodes to port 0, bit 0, which is in range, and
`(0 << 4) | 0` is 0x00, not 0x100.  Below it, 0xFF is rejected by both, and
0x54 is accepted by both and gives back 0x54. -/
theorem Port_PortPinCheck_0x100_decodes_to_A0 :
    Port_PortPinCheck 0x100 = E_OK ∧ DIO_ChannelIdCheck 0x100 = E_NOT_OK ∧
      PORT_GET_PORT 0x100 = 0 ∧ PORT_GET_PIN 0x100 = 0 ∧
      (0x100 &&& 0xF0) >>> 4 = 0 ∧ 0x100 &&& 0x0F = 0 ∧
      (((0x100 &&& 0xF0) >>> 4) <<< 4) ||| (0x100 &&& 0x0F) = 0x00 ∧
      (((0x100 &&& 0xF0) >>> 4) <<< 4) ||| (0x100 &&& 0x0F) ≠ 0x100 ∧
      Port_PortPinCheck 0xFF = E_NOT_OK ∧ DIO_ChannelIdCheck 0xFF = E_NOT_OK ∧
      Port_PortPinCheck 0x54 = E_OK ∧ DIO_ChannelIdCheck 0x54 = E_OK ∧
      (((0x54 &&& 0xF0) >>> 4) <<< 4) ||| (0x54 &&& 0x0F) = 0x54 := by
  decide

/-! ## Single channels -/

/-- A port below `HW_NO_OF_PORTS` has an entry in the base-address table, and
the entry leaves room for a 4 KiB block below 2 ^ 32. -/
theorem port_base_lookup (p : Nat) (hp : p ≤ 5) :
    ∃ base, HW_PortsAddresses[p]? = some base ∧ 0x40004000 ≤ base ∧ base ≤ 0x40025000 := by
  interval_cases p <;> exact ⟨_, rfl, by decide, by decide⟩

/-- For a bit below 8 the `uint8` cast of `1 << bit` loses nothing and the
alias offset `(1 << bit) << 2` is at most 0x200. -/
theorem dio_pin_offset (b : Nat) (hb : b ≤ 7) :
    (1 <<< b) % 256 = 1 <<< b ∧ (1 <<< b) <<< 2 ≤ 512 := by
  interval_cases b <;> decide

/-- A level of 0 or 1 shifted to a bit below 8 is at most 0x80. -/
theorem dio_level_shift (L b : Nat) (hL : L = STD_HIGH ∨ L = STD_LOW) (hb : b ≤ 7) :
    L <<< b ≤ 128 := by
  rcases hL with rfl | rfl <;> interval_cases b <;> decide

/-- What `Dio_ReadChannel` does on an accepted channel. -/
theorem dio_read_channel_run (s : HW) (c : Nat) (h : DIO_ChannelIdCheck c = E_OK) :
    ∃ base, HW_PortsAddresses[(c &&& 0xF0) >>> 4]? = some base ∧
      (1 <<< (c &&& 0x0F)) % 256 = 1 <<< (c &&& 0x0F) ∧
      Dio_ReadChannel s c =
        Outcome.done
          (if s.mem (base + ((1 <<< (c &&& 0x0F)) <<< 2)) % 2 ^ 32 ≠ 0 then STD_HIGH else STD_LOW)
          { mem := s.mem
            log := s.log ++ [Access.read (base + ((1 <<< (c &&& 0x0F)) <<< 2))] } := by
  obtain ⟨hp, hb⟩ := dio_decode_bounds c (by have := dio_accepted_le h; omega) h
  obtain ⟨base, hbase, h1, h2⟩ := port_base_lookup _ hp
  obtain ⟨hcast, hoff⟩ := dio_pin_offset _ hb
  refine ⟨base, hbase, hcast, ?_⟩
  unfold Dio_ReadChannel HW_R_8RIG
  rw [if_pos h.symm]
  generalize (c &&& 0xF0) >>> 4 = p at hbase ⊢
  generalize c &&& 0x0F = b at hb hcast hoff ⊢
  have hpin : b % 256 = b := Nat.mod_eq_of_lt (by omega)
  simp only [hpin, hcast, hbase]
  generalize (1 <<< b) <<< 2 = o at hoff ⊢
  have ha : (base + o) % 2 ^ 32 = base + o := Nat.mod_eq_of_lt (by omega)
  rw [ha]

/-- What `Dio_WriteChannel` does on an accepted channel and a level that is
`STD_LOW` or `STD_HIGH`. -/
theorem dio_write_channel_run (s : HW) (c L : Nat) (h : DIO_ChannelIdCheck c = E_OK)
    (hL : L = STD_HIGH ∨ L = STD_LOW) :
    ∃ base, HW_PortsAddresses[(c &&& 0xF0) >>> 4]? = some base ∧
      Dio_WriteChannel s c L =
        Outcome.done ()
          { mem := fun a =>
              if a = base + ((1 <<< (c &&& 0x0F)) <<< 2) then L <<< (c &&& 0x0F) else s.mem a
            log := s.log ++
              [Access.write (base + ((1 <<< (c &&& 0x0F)) <<< 2)) (L <<< (c &&& 0x0F))] } := by
  obtain ⟨hp, hb⟩ := dio_decode_bounds c (by have := dio_accepted_le h; omega) h
  obtain ⟨base, hbase, h1, h2⟩ := port_base_lookup _ hp
  obtain ⟨hcast, hoff⟩ := dio_pin_offset _ hb
  have hlev := dio_level_shift L _ hL hb
  refine ⟨base, hbase, ?_⟩
  unfold Dio_WriteChannel HW_W_8RIG
  rw [if_pos h.symm, if_pos hL]
  generalize (c &&& 0xF0) >>> 4 = p at hbase ⊢
  generalize c &&& 0x0F = b at hb hcast hoff hlev ⊢
  have hpin : b % 256 = b := Nat.mod_eq_of_lt (by omega)
  simp only [hpin, hcast, hbase]
  generalize (1 <<< b) <<< 2 = o at hoff ⊢
  generalize L <<< b = w at hlev ⊢
  have ha : (base + o) % 2 ^ 32 = base + o := Nat.mod_eq_of_lt (by omega)
  have hw : w % 2 ^ 32 = w := Nat.mod_eq_of_lt (by omega)
  rw [ha, hw]

/-- C3: for a valid channel c with decoded port and bit, `Dio_ReadChannel c`
returns after exactly one register access, a read at
`HW_PortsAddresses[port] + ((1 << bit) << 2)` (the `uint8` cast of `1 << bit`
loses nothing), with `STD_HIGH` if the word there is nonzero and `STD_LOW`
if it is zero. -/
theorem Dio_ReadChannel_single_read (s : HW) (c : Nat) (h : DIO_ChannelIdCheck c = E_OK) :
    ∃ base, HW_PortsAddresses[(c &&& 0xF0) >>> 4]? = some base ∧
      (1 <<< (c &&& 0x0F)) % 256 = 1 <<< (c &&& 0x0F) ∧
      Dio_ReadChannel s c =
        Outcome.done
          (if s.mem (base + ((1 <<< (c &&& 0x0F)) <<< 2)) % 2 ^ 32 ≠ 0 then STD_HIGH else STD_LOW)
          { mem := s.mem
            log := s.log ++ [Access.read (base + ((1 <<< (c &&& 0x0F)) <<< 2))] } :=
  dio_read_channel_run s c h

/-- C3 at channel B2 (0x12) on the all-zero register file: one read at
0x40005000 + 0x10, which returns `STD_LOW`. -/
theorem Dio_ReadChannel_single_read_witness :
    DIO_ChannelIdCheck 0x12 = E_OK ∧
      ∃ base, HW_PortsAddresses[(0x12 &&& 0xF0) >>> 4]? = some base ∧
        (1 <<< (0x12 &&& 0x0F)) % 256 = 1 <<< (0x12 &&& 0x0F) ∧
        Dio_ReadChannel HW.zero 0x12 =
          Outcome.done
            (if HW.zero.mem (base + ((1 <<< (0x12 &&& 0x0F)) <<< 2)) % 2 ^ 32 ≠ 0
              then STD_HIGH else STD_LOW)
            { mem := HW.zero.mem
              log := HW.zero.log ++ [Access.read (base + ((1 <<< (0x12 &&& 0x0F)) <<< 2))] } :=
  ⟨by decide, Dio_ReadChannel_single_read HW.zero 0x12 (by decide)⟩

/-- C4: for a valid channel c with decoded port and bit and a level L that is
`STD_LOW` or `STD_HIGH`, `Dio_WriteChannel c L` returns after exactly one
register access, a write of `L << bit` to
`HW_PortsAddresses[port] + ((1 << bit) << 2)`, the address `Dio_ReadChannel c`
reads; no other register word changes. -/
theorem Dio_WriteChannel_single_write (s : HW) (c L : Nat)
    (h : DIO_ChannelIdCheck c = E_OK) (hL : L = STD_LOW ∨ L = STD_HIGH) :
    ∃ base s1, HW_PortsAddresses[(c &&& 0xF0) >>> 4]? = some base ∧
      Dio_WriteChannel s c L = Outcome.done () s1 ∧
      s1.log = s.log ++
        [Access.write (base + ((1 <<< (c &&& 0x0F)) <<< 2)) (L <<< (c &&& 0x0F))] ∧
      s1.mem (base + ((1 <<< (c &&& 0x0F)) <<< 2)) = L <<< (c &&& 0x0F) ∧
      (∀ a, a ≠ base + ((1 <<< (c &&& 0x0F)) <<< 2) → s1.mem a = s.mem a) ∧
      (Dio_ReadChannel s c).hw.log =
        s.log ++ [Access.read (base + ((1 <<< (c &&& 0x0F)) <<< 2))] := by
  obtain ⟨base, hb, hw⟩ := dio_write_channel_run s c L h hL.symm
  obtain ⟨base2, hb2, -, hr⟩ := dio_read_channel_run s c h
  have hbb : base2 = base := Option.some.inj (hb2.symm.trans hb)
  subst hbb
  refine ⟨base2, _, hb, hw, rfl, by simp, ?_, by rw [hr]; rfl⟩
  intro a ha
  simp [ha]

/-- C4 at channel B2 (0x12), level `STD_HIGH`, on the all-zero register file:
one write of 4 to 0x40005010. -/
theorem Dio_WriteChannel_single_write_witness :
    DIO_ChannelIdCheck 0x12 = E_OK ∧ (STD_HIGH = STD_LOW ∨ STD_HIGH = STD_HIGH) ∧
      ∃ base s1, HW_PortsAddresses[(0x12 &&& 0xF0) >>> 4]? = some base ∧
        Dio_WriteChannel HW.zero 0x12 STD_HIGH = Outcome.done () s1 ∧
        s1.log = HW.zero.log ++
          [Access.write (base + ((1 <<< (0x12 &&& 0x0F)) <<< 2)) (STD_HIGH <<< (0x12 &&& 0x0F))] ∧
        s1.mem (base + ((1 <<< (0x12 &&& 0x0F)) <<< 2)) = STD_HIGH <<< (0x12 &&& 0x0F) ∧
        (∀ a, a ≠ base + ((1 <<< (0x12 &&& 0x0F)) <<< 2) → s1.mem a = HW.zero.mem a) ∧
        (Dio_ReadChannel HW.zero 0x12).hw.log =
          HW.zero.log ++ [Access.read (base + ((1 <<< (0x12 &&& 0x0F)) <<< 2))] :=
  ⟨by decide, Or.inr rfl,
    Dio_WriteChannel_single_write HW.zero 0x12 STD_HIGH (by decide) (Or.inr rfl)⟩

/-- On an accepted channel, a write of `STD_HIGH` or `STD_LOW` followed by a
read returns the level written. -/
theorem dio_write_channel_then_read (s : HW) (c L : Nat)
    (h : DIO_ChannelIdCheck c = E_OK) (hL : L = STD_HIGH ∨ L = STD_LOW) :
    ∃ s1 s2, Dio_WriteChannel s c L = Outcome.done () s1 ∧
      Dio_ReadChannel s1 c = Outcome.done L s2 := by
  obtain ⟨base, hb, hw⟩ := dio_write_channel_run s c L h hL
  obtain ⟨base2, hb2, -, hr⟩ := dio_read_channel_run
    { mem := fun a =>
        if a = base + ((1 <<< (c &&& 0x0F)) <<< 2) then L <<< (c &&& 0x0F) else s.mem a
      log := s.log ++
        [Access.write (base + ((1 <<< (c &&& 0x0F)) <<< 2)) (L <<< (c &&& 0x0F))] } c h
  have hbb : base2 = base := Option.some.inj (hb2.symm.trans hb)
  subst hbb
  obtain ⟨-, hbit⟩ := dio_decode_bounds c (by have := dio_accepted_le h; omega) h
  have hval : (if (L <<< (c &&& 0x0F)) % 2 ^ 32 ≠ 0 then STD_HIGH else STD_LOW) = L := by
    generalize c &&& 0x0F = b at hbit ⊢
    rcases hL with rfl | rfl <;> interval_cases b <;> simp [STD_HIGH, STD_LOW]
  simp only [if_true] at hr
  rw [hval] at hr
  exact ⟨_, _, hw, hr⟩

/-- C5: for every valid channel c and level L in {`STD_HIGH`, `STD_LOW`},
from any register state, `Dio_WriteChannel c L` followed by
`Dio_ReadChannel c` returns L. -/
theorem Dio_WriteChannel_then_ReadChannel (s : HW) (c L : Nat)
    (h : DIO_ChannelIdCheck c = E_OK) (hL : L = STD_HIGH ∨ L = STD_LOW) :
    ∃ s1 s2, Dio_WriteChannel s c L = Outcome.done () s1 ∧
      Dio_ReadChannel s1 c = Outcome.done L s2 :=
  dio_write_channel_then_read s c L h hL

/-- C5 at channel F4 (0x54), level `STD_HIGH`, from the all-zero register
file. -/
theorem Dio_WriteChannel_then_ReadChannel_witness :
    DIO_ChannelIdCheck 0x54 = E_OK ∧ (STD_HIGH = STD_HIGH ∨ STD_HIGH = STD_LOW) ∧
      ∃ s1 s2, Dio_WriteChannel HW.zero 0x54 STD_HIGH = Outcome.done () s1 ∧
        Dio_ReadChannel s1 0x54 = Outcome.done STD_HIGH s2 :=
  ⟨by decide, Or.inl rfl,
    Dio_WriteChannel_then_ReadChannel HW.zero 0x54 STD_HIGH (by decide) (Or.inl rfl)⟩

/-! ## Whole ports -/

/-- What `Dio_WritePort` does on a port in 0..5. -/
theorem dio_write_port_run (s : HW) (p v : Nat) (hp : p ≤ 5) (hv : v < 256) :
    ∃ base, HW_PortsAddresses[p]? = some base ∧
      Dio_WritePort s p v =
        Outcome.done ()
          { mem := fun a => if a = base + 0x3FC then v else s.mem a
            log := s.log ++ [Access.write (base + 0x3FC) v] } := by
  obtain ⟨base, hb, h1, h2⟩ := port_base_lookup p hp
  refine ⟨base, hb, ?_⟩
  have ha : (base + 1020) % 4294967296 = base + 1020 := Nat.mod_eq_of_lt (by omega)
  have hv2 : v % 4294967296 = v := Nat.mod_eq_of_lt (by omega)
  have hchk : DIO_PortIdCheck p = E_OK := by simp [DIO_PortIdCheck, hp]
  simp [Dio_WritePort, hchk, hb, HW_W_8RIG, ha, hv2]

/-- What `Dio_ReadPort` does on a port in 0..5. -/
theorem dio_read_port_run (s : HW) (p : Nat) (hp : p ≤ 5) :
    ∃ base, HW_PortsAddresses[p]? = some base ∧
      Dio_ReadPort s p =
        Outcome.done (s.mem (base + 0x3FC) % 2 ^ 32 % 256)
          { mem := s.mem, log := s.log ++ [Access.read (base + 0x3FC)] } := by
  obtain ⟨base, hb, h1, h2⟩ := port_base_lookup p hp
  refine ⟨base, hb, ?_⟩
  have ha : (base + 1020) % 4294967296 = base + 1020 := Nat.mod_eq_of_lt (by omega)
  have hchk : DIO_PortIdCheck p = E_OK := by simp [DIO_PortIdCheck, hp]
  simp [Dio_ReadPort, hchk, hb, HW_R_8RIG, ha]

/-- A port write followed by a port read returns the byte written. -/
theorem dio_write_port_read_port (s : HW) (p v : Nat) (hp : p ≤ 5) (hv : v < 256) :
    ∃ s1 s2, Dio_WritePort s p v = Outcome.done () s1 ∧
      Dio_ReadPort s1 p = Outcome.done v s2 := by
  obtain ⟨base, hb, hw⟩ := dio_write_port_run s p v hp hv
  obtain ⟨base2, hb2, hr⟩ := dio_read_port_run
    { mem := fun a => if a = base + 0x3FC then v else s.mem a
      log := s.log ++ [Access.write (base + 0x3FC) v] } p hp
  have hbb : base2 = base := Option.some.inj (hb2.symm.trans hb)
  subst hbb
  have hval : v % 2 ^ 32 % 256 = v := by omega
  dsimp only at hr
  rw [if_pos rfl, hval] at hr
  exact ⟨_, _, hw, hr⟩

/-- C6: for every port p in 0..5 and every byte v, `Dio_WritePort p v`
returns after exactly one register access, a write of v to
`HW_PortsAddresses[p] + 0x3FC`; `Dio_ReadPort p` returns the low 8 bits of
the word at that address; and `Dio_WritePort p v` followed by
`Dio_ReadPort p` returns v. -/
theorem Dio_WritePort_ReadPort (s : HW) (p v : Nat) (hp : p ≤ 5) (hv : v < 256) :
    ∃ base, HW_PortsAddresses[p]? = some base ∧
      Dio_WritePort s p v =
        Outcome.done ()
          { mem := fun a => if a = base + 0x3FC then v else s.mem a
            log := s.log ++ [Access.write (base + 0x3FC) v] } ∧
      Dio_ReadPort s p =
        Outcome.done (s.mem (base + 0x3FC) % 2 ^ 32 % 256)
          { mem := s.mem, log := s.log ++ [Access.read (base + 0x3FC)] } ∧
      ∃ s1 s2, Dio_WritePort s p v = Outcome.done () s1 ∧
        Dio_ReadPort s1 p = Outcome.done v s2 := by
  obtain ⟨base, hb, hw⟩ := dio_write_port_run s p v hp hv
  obtain ⟨base2, hb2, hr⟩ := dio_read_port_run s p hp
  have hbb : base2 = base := Option.some.inj (hb2.symm.trans hb)
  subst hbb
  exact ⟨base2, hb, hw, hr, dio_write_port_read_port s p v hp hv⟩

/-- C6 at port C (2) and byte 0xA5 on the all-zero register file. -/
theorem Dio_WritePort_ReadPort_witness :
    2 ≤ 5 ∧ 0xA5 < 256 ∧
      ∃ base, HW_PortsAddresses[2]? = some base ∧
        Dio_WritePort HW.zero 2 0xA5 =
          Outcome.done ()
            { mem := fun a => if a = base + 0x3FC then 0xA5 else HW.zero.mem a
              log := HW.zero.log ++ [Access.write (base + 0x3FC) 0xA5] } ∧
        Dio_ReadPort HW.zero 2 =
          Outcome.done (HW.zero.mem (base + 0x3FC) % 2 ^ 32 % 256)
            { mem := HW.zero.mem, log := HW.zero.log ++ [Access.read (base + 0x3FC)] } ∧
        ∃ s1 s2, Dio_WritePort HW.zero 2 0xA5 = Outcome.done () s1 ∧
          Dio_ReadPort s1 2 = Outcome.done 0xA5 s2 :=
  ⟨by decide, by decide, Dio_WritePort_ReadPort HW.zero 2 0xA5 (by decide) (by decide)⟩

/-- C7, as stated, fails at port E (4): from the all-zero register file,
`Dio_WritePort 4 0xFF` followed by `Dio_ReadPort 4` returns 0xFF, bits 6 and 7
included, and therefore not 0x3F. -/
theorem Dio_ReadPort_portE_reports_unused_bits :
    (∃ s1 s2, Dio_WritePort HW.zero 4 0xFF = Outcome.done () s1 ∧
        Dio_ReadPort s1 4 = Outcome.done 0xFF s2) ∧
      ¬ ∃ s1 s2, Dio_WritePort HW.zero 4 0xFF = Outcome.done () s1 ∧
        Dio_ReadPort s1 4 = Outcome.done 0x3F s2 := by
  obtain ⟨t1, t2, hw, hr⟩ := dio_write_port_read_port HW.zero 4 0xFF (by decide) (by decide)
  refine ⟨⟨t1, t2, hw, hr⟩, ?_⟩
  rintro ⟨s1, s2, hw2, hr2⟩
  rw [hw] at hw2
  injection hw2 with _ h1
  subst h1
  rw [hr] at hr2
  injection hr2 with hval _
  exact absurd hval (by decide)

/-- C7, amended: for every port p in 0..5, with the registers an
address-to-word map, `Dio_WritePort p 0xFF` followed by `Dio_ReadPort p`
returns 0xFF, ports E and F included; the driver applies no per-port mask. -/
theorem Dio_WritePort_FF_then_ReadPort (s : HW) (p : Nat) (hp : p ≤ 5) :
    ∃ s1 s2, Dio_WritePort s p 0xFF = Outcome.done () s1 ∧
      Dio_ReadPort s1 p = Outcome.done 0xFF s2 :=
  dio_write_port_read_port s p 0xFF hp (by decide)

/-- C7, amended, at port F (5) from the all-zero register file. -/
theorem Dio_WritePort_FF_then_ReadPort_witness :
    5 ≤ 5 ∧ ∃ s1 s2, Dio_WritePort HW.zero 5 0xFF = Outcome.done () s1 ∧
      Dio_ReadPort s1 5 = Outcome.done 0xFF s2 :=
  ⟨by decide, Dio_WritePort_FF_then_ReadPort HW.zero 5 (by decide)⟩

/-! ## Channel groups -/

/-- The offset added to the base address by a group access stays far below
2 ^ 32 when the mask is a byte and the group offset is at most 7. -/
theorem dio_group_shift_bound (m o : Nat) (hm : m < 256) (ho : o ≤ 7) :
    m <<< (2 + o) ≤ 130560 := by
  rw [Nat.shiftLeft_eq]
  interval_cases o <;> norm_num <;> omega

/-- What `Dio_WriteChannelGroup` does on a group that passes its checks. -/
theorem dio_write_group_run (s : HW) (g : Dio_ChannelGroupType) (v : Nat)
    (hm : g.mask < 256) (ho : g.offset ≤ 7) (hp : g.port ≤ 5) (hv : v < 256) :
    ∃ base, HW_PortsAddresses[g.port]? = some base ∧
      Dio_WriteChannelGroup s (some g) v =
        Outcome.done ()
          { mem := fun a => if a = base + (g.mask <<< (2 + g.offset)) then v else s.mem a
            log := s.log ++ [Access.write (base + (g.mask <<< (2 + g.offset))) v] } := by
  obtain ⟨base, hb, h1, h2⟩ := port_base_lookup g.port hp
  refine ⟨base, hb, ?_⟩
  have hsh := dio_group_shift_bound g.mask g.offset hm ho
  have ha : (base + (g.mask <<< (2 + g.offset))) % 4294967296 =
      base + (g.mask <<< (2 + g.offset)) := Nat.mod_eq_of_lt (by omega)
  have hv2 : v % 4294967296 = v := Nat.mod_eq_of_lt (by omega)
  have hchk1 : DIO_ChannelOffsetCheck g.offset = E_OK := by simp [DIO_ChannelOffsetCheck, ho]
  have hchk2 : DIO_PortIdCheck g.port = E_OK := by simp [DIO_PortIdCheck, hp]
  simp [Dio_WriteChannelGroup, hchk1, hchk2, hb, HW_W_8RIG, ha, hv2]

/-- What `Dio_ReadChannelGroup` does on a group that passes its checks. -/
theorem dio_read_group_run (s : HW) (g : Dio_ChannelGroupType)
    (hm : g.mask < 256) (ho : g.offset ≤ 7) (hp : g.port ≤ 5) :
    ∃ base, HW_PortsAddresses[g.port]? = some base ∧
      Dio_ReadChannelGroup s (some g) =
        Outcome.done (s.mem (base + (g.mask <<< (2 + g.offset))) % 2 ^ 32 % 256)
          { mem := s.mem
            log := s.log ++ [Access.read (base + (g.mask <<< (2 + g.offset)))] } := by
  obtain ⟨base, hb, h1, h2⟩ := port_base_lookup g.port hp
  refine ⟨base, hb, ?_⟩
  have hsh := dio_group_shift_bound g.mask g.offset hm ho
  have ha : (base + (g.mask <<< (2 + g.offset))) % 4294967296 =
      base + (g.mask <<< (2 + g.offset)) := Nat.mod_eq_of_lt (by omega)
  have hchk1 : DIO_ChannelOffsetCheck g.offset = E_OK := by simp [DIO_ChannelOffsetCheck, ho]
  have hchk2 : DIO_PortIdCheck g.port = E_OK := by simp [DIO_PortIdCheck, hp]
  simp [Dio_ReadChannelGroup, hchk1, hchk2, hb, HW_R_8RIG, ha]

/-- Both group services abort, with the register file untouched, on a group
whose offset exceeds 7 or whose port exceeds 5. -/
theorem dio_group_abort (t : HW) (g : Dio_ChannelGroupType) (w : Nat)
    (h : 7 < g.offset ∨ 5 < g.port) :
    Dio_WriteChannelGroup t (some g) w = Outcome.abort t ∧
      Dio_ReadChannelGroup t (some g) = Outcome.abort t := by
  by_cases ho : g.offset ≤ 7
  · have hp : ¬ g.port ≤ 5 := by omega
    simp [Dio_WriteChannelGroup, Dio_ReadChannelGroup, DIO_ChannelOffsetCheck, DIO_PortIdCheck,
      ho, hp]
  · simp [Dio_WriteChannelGroup, Dio_ReadChannelGroup, DIO_ChannelOffsetCheck, ho]

/-- C8: for a non-null channel group g with offset at most 7 and port in
0..5, `Dio_WriteChannelGroup g v` returns after exactly one register access,
a write of the unshifted v to `HW_PortsAddresses[g.port] + (g.mask << (2 +
g.offset))`, and `Dio_ReadChannelGroup g` returns the low 8 bits of the word
at that address, not shifted; both abort with no register access made when
the pointer is null, the offset exceeds 7 or the port exceeds 5. -/
theorem Dio_ChannelGroup_access (s t : HW) (g g2 : Dio_ChannelGroupType) (v w : Nat)
    (hm : g.mask < 256) (ho : g.offset ≤ 7) (hp : g.port ≤ 5) (hv : v < 256)
    (h2 : 7 < g2.offset ∨ 5 < g2.port) :
    (∃ base, HW_PortsAddresses[g.port]? = some base ∧
      Dio_WriteChannelGroup s (some g) v =
        Outcome.done ()
          { mem := fun a => if a = base + (g.mask <<< (2 + g.offset)) then v else s.mem a
            log := s.log ++ [Access.write (base + (g.mask <<< (2 + g.offset))) v] } ∧
      Dio_ReadChannelGroup s (some g) =
        Outcome.done (s.mem (base + (g.mask <<< (2 + g.offset))) % 2 ^ 32 % 256)
          { mem := s.mem
            log := s.log ++ [Access.read (base + (g.mask <<< (2 + g.offset)))] }) ∧
    Dio_WriteChannelGroup t none w = Outcome.abort t ∧
    Dio_ReadChannelGroup t none = Outcome.abort t ∧
    Dio_WriteChannelGroup t (some g2) w = Outcome.abort t ∧
    Dio_ReadChannelGroup t (some g2) = Outcome.abort t := by
  obtain ⟨base, hb, hw⟩ := dio_write_group_run s g v hm ho hp hv
  obtain ⟨base2, hb2, hr⟩ := dio_read_group_run s g hm ho hp
  have hbb : base2 = base := Option.some.inj (hb2.symm.trans hb)
  subst hbb
  exact ⟨⟨base2, hb, hw, hr⟩, rfl, rfl, dio_group_abort t g2 w h2⟩

/-- C8 on the all-zero register file: the group {mask 0b11, offset 2, port A}
with value 0b10 is accessed at 0x40004000 + (3 << 4); the group with offset 9
aborts. -/
theorem Dio_ChannelGroup_access_witness :
    ((3 : Nat) < 256 ∧ (2 : Nat) ≤ 7 ∧ (0 : Nat) ≤ 5 ∧ (2 : Nat) < 256 ∧
      ((7 : Nat) < 9 ∨ (5 : Nat) < 0)) ∧
    (∃ base, HW_PortsAddresses[0]? = some base ∧
      Dio_WriteChannelGroup HW.zero (some ⟨3, 2, 0⟩) 2 =
        Outcome.done ()
          { mem := fun a => if a = base + (3 <<< (2 + 2)) then 2 else HW.zero.mem a
            log := HW.zero.log ++ [Access.write (base + (3 <<< (2 + 2))) 2] } ∧
      Dio_ReadChannelGroup HW.zero (some ⟨3, 2, 0⟩) =
        Outcome.done (HW.zero.mem (base + (3 <<< (2 + 2))) % 2 ^ 32 % 256)
          { mem := HW.zero.mem
            log := HW.zero.log ++ [Access.read (base + (3 <<< (2 + 2)))] }) ∧
    Dio_WriteChannelGroup HW.zero none 2 = Outcome.abort HW.zero ∧
    Dio_ReadChannelGroup HW.zero none = Outcome.abort HW.zero ∧
    Dio_WriteChannelGroup HW.zero (some ⟨3, 9, 0⟩) 2 = Outcome.abort HW.zero ∧
    Dio_ReadChannelGroup HW.zero (some ⟨3, 9, 0⟩) = Outcome.abort HW.zero :=
  ⟨⟨by decide, by decide, by decide, by decide, Or.inl (by decide)⟩,
    Dio_ChannelGroup_access HW.zero HW.zero ⟨3, 2, 0⟩ ⟨3, 9, 0⟩ 2 2
      (by decide) (by decide) (by decide) (by decide) (Or.inl (by decide))⟩

/-- The access `Dio_WriteChannelGroup` makes for the group {mask 0b11, offset
2, port A} and the value 0b10: the unshifted value, at 0x40004000 + 0x30. -/
theorem dio_write_group_example_log :
    (Dio_WriteChannelGroup HW.zero (some ⟨0b11, 2, 0⟩) 0b10).hw.log =
      [Access.write (0x40004000 + 0x30) 0b10] := by
  obtain ⟨base, hb, hw⟩ := dio_write_group_run HW.zero ⟨0b11, 2, 0⟩ 0b10
    (by decide) (by decide) (by decide) (by decide)
  have hbase : base = 0x40004000 := (Option.some.inj hb).symm
  subst hbase
  rw [hw]
  rfl

set_option maxRecDepth 100000 in
/-- The hardware's effect of a write of 0b10 at 0x40004000 + 0x30 on port A's
data register: bits 2 and 3 are cleared, the others are kept. -/
theorem gpio_data_example : ∀ d, d < 256 →
    gpioDataReplay 0x40004000 d [Access.write (0x40004000 + 0x30) 0b10] = d &&& 0xF3 ∧
      ((d &&& 0xF3) >>> 2) &&& 0b11 = 0 := by
  decide

/-- C9, evaluated at its own example: for port A and the group {mask 0b11,
offset 2}, `Dio_WriteChannelGroup` with v = 0b10 writes the unshifted 0b10 at
0x40004000 + 0x30; with the data alias region treated as the hardware treats
it, any data register content d becomes `d & 0xF3`, so bits 0-1 and 4-7 are
unchanged but bits 2-3 read 00 and not 10. -/
theorem Dio_WriteChannelGroup_level_not_shifted :
    (Dio_WriteChannelGroup HW.zero (some ⟨0b11, 2, 0⟩) 0b10).hw.log =
      [Access.write (0x40004000 + 0x30) 0b10] ∧
    ∀ d, d < 256 →
      gpioDataReplay 0x40004000 d
          (Dio_WriteChannelGroup HW.zero (some ⟨0b11, 2, 0⟩) 0b10).hw.log = d &&& 0xF3 ∧
        ((gpioDataReplay 0x40004000 d
          (Dio_WriteChannelGroup HW.zero (some ⟨0b11, 2, 0⟩) 0b10).hw.log) >>> 2) &&& 0b11 = 0 := by
  refine ⟨dio_write_group_example_log, ?_⟩
  intro d hd
  rw [dio_write_group_example_log, (gpio_data_example d hd).1]
  exact ⟨rfl, (gpio_data_example d hd).2⟩

/-- C10, as stated, fails: the groups {mask 2, offset 7, port A} and {mask
0x10, offset 7, port A} pass all checks although `mask << offset` exceeds
0xFF; the first is accessed at port A's direction register (base + 0x400),
the second at 0x40006000, the base of port C. -/
theorem Dio_ChannelGroup_checks_admit_GPIODIR :
    DIO_ChannelOffsetCheck 7 = E_OK ∧ DIO_PortIdCheck 0 = E_OK ∧
    ¬ (2 <<< 7 ≤ 0xFF) ∧ ¬ (0x10 <<< 7 ≤ 0xFF) ∧
    HW_PortsAddresses[0]? = some 0x40004000 ∧ HW_PortsAddresses[2]? = some 0x40006000 ∧
    Dio_WriteChannelGroup HW.zero (some ⟨2, 7, 0⟩) 1 =
      Outcome.done ()
        { mem := fun a => if a = 0x40004000 + HW_GPIODIR_OFFSET then 1 else 0
          log := [Access.write (0x40004000 + HW_GPIODIR_OFFSET) 1] } ∧
    Dio_ReadChannelGroup HW.zero (some ⟨2, 7, 0⟩) =
      Outcome.done 0
        { mem := fun _ => 0, log := [Access.read (0x40004000 + HW_GPIODIR_OFFSET)] } ∧
    ¬ (0x40004000 + HW_GPIODIR_OFFSET ≤ 0x40004000 + 0x3FC) ∧
    Dio_WriteChannelGroup HW.zero (some ⟨0x10, 7, 0⟩) 1 =
      Outcome.done ()
        { mem := fun a => if a = 0x40006000 then 1 else 0
          log := [Access.write 0x40006000 1] } := by
  refine ⟨by decide, by decide, by decide, by decide, rfl, rfl, ?_, ?_, by decide, ?_⟩
  · obtain ⟨base, hb, hw⟩ := dio_write_group_run HW.zero ⟨2, 7, 0⟩ 1
      (by decide) (by decide) (by decide) (by decide)
    have hbase : base = 0x40004000 := (Option.some.inj hb).symm
    subst hbase
    rw [hw]
    rfl
  · obtain ⟨base, hb, hr⟩ := dio_read_group_run HW.zero ⟨2, 7, 0⟩
      (by decide) (by decide) (by decide)
    have hbase : base = 0x40004000 := (Option.some.inj hb).symm
    subst hbase
    rw [hr]
    rfl
  · obtain ⟨base, hb, hw⟩ := dio_write_group_run HW.zero ⟨0x10, 7, 0⟩ 1
      (by decide) (by decide) (by decide) (by decide)
    have hbase : base = 0x40004000 := (Option.some.inj hb).symm
    subst hbase
    rw [hw]
    rfl

/-- A table lookup that succeeds is at an index below `HW_NO_OF_PORTS`. -/
theorem port_lookup_lt (q base : Nat) (h : HW_PortsAddresses[q]? = some base) : q ≤ 5 := by
  by_contra hq
  have hlen : HW_PortsAddresses.length ≤ q := by
    simp only [HW_PortsAddresses, List.length_cons, List.length_nil]
    omega
  rw [List.getElem?_eq_none hlen] at h
  cases h

/-- The 4 KiB blocks of two different ports are at least 4 KiB apart. -/
theorem port_blocks_apart (p q bp bq : Nat) (hpq : q ≠ p)
    (hp : HW_PortsAddresses[p]? = some bp) (hq : HW_PortsAddresses[q]? = some bq) :
    bp + 0x1000 ≤ bq ∨ bq + 0x1000 ≤ bp := by
  have hp5 := port_lookup_lt p bp hp
  have hq5 := port_lookup_lt q bq hq
  interval_cases p <;> interval_cases q <;>
    first
      | exact absurd rfl hpq
      | (have h1 := Option.some.inj hp
         have h2 := Option.some.inj hq
         subst h1
         subst h2
         decide)

/-- C10, amended: for a channel group that passes the checks (non-null,
offset at most 7, port in 0..5) and whose mask and offset also satisfy
`g.mask << g.offset <= 0xFF`, the one address that `Dio_WriteChannelGroup`
and `Dio_ReadChannelGroup` access, `base + (g.mask << (2 + g.offset))`, lies
in the port's data alias region [base, base + 0x3FC], below the first
configuration register at base + 0x400 and outside every other port's block. -/
theorem Dio_ChannelGroup_address_in_data_region (s : HW) (g : Dio_ChannelGroupType) (v : Nat)
    (ho : g.offset ≤ 7) (hp : g.port ≤ 5) (hmo : g.mask <<< g.offset ≤ 0xFF) (hv : v < 256) :
    ∃ base a, HW_PortsAddresses[g.port]? = some base ∧
      a = base + (g.mask <<< (2 + g.offset)) ∧
      (∃ s1, Dio_WriteChannelGroup s (some g) v = Outcome.done () s1 ∧
        s1.log = s.log ++ [Access.write a v]) ∧
      (∃ r s1, Dio_ReadChannelGroup s (some g) = Outcome.done r s1 ∧
        s1.log = s.log ++ [Access.read a]) ∧
      base ≤ a ∧ a ≤ base + 0x3FC ∧ a < base + HW_GPIODIR_OFFSET ∧
      ∀ q base2, q ≠ g.port → HW_PortsAddresses[q]? = some base2 →
        a < base2 ∨ base2 + 0xFFF < a := by
  have hm : g.mask < 256 := by
    have h1 : g.mask ≤ g.mask <<< g.offset := by
      rw [Nat.shiftLeft_eq]
      exact Nat.le_mul_of_pos_right _ (Nat.two_pow_pos g.offset)
    omega
  have hsh : g.mask <<< (2 + g.offset) ≤ 0x3FC := by
    have h4 : g.mask <<< (2 + g.offset) = (g.mask <<< g.offset) * 4 := by
      rw [Nat.shiftLeft_eq, Nat.shiftLeft_eq, Nat.add_comm 2, Nat.pow_add]
      ring
    omega
  obtain ⟨base, hb, hw⟩ := dio_write_group_run s g v hm ho hp hv
  obtain ⟨base2, hb2, hr⟩ := dio_read_group_run s g hm ho hp
  have hbb : base2 = base := Option.some.inj (hb2.symm.trans hb)
  subst hbb
  refine ⟨base2, _, hb, rfl, ⟨_, hw, rfl⟩, ⟨_, _, hr, rfl⟩, ?_⟩
  generalize g.mask <<< (2 + g.offset) = m at hsh ⊢
  clear hw hr hmo
  refine ⟨by omega, by omega, ?_, ?_⟩
  · show _ < base2 + 0x400
    omega
  · intro q bq hq hbq
    rcases port_blocks_apart g.port q base2 bq hq hb hbq with h | h <;> omega

/-- C10, amended, at the group {mask 0b11, offset 2, port A} and value 0b10
on the all-zero register file. -/
theorem Dio_ChannelGroup_address_in_data_region_witness :
    ((2 : Nat) ≤ 7 ∧ (0 : Nat) ≤ 5 ∧ 0b11 <<< 2 ≤ 0xFF ∧ 0b10 < 256) ∧
    ∃ base a, HW_PortsAddresses[0]? = some base ∧
      a = base + (0b11 <<< (2 + 2)) ∧
      (∃ s1, Dio_WriteChannelGroup HW.zero (some ⟨0b11, 2, 0⟩) 0b10 = Outcome.done () s1 ∧
        s1.log = HW.zero.log ++ [Access.write a 0b10]) ∧
      (∃ r s1, Dio_ReadChannelGroup HW.zero (some ⟨0b11, 2, 0⟩) = Outcome.done r s1 ∧
        s1.log = HW.zero.log ++ [Access.read a]) ∧
      base ≤ a ∧ a ≤ base + 0x3FC ∧ a < base + HW_GPIODIR_OFFSET ∧
      ∀ q base2, q ≠ 0 → HW_PortsAddresses[q]? = some base2 →
        a < base2 ∨ base2 + 0xFFF < a :=
  ⟨⟨by decide, by decide, by decide, by decide⟩,
    Dio_ChannelGroup_address_in_data_region HW.zero ⟨0b11, 2, 0⟩ 0b10
      (by decide) (by decide) (by decide) (by decide)⟩

/-! ## Flipping a channel -/

/-- C11: for every valid channel c and every register state,
`Dio_FlipChannel c` returns the logical inverse of the level l that
`Dio_ReadChannel c` returns in that state (`STD_LOW` gives `STD_HIGH`,
`STD_HIGH` gives `STD_LOW`), and a `Dio_ReadChannel c` made right after the
flip returns the level the flip returned. -/
theorem Dio_FlipChannel_inverts (s : HW) (c : Nat) (h : DIO_ChannelIdCheck c = E_OK) :
    ∃ l s0 s1 s2, Dio_ReadChannel s c = Outcome.done l s0 ∧
      (l = STD_LOW ∨ l = STD_HIGH) ∧
      Dio_FlipChannel s c = Outcome.done (if l = STD_LOW then STD_HIGH else STD_LOW) s1 ∧
      Dio_ReadChannel s1 c = Outcome.done (if l = STD_LOW then STD_HIGH else STD_LOW) s2 := by
  obtain ⟨base, hb, -, hr⟩ := dio_read_channel_run s c h
  generalize hl : (if s.mem (base + ((1 <<< (c &&& 0x0F)) <<< 2)) % 2 ^ 32 ≠ 0
    then STD_HIGH else STD_LOW) = l at hr
  have hl2 : l = STD_LOW ∨ l = STD_HIGH := by
    rw [← hl]
    split_ifs
    · exact Or.inr rfl
    · exact Or.inl rfl
  have hnew : (if l = 0 then 1 else 0) % 256 = (if l = STD_LOW then STD_HIGH else STD_LOW) := by
    rcases hl2 with rfl | rfl <;> decide
  have hnew2 : (if l = STD_LOW then STD_HIGH else STD_LOW) = STD_HIGH ∨
      (if l = STD_LOW then STD_HIGH else STD_LOW) = STD_LOW := by
    rcases hl2 with rfl | rfl
    · exact Or.inl rfl
    · exact Or.inr rfl
  obtain ⟨t1, t2, hw, hr2⟩ := dio_write_channel_then_read _ c _ h hnew2
  refine ⟨l, _, t1, t2, hr, hl2, ?_, hr2⟩
  unfold Dio_FlipChannel
  rw [if_pos h.symm, hr]
  simp only [Outcome.bind]
  rw [hnew, hw]

/-- C11 at channel A3 (0x03) on the all-zero register file: the channel reads
`STD_LOW`, the flip returns `STD_HIGH`, and so does the read after it. -/
theorem Dio_FlipChannel_inverts_witness :
    DIO_ChannelIdCheck 0x03 = E_OK ∧
    ∃ l s0 s1 s2, Dio_ReadChannel HW.zero 0x03 = Outcome.done l s0 ∧
      (l = STD_LOW ∨ l = STD_HIGH) ∧
      Dio_FlipChannel HW.zero 0x03 =
        Outcome.done (if l = STD_LOW then STD_HIGH else STD_LOW) s1 ∧
      Dio_ReadChannel s1 0x03 = Outcome.done (if l = STD_LOW then STD_HIGH else STD_LOW) s2 :=
  ⟨by decide, Dio_FlipChannel_inverts HW.zero 0x03 (by decide)⟩

/-! ## Masked port write -/

/-- A byte has no bit at position 8 or above. -/
theorem byte_testBit_high (d i : Nat) (hd : d < 256) (hi : 8 ≤ i) : d.testBit i = false := by
  have hpow : 2 ^ 8 ≤ 2 ^ i := Nat.pow_le_pow_right (by decide) hi
  exact Nat.testBit_lt_two_pow (by omega)

/-- The hardware's effect of one write of `level` at `base + (mask << 2)` on a
data register d: the bits that mask selects become those of level, the
others stay. -/
theorem gpio_data_masked_write (base d level mask i : Nat) (hd : d < 256) (hm : mask < 256) :
    (gpioDataReplay base d [Access.write (base + (mask <<< 2)) level]).testBit i =
      if mask.testBit i then level.testBit i else d.testBit i := by
  have hsh : mask <<< 2 ≤ 0x3FC := by
    rw [Nat.shiftLeft_eq]
    omega
  have hmod : (base + (mask <<< 2) - base) % 4 = 0 := by
    rw [Nat.add_sub_cancel_left, Nat.shiftLeft_eq]
    omega
  have hsel : (base + (mask <<< 2) - base) >>> 2 = mask := by
    rw [Nat.add_sub_cancel_left, Nat.shiftLeft_shiftRight]
  have hcond : base ≤ base + (mask <<< 2) ∧ base + (mask <<< 2) ≤ base + 0x3FC ∧
      (base + (mask <<< 2) - base) % 4 = 0 := ⟨by omega, by omega, hmod⟩
  have h255 : (0xFF : Nat).testBit i = decide (i < 8) := Nat.testBit_two_pow_sub_one 8 i
  simp only [gpioDataReplay, gpioDataWrite]
  rw [if_pos hcond, hsel, Nat.testBit_or, Nat.testBit_and, Nat.testBit_and, Nat.testBit_xor, h255]
  by_cases hi : i < 8
  · cases hmi : mask.testBit i <;> simp [hi]
  · have h1 := byte_testBit_high d i hd (by omega)
    have h2 := byte_testBit_high mask i hm (by omega)
    simp [h1, h2]

/-- C12: for every port p in 0..5 and bytes level and mask,
`Dio_MaskedWritePort p level mask` returns after exactly one register access,
a write of level to `HW_PortsAddresses[p] + (mask << 2)`, an address in
[base, base + 0x3FC]; with the data alias region treated as the hardware
treats it, each bit of the port's data register that mask selects takes the
bit of level and every other bit keeps its value. -/
theorem Dio_MaskedWritePort_masked (s : HW) (p level mask : Nat)
    (hp : p ≤ 5) (hl : level < 256) (hm : mask < 256) :
    ∃ base, HW_PortsAddresses[p]? = some base ∧
      Dio_MaskedWritePort s p level mask =
        Outcome.done ()
          { mem := fun a => if a = base + (mask <<< 2) then level else s.mem a
            log := s.log ++ [Access.write (base + (mask <<< 2)) level] } ∧
      base ≤ base + (mask <<< 2) ∧ base + (mask <<< 2) ≤ base + 0x3FC ∧
      ∀ d, d < 256 → ∀ i,
        (gpioDataReplay base d [Access.write (base + (mask <<< 2)) level]).testBit i =
          if mask.testBit i then level.testBit i else d.testBit i := by
  obtain ⟨base, hb, h1, h2⟩ := port_base_lookup p hp
  have hsh : mask <<< 2 ≤ 0x3FC := by
    rw [Nat.shiftLeft_eq]
    omega
  refine ⟨base, hb, ?_, by omega, by omega,
    fun d hd i => gpio_data_masked_write base d level mask i hd hm⟩
  have hchk : DIO_PortIdCheck p = E_OK := by simp [DIO_PortIdCheck, hp]
  unfold Dio_MaskedWritePort HW_W_8RIG
  generalize mask <<< 2 = o at hsh ⊢
  have ha : (base + o) % 4294967296 = base + o := Nat.mod_eq_of_lt (by omega)
  have hv : level % 4294967296 = level := Nat.mod_eq_of_lt (by omega)
  simp [hchk, hb, ha, hv]

/-- C12 at port A with level 0b0110 and mask 0b0110 on the all-zero register
file: one write at 0x40004000 + 0x18, which changes bits 1 and 2 only. -/
theorem Dio_MaskedWritePort_masked_witness :
    ((0 : Nat) ≤ 5 ∧ 0b0110 < 256 ∧ 0b0110 < 256) ∧
    ∃ base, HW_PortsAddresses[0]? = some base ∧
      Dio_MaskedWritePort HW.zero 0 0b0110 0b0110 =
        Outcome.done ()
          { mem := fun a => if a = base + (0b0110 <<< 2) then 0b0110 else HW.zero.mem a
            log := HW.zero.log ++ [Access.write (base + (0b0110 <<< 2)) 0b0110] } ∧
      base ≤ base + (0b0110 <<< 2) ∧ base + (0b0110 <<< 2) ≤ base + 0x3FC ∧
      ∀ d, d < 256 → ∀ i,
        (gpioDataReplay base d [Access.write (base + (0b0110 <<< 2)) 0b0110]).testBit i =
          if (0b0110 : Nat).testBit i then (0b0110 : Nat).testBit i else d.testBit i :=
  ⟨⟨by decide, by decide, by decide⟩,
    Dio_MaskedWritePort_masked HW.zero 0 0b0110 0b0110 (by decide) (by decide) (by decide)⟩

/-! ## Register primitives -/

/-- An accepted pin decodes to a port below `HW_NO_OF_PORTS` and a bit below
8. -/
theorem port_pin_decode_bounds (pin : Nat) (h : Port_PortPinCheck pin = E_OK) :
    PORT_GET_PORT pin ≤ 5 ∧ PORT_GET_PIN pin ≤ 7 := by
  unfold Port_PortPinCheck at h
  generalize PORT_GET_PORT pin = p at h ⊢
  generalize PORT_GET_PIN pin = b at h ⊢
  simp only at h
  split_ifs at h <;> omega

/-- The pin check returns `E_OK` or `E_NOT_OK`. -/
theorem port_pin_check_cases (pin : Nat) :
    Port_PortPinCheck pin = E_OK ∨ Port_PortPinCheck pin = E_NOT_OK := by
  unfold Port_PortPinCheck
  simp only
  split_ifs <;> simp

/-- A register address inside a port's 4 KiB block does not wrap. -/
theorem port_reg_addr (base off : Nat) (hbase : base ≤ 0x40025000) (hoff : off ≤ 0xFFF) :
    (base + off) % 2 ^ 32 = base + off :=
  Nat.mod_eq_of_lt (by omega)

/-- A write leaves every other word alone. -/
theorem HW_W_8RIG_mem_ne (s : HW) (a v x : Nat) (h : x ≠ a) :
    (HW_W_8RIG s a v).mem x = s.mem x :=
  if_neg h

/-- A write stores the value, as a 32-bit word. -/
theorem HW_W_8RIG_mem_eq (s : HW) (a v : Nat) : (HW_W_8RIG s a v).mem a = v % 2 ^ 32 :=
  if_pos rfl

/-- A write appends one access to the log. -/
theorem HW_W_8RIG_log (s : HW) (a v : Nat) :
    (HW_W_8RIG s a v).log = s.log ++ [Access.write a (v % 2 ^ 32)] :=
  rfl

/-- Setting a bit leaves every other word alone. -/
theorem HW_S_BIT_mem_ne (s : HW) (a b x : Nat) (h : x ≠ a) :
    (HW_S_BIT s a b).mem x = s.mem x :=
  if_neg h

/-- Clearing a bit leaves every other word alone. -/
theorem HW_C_BIT_mem_ne (s : HW) (a b x : Nat) (h : x ≠ a) :
    (HW_C_BIT s a b).mem x = s.mem x :=
  if_neg h

/-- After `HW_S_BIT` the bit is set. -/
theorem HW_S_BIT_testBit (s : HW) (a b : Nat) (hb : b < 32) :
    ((HW_S_BIT s a b).mem a).testBit b = true := by
  show ((if a = a then (s.mem a % 2 ^ 32 ||| 1 <<< b) % 2 ^ 32 else _) : Nat).testBit b = true
  rw [if_pos rfl, Nat.testBit_mod_two_pow, Nat.testBit_or, Nat.one_shiftLeft,
    Nat.testBit_two_pow_self]
  simp [hb]

/-- After `HW_C_BIT` the bit is clear. -/
theorem HW_C_BIT_testBit (s : HW) (a b : Nat) (hb : b < 32) :
    ((HW_C_BIT s a b).mem a).testBit b = false := by
  show ((if a = a then (s.mem a % 2 ^ 32 &&& (0xFFFFFFFF ^^^ 1 <<< b)) % 2 ^ 32 else _) :
    Nat).testBit b = false
  have hff : (0xFFFFFFFF : Nat).testBit b = decide (b < 32) := Nat.testBit_two_pow_sub_one 32 b
  rw [if_pos rfl, Nat.testBit_mod_two_pow, Nat.testBit_and, Nat.testBit_xor, hff,
    Nat.one_shiftLeft, Nat.testBit_two_pow_self]
  simp [hb]

/-- `HW_S_BIT` appends a read and a write of the new word to the log. -/
theorem HW_S_BIT_log (s : HW) (a b : Nat) :
    (HW_S_BIT s a b).log =
      s.log ++ [Access.read a, Access.write a ((HW_S_BIT s a b).mem a)] := by
  simp [HW_S_BIT, HW_W_8RIG, HW_R_8RIG]

/-- `HW_C_BIT` appends a read and a write of the new word to the log. -/
theorem HW_C_BIT_log (s : HW) (a b : Nat) :
    (HW_C_BIT s a b).log =
      s.log ++ [Access.read a, Access.write a ((HW_C_BIT s a b).mem a)] := by
  simp [HW_C_BIT, HW_W_8RIG, HW_R_8RIG]

/-! ## Pin mode -/

/-- The mode check accepts exactly the values 0..9. -/
theorem port_mode_check_iff (mode : Nat) : Port_PortPinModeCheck mode = E_OK ↔ mode ≤ 9 := by
  unfold Port_PortPinModeCheck
  constructor
  · intro h
    split_ifs at h with hc
    rcases hc with h | h | h | h | h | h | h | h | h | h <;> rw [h] <;> decide
  · intro h
    rw [if_pos]
    interval_cases mode <;> decide

/-- The register accesses of `Port_SetPinMode`, with the addresses written
out. -/
theorem port_set_pin_mode_regs_log (s : HW) (base b mode : Nat) (hbase : base ≤ 0x40025000)
    (hb : b ≤ 7) :
    ∃ c1 d c2 a, (Port_SetPinMode_regs s base b mode).log = s.log ++
        [Access.write (base + HW_GPIOLOCK_OFFSET) HW_GPIO_UNLOCK_PATTERN,
          Access.read (base + HW_GPIOCR_OFFSET), Access.write (base + HW_GPIOCR_OFFSET) c1,
          Access.read (base + HW_GPIODEN_OFFSET), Access.write (base + HW_GPIODEN_OFFSET) d,
          Access.write (base + HW_GPIOLOCK_OFFSET) HW_GPIO_UNLOCK_PATTERN,
          Access.read (base + HW_GPIOCR_OFFSET), Access.write (base + HW_GPIOCR_OFFSET) c2,
          Access.read (base + HW_GPIOAFSEL_OFFSET), Access.write (base + HW_GPIOAFSEL_OFFSET) a] ∧
      c1.testBit b = true ∧ c2.testBit b = true := by
  unfold Port_SetPinMode_regs
  rw [port_reg_addr base HW_GPIOLOCK_OFFSET hbase (by decide),
    port_reg_addr base HW_GPIOCR_OFFSET hbase (by decide),
    port_reg_addr base HW_GPIODEN_OFFSET hbase (by decide),
    port_reg_addr base HW_GPIOAFSEL_OFFSET hbase (by decide)]
  have hb32 : b < 32 := by omega
  simp only
  split_ifs <;>
    (simp only [HW_S_BIT_log, HW_C_BIT_log, HW_W_8RIG_log, List.append_assoc]
     exact ⟨_, _, _, _, rfl, HW_S_BIT_testBit _ _ _ hb32, HW_S_BIT_testBit _ _ _ hb32⟩)

/-- `Port_SetPinMode` changes no word other than the lock, commit-control,
digital-enable and alternate-function-select registers of its port. -/
theorem port_set_pin_mode_regs_frame (s : HW) (base b mode x : Nat) (hbase : base ≤ 0x40025000)
    (h1 : x ≠ base + HW_GPIOLOCK_OFFSET) (h2 : x ≠ base + HW_GPIOCR_OFFSET)
    (h3 : x ≠ base + HW_GPIODEN_OFFSET) (h4 : x ≠ base + HW_GPIOAFSEL_OFFSET) :
    (Port_SetPinMode_regs s base b mode).mem x = s.mem x := by
  unfold Port_SetPinMode_regs
  rw [port_reg_addr base HW_GPIOLOCK_OFFSET hbase (by decide),
    port_reg_addr base HW_GPIOCR_OFFSET hbase (by decide),
    port_reg_addr base HW_GPIODEN_OFFSET hbase (by decide),
    port_reg_addr base HW_GPIOAFSEL_OFFSET hbase (by decide)]
  simp only
  split_ifs <;>
    simp only [HW_S_BIT_mem_ne _ _ _ _ h4, HW_C_BIT_mem_ne _ _ _ _ h4, HW_S_BIT_mem_ne _ _ _ _ h3,
      HW_C_BIT_mem_ne _ _ _ _ h3, HW_S_BIT_mem_ne _ _ _ _ h2, HW_W_8RIG_mem_ne _ _ _ _ h1]

/-- After `Port_SetPinMode` the pin's digital-enable bit is clear for mode
ADC and set for every other mode. -/
theorem port_set_pin_mode_regs_den (s : HW) (base b mode : Nat) (hbase : base ≤ 0x40025000)
    (hb : b ≤ 7) :
    ((Port_SetPinMode_regs s base b mode).mem (base + HW_GPIODEN_OFFSET)).testBit b =
      !decide (mode = PORT_PIN_ADC) := by
  unfold Port_SetPinMode_regs
  rw [port_reg_addr base HW_GPIOLOCK_OFFSET hbase (by decide),
    port_reg_addr base HW_GPIOCR_OFFSET hbase (by decide),
    port_reg_addr base HW_GPIODEN_OFFSET hbase (by decide),
    port_reg_addr base HW_GPIOAFSEL_OFFSET hbase (by decide)]
  have h1 : base + HW_GPIODEN_OFFSET ≠ base + HW_GPIOAFSEL_OFFSET := by
    simp only [HW_GPIODEN_OFFSET, HW_GPIOAFSEL_OFFSET]
    omega
  have h2 : base + HW_GPIODEN_OFFSET ≠ base + HW_GPIOCR_OFFSET := by
    simp only [HW_GPIODEN_OFFSET, HW_GPIOCR_OFFSET]
    omega
  have h3 : base + HW_GPIODEN_OFFSET ≠ base + HW_GPIOLOCK_OFFSET := by
    simp only [HW_GPIODEN_OFFSET, HW_GPIOLOCK_OFFSET]
    omega
  have hb32 : b < 32 := by omega
  simp only
  split_ifs with hm hd hd <;>
    simp only [HW_S_BIT_mem_ne _ _ _ _ h1, HW_C_BIT_mem_ne _ _ _ _ h1, HW_S_BIT_mem_ne _ _ _ _ h2,
      HW_W_8RIG_mem_ne _ _ _ _ h3, HW_S_BIT_testBit _ _ _ hb32, HW_C_BIT_testBit _ _ _ hb32] <;>
    simp [*]

/-- After `Port_SetPinMode` the pin's alternate-function-select bit is clear
for the modes DIO and ADC and set for every other mode. -/
theorem port_set_pin_mode_regs_afsel (s : HW) (base b mode : Nat) (hbase : base ≤ 0x40025000)
    (hb : b ≤ 7) :
    ((Port_SetPinMode_regs s base b mode).mem (base + HW_GPIOAFSEL_OFFSET)).testBit b =
      !decide (mode = PORT_PIN_ADC ∨ mode = PORT_PIN_DIO) := by
  unfold Port_SetPinMode_regs
  rw [port_reg_addr base HW_GPIOLOCK_OFFSET hbase (by decide),
    port_reg_addr base HW_GPIOCR_OFFSET hbase (by decide),
    port_reg_addr base HW_GPIODEN_OFFSET hbase (by decide),
    port_reg_addr base HW_GPIOAFSEL_OFFSET hbase (by decide)]
  have hb32 : b < 32 := by omega
  simp only
  by_cases hm : mode = PORT_PIN_ADC ∨ mode = PORT_PIN_DIO
  · rw [if_pos hm, HW_C_BIT_testBit _ _ _ hb32]
    simp [hm]
  · rw [if_neg hm, HW_S_BIT_testBit _ _ _ hb32]
    simp [hm]

/-- What `Port_SetPinMode` does on an accepted pin and a mode in 0..9. -/
theorem port_set_pin_mode_run (s : HW) (pin mode : Nat) (hpin : Port_PortPinCheck pin = E_OK)
    (hmode : mode ≤ 9) :
    ∃ base, HW_PortsAddresses[PORT_GET_PORT pin]? = some base ∧ base ≤ 0x40025000 ∧
      PORT_GET_PIN pin ≤ 7 ∧
      Port_SetPinMode s pin mode =
        Outcome.done () (Port_SetPinMode_regs s base (PORT_GET_PIN pin) mode) := by
  obtain ⟨hp, hb⟩ := port_pin_decode_bounds pin hpin
  obtain ⟨base, hbase, -, h2⟩ := port_base_lookup _ hp
  refine ⟨base, hbase, h2, hb, ?_⟩
  unfold Port_SetPinMode
  rw [if_pos hpin.symm, if_pos ((port_mode_check_iff mode).2 hmode).symm]
  simp only [hbase]

/-- A result that is kept when a test passes and replaced by `E_NOT_OK` when
it fails is `E_OK` exactly when the test passes and the result was `E_OK`. -/
theorem keep_or_not_ok (c : Prop) [Decidable c] (r : Nat) :
    (if c then r else E_NOT_OK) = E_OK ↔ c ∧ r = E_OK := by
  by_cases hc : c
  · simp [hc]
  · simp [hc]

/-- What `Port_ConfigTypeCheck` accepts: a pin that exists, a drive strength
in 0..3, a mode that is 0 or 1 (the values of `PORT_PIN_IN` and
`PORT_PIN_OUT`, which are also those of `PORT_PIN_DIO` and `PORT_PIN_ADC`),
and a level, pull-up, pull-down and open-drain setting that are 0 or 1. -/
theorem port_config_check_iff (cfg : Port_ConfigType) :
    Port_ConfigTypeCheck (some cfg) = some E_OK ↔
      Port_PortPinCheck cfg.Port_Pin = E_OK ∧ cfg.Port_Current ≤ 3 ∧ cfg.Port_PinMode ≤ 1 ∧
        cfg.Port_PinLevelInit ≤ 1 ∧ cfg.Port_PinPullUpRes ≤ 1 ∧ cfg.Port_PinPullDownRes ≤ 1 ∧
        cfg.Port_PinOpenDrain ≤ 1 := by
  unfold Port_ConfigTypeCheck
  simp only [Option.some.injEq, keep_or_not_ok]
  have hpin : (if E_NOT_OK = Port_PortPinCheck cfg.Port_Pin then E_NOT_OK else E_OK) = E_OK ↔
      Port_PortPinCheck cfg.Port_Pin = E_OK := by
    rcases port_pin_check_cases cfg.Port_Pin with h | h <;> rw [h] <;> decide
  rw [hpin]
  simp only [PORT_CURRENT_DEFAULT, PORT_CURRENT_2mA, PORT_CURRENT_4mA, PORT_CURRENT_8mA,
    PORT_PIN_IN, PORT_PIN_OUT, STD_HIGH, STD_LOW, PORT_PULL_UP_DISABLE, PORT_PULL_UP_ENABLE,
    PORT_PULL_DOWN_DISABLE, PORT_PULL_DOWN_ENABLE, PORT_OPEN_DRAIN_DISABLE,
    PORT_OPEN_DRAIN_ENABLE]
  constructor
  · rintro ⟨h1, h2, h3, h4, h5, h6, h7⟩
    exact ⟨h7, by omega, by omega, by omega, by omega, by omega, by omega⟩
  · rintro ⟨h1, h2, h3, h4, h5, h6, h7⟩
    exact ⟨by omega, by omega, by omega, by omega, by omega, by omega, h1⟩

/-- A result that is kept or replaced by `E_NOT_OK` stays one of `E_OK` and
`E_NOT_OK`. -/
theorem keep_or_not_ok_cases (c : Prop) [Decidable c] (r : Nat)
    (hr : r = E_OK ∨ r = E_NOT_OK) :
    (if c then r else E_NOT_OK) = E_OK ∨ (if c then r else E_NOT_OK) = E_NOT_OK := by
  split_ifs
  · exact hr
  · exact Or.inr rfl

/-- On a non-null configuration `Port_ConfigTypeCheck` returns `E_OK` or
`E_NOT_OK`. -/
theorem port_config_check_cases (cfg : Port_ConfigType) :
    Port_ConfigTypeCheck (some cfg) = some E_OK ∨
      Port_ConfigTypeCheck (some cfg) = some E_NOT_OK := by
  unfold Port_ConfigTypeCheck
  simp only [Option.some.injEq]
  repeat apply keep_or_not_ok_cases
  split_ifs
  · exact Or.inr rfl
  · exact Or.inl rfl

/-! ## Pin direction -/

/-- What `Port_SetPinDirection` does on an accepted pin and a direction that
is `PORT_PIN_IN` or `PORT_PIN_OUT`. -/
theorem port_set_pin_direction_run (s : HW) (pin dir : Nat)
    (hpin : Port_PortPinCheck pin = E_OK) (hdir : dir ≤ 1) :
    ∃ base, HW_PortsAddresses[PORT_GET_PORT pin]? = some base ∧ base ≤ 0x40025000 ∧
      PORT_GET_PIN pin ≤ 7 ∧
      Port_SetPinDirection s pin dir =
        Outcome.done () (Port_SetPinDirection_regs s base (PORT_GET_PIN pin) dir) := by
  obtain ⟨hp, hb⟩ := port_pin_decode_bounds pin hpin
  obtain ⟨base, hbase, -, h2⟩ := port_base_lookup _ hp
  refine ⟨base, hbase, h2, hb, ?_⟩
  have hd : PORT_PIN_IN = dir ∨ PORT_PIN_OUT = dir := by
    interval_cases dir
    · exact Or.inl rfl
    · exact Or.inr rfl
  unfold Port_SetPinDirection
  rw [if_pos hpin.symm, if_pos hd]
  simp only [hbase]

/-- `Port_SetPinDirection` changes no word other than the direction register
of its port. -/
theorem port_set_pin_direction_regs_frame (s : HW) (base b dir x : Nat)
    (hbase : base ≤ 0x40025000) (h1 : x ≠ base + HW_GPIODIR_OFFSET) :
    (Port_SetPinDirection_regs s base b dir).mem x = s.mem x := by
  unfold Port_SetPinDirection_regs
  rw [port_reg_addr base HW_GPIODIR_OFFSET hbase (by decide)]
  split_ifs
  · exact HW_C_BIT_mem_ne _ _ _ _ h1
  · exact HW_S_BIT_mem_ne _ _ _ _ h1
  · rfl

/-- The register accesses of `Port_SetPinDirection`. -/
theorem port_set_pin_direction_regs_log (s : HW) (base b dir : Nat) (hbase : base ≤ 0x40025000)
    (hdir : dir ≤ 1) :
    ∃ w, (Port_SetPinDirection_regs s base b dir).log = s.log ++
      [Access.read (base + HW_GPIODIR_OFFSET), Access.write (base + HW_GPIODIR_OFFSET) w] := by
  unfold Port_SetPinDirection_regs
  rw [port_reg_addr base HW_GPIODIR_OFFSET hbase (by decide)]
  interval_cases dir
  · rw [if_pos rfl, HW_C_BIT_log]
    exact ⟨_, rfl⟩
  · rw [if_neg (by decide), if_pos rfl, HW_S_BIT_log]
    exact ⟨_, rfl⟩

/-! ## Stages of `Port_Init` -/

/-- The register accesses of the clock enable statements. -/
theorem port_init_clock_log (s : HW) (p : Nat) :
    ∃ w1 w2, (Port_Init_clock s p).log = s.log ++
      [Access.read (HW_SYSTEM_CONTROL_BA + HW_RCGC2_OFFSET),
        Access.write (HW_SYSTEM_CONTROL_BA + HW_RCGC2_OFFSET) w1,
        Access.read (HW_SYSTEM_CONTROL_BA + HW_RCGCGPIO_OFFSET),
        Access.write (HW_SYSTEM_CONTROL_BA + HW_RCGCGPIO_OFFSET) w2] := by
  unfold Port_Init_clock
  simp only [HW_S_BIT_log, List.append_assoc]
  exact ⟨_, _, rfl⟩

/-- The clock enable statements change no word other than the two clock
gating registers. -/
theorem port_init_clock_frame (s : HW) (p x : Nat)
    (h1 : x ≠ HW_SYSTEM_CONTROL_BA + HW_RCGC2_OFFSET)
    (h2 : x ≠ HW_SYSTEM_CONTROL_BA + HW_RCGCGPIO_OFFSET) :
    (Port_Init_clock s p).mem x = s.mem x := by
  unfold Port_Init_clock
  simp only [HW_S_BIT_mem_ne _ _ _ _ h2, HW_S_BIT_mem_ne _ _ _ _ h1]

/-- The register accesses of the drive strength statement. -/
theorem port_init_drive_log (s : HW) (base b cur : Nat) (hbase : base ≤ 0x40025000)
    (hcur : cur ≤ 3) :
    ∃ w2 w4 w8, (Port_Init_driveStrength s base b cur).log = s.log ++
      [Access.read (base + HW_GPIODR2R_OFFSET), Access.write (base + HW_GPIODR2R_OFFSET) w2,
        Access.read (base + HW_GPIODR4R_OFFSET), Access.write (base + HW_GPIODR4R_OFFSET) w4,
        Access.read (base + HW_GPIODR8R_OFFSET), Access.write (base + HW_GPIODR8R_OFFSET) w8] := by
  unfold Port_Init_driveStrength
  rw [port_reg_addr base HW_GPIODR2R_OFFSET hbase (by decide),
    port_reg_addr base HW_GPIODR4R_OFFSET hbase (by decide),
    port_reg_addr base HW_GPIODR8R_OFFSET hbase (by decide)]
  interval_cases cur
  · rw [if_pos rfl]
    simp only [HW_S_BIT_log, HW_C_BIT_log, List.append_assoc]
    exact ⟨_, _, _, rfl⟩
  · rw [if_neg (by decide), if_pos rfl]
    simp only [HW_S_BIT_log, HW_C_BIT_log, List.append_assoc]
    exact ⟨_, _, _, rfl⟩
  · rw [if_neg (by decide), if_neg (by decide), if_pos rfl]
    simp only [HW_S_BIT_log, HW_C_BIT_log, List.append_assoc]
    exact ⟨_, _, _, rfl⟩
  · rw [if_neg (by decide), if_neg (by decide), if_neg (by decide), if_pos rfl]
    simp only [HW_S_BIT_log, HW_C_BIT_log, List.append_assoc]
    exact ⟨_, _, _, rfl⟩

/-- The drive strength statement changes no word other than the three drive
strength registers of its port. -/
theorem port_init_drive_frame (s : HW) (base b cur x : Nat) (hbase : base ≤ 0x40025000)
    (h1 : x ≠ base + HW_GPIODR2R_OFFSET) (h2 : x ≠ base + HW_GPIODR4R_OFFSET)
    (h3 : x ≠ base + HW_GPIODR8R_OFFSET) :
    (Port_Init_driveStrength s base b cur).mem x = s.mem x := by
  unfold Port_Init_driveStrength
  rw [port_reg_addr base HW_GPIODR2R_OFFSET hbase (by decide),
    port_reg_addr base HW_GPIODR4R_OFFSET hbase (by decide),
    port_reg_addr base HW_GPIODR8R_OFFSET hbase (by decide)]
  split_ifs <;>
    simp only [HW_S_BIT_mem_ne _ _ _ _ h3, HW_C_BIT_mem_ne _ _ _ _ h3, HW_S_BIT_mem_ne _ _ _ _ h2,
      HW_C_BIT_mem_ne _ _ _ _ h2, HW_S_BIT_mem_ne _ _ _ _ h1, HW_C_BIT_mem_ne _ _ _ _ h1]

/-- The register accesses of the pull-up statements: unlock, commit, then
the pull-up register. -/
theorem port_init_pull_up_log (s : HW) (base b pu : Nat) (hbase : base ≤ 0x40025000)
    (hb : b ≤ 7) (hpu : pu ≤ 1) :
    ∃ c w, (Port_Init_pullUp s base b pu).log = s.log ++
        [Access.write (base + HW_GPIOLOCK_OFFSET) HW_GPIO_UNLOCK_PATTERN,
          Access.read (base + HW_GPIOCR_OFFSET), Access.write (base + HW_GPIOCR_OFFSET) c,
          Access.read (base + HW_GPIOPUR_OFFSET), Access.write (base + HW_GPIOPUR_OFFSET) w] ∧
      c.testBit b = true := by
  unfold Port_Init_pullUp
  rw [port_reg_addr base HW_GPIOLOCK_OFFSET hbase (by decide),
    port_reg_addr base HW_GPIOCR_OFFSET hbase (by decide),
    port_reg_addr base HW_GPIOPUR_OFFSET hbase (by decide)]
  have hb32 : b < 32 := by omega
  interval_cases pu
  · simp only [if_pos, HW_S_BIT_log, HW_C_BIT_log, HW_W_8RIG_log, List.append_assoc]
    exact ⟨_, _, rfl, HW_S_BIT_testBit _ _ _ hb32⟩
  · rw [if_neg (by decide), if_pos rfl]
    simp only [HW_S_BIT_log, HW_C_BIT_log, HW_W_8RIG_log, List.append_assoc]
    exact ⟨_, _, rfl, HW_S_BIT_testBit _ _ _ hb32⟩

/-- The pull-up statements change no word other than the lock, commit-control
and pull-up registers of their port. -/
theorem port_init_pull_up_frame (s : HW) (base b pu x : Nat) (hbase : base ≤ 0x40025000)
    (h1 : x ≠ base + HW_GPIOLOCK_OFFSET) (h2 : x ≠ base + HW_GPIOCR_OFFSET)
    (h3 : x ≠ base + HW_GPIOPUR_OFFSET) :
    (Port_Init_pullUp s base b pu).mem x = s.mem x := by
  unfold Port_Init_pullUp
  rw [port_reg_addr base HW_GPIOLOCK_OFFSET hbase (by decide),
    port_reg_addr base HW_GPIOCR_OFFSET hbase (by decide),
    port_reg_addr base HW_GPIOPUR_OFFSET hbase (by decide)]
  simp only
  split_ifs <;>
    simp only [HW_S_BIT_mem_ne _ _ _ _ h3, HW_C_BIT_mem_ne _ _ _ _ h3, HW_S_BIT_mem_ne _ _ _ _ h2,
      HW_W_8RIG_mem_ne _ _ _ _ h1]

/-- The register accesses of the pull-down statements: unlock, commit, then
the pull-down register. -/
theorem port_init_pull_down_log (s : HW) (base b pd : Nat) (hbase : base ≤ 0x40025000)
    (hb : b ≤ 7) (hpd : pd ≤ 1) :
    ∃ c w, (Port_Init_pullDown s base b pd).log = s.log ++
        [Access.write (base + HW_GPIOLOCK_OFFSET) HW_GPIO_UNLOCK_PATTERN,
          Access.read (base + HW_GPIOCR_OFFSET), Access.write (base + HW_GPIOCR_OFFSET) c,
          Access.read (base + HW_GPIOPDR_OFFSET), Access.write (base + HW_GPIOPDR_OFFSET) w] ∧
      c.testBit b = true := by
  unfold Port_Init_pullDown
  rw [port_reg_addr base HW_GPIOLOCK_OFFSET hbase (by decide),
    port_reg_addr base HW_GPIOCR_OFFSET hbase (by decide),
    port_reg_addr base HW_GPIOPDR_OFFSET hbase (by decide)]
  have hb32 : b < 32 := by omega
  interval_cases pd
  · simp only [if_pos, HW_S_BIT_log, HW_C_BIT_log, HW_W_8RIG_log, List.append_assoc]
    exact ⟨_, _, rfl, HW_S_BIT_testBit _ _ _ hb32⟩
  · rw [if_neg (by decide), if_pos rfl]
    simp only [HW_S_BIT_log, HW_C_BIT_log, HW_W_8RIG_log, List.append_assoc]
    exact ⟨_, _, rfl, HW_S_BIT_testBit _ _ _ hb32⟩

/-- The pull-down statements change no word other than the lock,
commit-control and pull-down registers of their port. -/
theorem port_init_pull_down_frame (s : HW) (base b pd x : Nat) (hbase : base ≤ 0x40025000)
    (h1 : x ≠ base + HW_GPIOLOCK_OFFSET) (h2 : x ≠ base + HW_GPIOCR_OFFSET)
    (h3 : x ≠ base + HW_GPIOPDR_OFFSET) :
    (Port_Init_pullDown s base b pd).mem x = s.mem x := by
  unfold Port_Init_pullDown
  rw [port_reg_addr base HW_GPIOLOCK_OFFSET hbase (by decide),
    port_reg_addr base HW_GPIOCR_OFFSET hbase (by decide),
    port_reg_addr base HW_GPIOPDR_OFFSET hbase (by decide)]
  simp only
  split_ifs <;>
    simp only [HW_S_BIT_mem_ne _ _ _ _ h3, HW_C_BIT_mem_ne _ _ _ _ h3, HW_S_BIT_mem_ne _ _ _ _ h2,
      HW_W_8RIG_mem_ne _ _ _ _ h1]

/-- The register accesses of the open-drain statement: the open-drain
register alone, with no unlock and commit of its own. -/
theorem port_init_open_drain_log (s : HW) (base b od : Nat) (hbase : base ≤ 0x40025000)
    (hod : od ≤ 1) :
    ∃ w, (Port_Init_openDrain s base b od).log = s.log ++
      [Access.read (base + HW_GPIOODR_OFFSET), Access.write (base + HW_GPIOODR_OFFSET) w] := by
  unfold Port_Init_openDrain
  rw [port_reg_addr base HW_GPIOODR_OFFSET hbase (by decide)]
  interval_cases od
  · rw [if_pos rfl, HW_C_BIT_log]
    exact ⟨_, rfl⟩
  · rw [if_neg (by decide), if_pos rfl, HW_S_BIT_log]
    exact ⟨_, rfl⟩

/-- The open-drain statement changes no word other than the open-drain
register of its port. -/
theorem port_init_open_drain_frame (s : HW) (base b od x : Nat) (hbase : base ≤ 0x40025000)
    (h1 : x ≠ base + HW_GPIOODR_OFFSET) :
    (Port_Init_openDrain s base b od).mem x = s.mem x := by
  unfold Port_Init_openDrain
  rw [port_reg_addr base HW_GPIOODR_OFFSET hbase (by decide)]
  split_ifs
  · exact HW_C_BIT_mem_ne _ _ _ _ h1
  · exact HW_S_BIT_mem_ne _ _ _ _ h1
  · rfl

/-! ## `Port_Init` as a whole -/

/-- `Port_Init` aborts at its assertion, with the register file untouched,
when the configuration check does not return `E_OK`. -/
theorem port_init_abort (s : HW) (cfg : Port_ConfigType)
    (h : Port_ConfigTypeCheck (some cfg) ≠ some E_OK) :
    Port_Init s (some cfg) = Outcome.abort s := by
  rcases port_config_check_cases cfg with hc | hc
  · exact absurd hc h
  · unfold Port_Init
    rw [hc]
    simp

/-- What `Port_Init` does on a configuration that fits its bit-fields and
passes the configuration check: neither nested assertion fails, and the
register file left is `Port_Init_regs`. -/
theorem port_init_run (s : HW) (cfg : Port_ConfigType) (hfit : cfg.fits)
    (hchk : Port_ConfigTypeCheck (some cfg) = some E_OK) :
    ∃ base, HW_PortsAddresses[PORT_GET_PORT cfg.Port_Pin]? = some base ∧ base ≤ 0x40025000 ∧
      0x40004000 ≤ base ∧ PORT_GET_PIN cfg.Port_Pin ≤ 7 ∧
      Port_Init s (some cfg) = Outcome.done () (Port_Init_regs s base cfg) := by
  obtain ⟨hpin, hcur, hmode, -, hpu, hpd, hod⟩ := (port_config_check_iff cfg).1 hchk
  obtain ⟨-, -, hdir, -⟩ := hfit
  obtain ⟨hp, hb⟩ := port_pin_decode_bounds _ hpin
  obtain ⟨base, hbase, h1, h2⟩ := port_base_lookup _ hp
  refine ⟨base, hbase, h2, h1, hb, ?_⟩
  obtain ⟨base1, hbase1, -, -, hdrun⟩ := port_set_pin_direction_run
    (Port_Init_clock s (PORT_GET_PORT cfg.Port_Pin)) cfg.Port_Pin cfg.Port_PinDirection hpin
    (by omega)
  have e1 : base1 = base := Option.some.inj (hbase1.symm.trans hbase)
  subst e1
  obtain ⟨base2, hbase2, -, -, hmrun⟩ := port_set_pin_mode_run
    (Port_Init_openDrain (Port_Init_pullDown (Port_Init_pullUp (Port_Init_driveStrength
      (Port_SetPinDirection_regs (Port_Init_clock s (PORT_GET_PORT cfg.Port_Pin)) base1
        (PORT_GET_PIN cfg.Port_Pin) cfg.Port_PinDirection)
      base1 (PORT_GET_PIN cfg.Port_Pin) cfg.Port_Current)
      base1 (PORT_GET_PIN cfg.Port_Pin) cfg.Port_PinPullUpRes)
      base1 (PORT_GET_PIN cfg.Port_Pin) cfg.Port_PinPullDownRes)
      base1 (PORT_GET_PIN cfg.Port_Pin) cfg.Port_PinOpenDrain)
    cfg.Port_Pin cfg.Port_PinMode hpin (by omega)
  have e2 : base2 = base1 := Option.some.inj (hbase2.symm.trans hbase)
  subst e2
  unfold Port_Init Port_Init_regs
  rw [hchk]
  simp only [if_true, hdrun, Outcome.bind, hbase, hmrun]

/-- The register accesses of a `Port_Init` call whose assertions pass: 34
accesses, 19 of them writes, with the word written to the commit-control
register having the pin's bit set each of the four times. -/
theorem port_init_regs_log (s : HW) (base : Nat) (cfg : Port_ConfigType)
    (hbase : base ≤ 0x40025000) (hb : PORT_GET_PIN cfg.Port_Pin ≤ 7)
    (hdir : cfg.Port_PinDirection ≤ 1) (hcur : cfg.Port_Current ≤ 3)
    (hpu : cfg.Port_PinPullUpRes ≤ 1) (hpd : cfg.Port_PinPullDownRes ≤ 1)
    (hod : cfg.Port_PinOpenDrain ≤ 1) :
    ∃ k1 k2 d w2 w4 w8 c1 u c2 v o c3 e c4 a,
      (Port_Init_regs s base cfg).log = s.log ++
        [Access.read (HW_SYSTEM_CONTROL_BA + HW_RCGC2_OFFSET),
          Access.write (HW_SYSTEM_CONTROL_BA + HW_RCGC2_OFFSET) k1,
          Access.read (HW_SYSTEM_CONTROL_BA + HW_RCGCGPIO_OFFSET),
          Access.write (HW_SYSTEM_CONTROL_BA + HW_RCGCGPIO_OFFSET) k2,
          Access.read (base + HW_GPIODIR_OFFSET), Access.write (base + HW_GPIODIR_OFFSET) d,
          Access.read (base + HW_GPIODR2R_OFFSET), Access.write (base + HW_GPIODR2R_OFFSET) w2,
          Access.read (base + HW_GPIODR4R_OFFSET), Access.write (base + HW_GPIODR4R_OFFSET) w4,
          Access.read (base + HW_GPIODR8R_OFFSET), Access.write (base + HW_GPIODR8R_OFFSET) w8,
          Access.write (base + HW_GPIOLOCK_OFFSET) HW_GPIO_UNLOCK_PATTERN,
          Access.read (base + HW_GPIOCR_OFFSET), Access.write (base + HW_GPIOCR_OFFSET) c1,
          Access.read (base + HW_GPIOPUR_OFFSET), Access.write (base + HW_GPIOPUR_OFFSET) u,
          Access.write (base + HW_GPIOLOCK_OFFSET) HW_GPIO_UNLOCK_PATTERN,
          Access.read (base + HW_GPIOCR_OFFSET), Access.write (base + HW_GPIOCR_OFFSET) c2,
          Access.read (base + HW_GPIOPDR_OFFSET), Access.write (base + HW_GPIOPDR_OFFSET) v,
          Access.read (base + HW_GPIOODR_OFFSET), Access.write (base + HW_GPIOODR_OFFSET) o,
          Access.write (base + HW_GPIOLOCK_OFFSET) HW_GPIO_UNLOCK_PATTERN,
          Access.read (base + HW_GPIOCR_OFFSET), Access.write (base + HW_GPIOCR_OFFSET) c3,
          Access.read (base + HW_GPIODEN_OFFSET), Access.write (base + HW_GPIODEN_OFFSET) e,
          Access.write (base + HW_GPIOLOCK_OFFSET) HW_GPIO_UNLOCK_PATTERN,
          Access.read (base + HW_GPIOCR_OFFSET), Access.write (base + HW_GPIOCR_OFFSET) c4,
          Access.read (base + HW_GPIOAFSEL_OFFSET),
          Access.write (base + HW_GPIOAFSEL_OFFSET) a] ∧
      c1.testBit (PORT_GET_PIN cfg.Port_Pin) = true ∧
      c2.testBit (PORT_GET_PIN cfg.Port_Pin) = true ∧
      c3.testBit (PORT_GET_PIN cfg.Port_Pin) = true ∧
      c4.testBit (PORT_GET_PIN cfg.Port_Pin) = true := by
  unfold Port_Init_regs
  simp only
  obtain ⟨k1, k2, h1⟩ := port_init_clock_log s (PORT_GET_PORT cfg.Port_Pin)
  generalize Port_Init_clock s (PORT_GET_PORT cfg.Port_Pin) = s1 at h1 ⊢
  obtain ⟨d, h2⟩ := port_set_pin_direction_regs_log s1 base (PORT_GET_PIN cfg.Port_Pin)
    cfg.Port_PinDirection hbase hdir
  generalize Port_SetPinDirection_regs s1 base (PORT_GET_PIN cfg.Port_Pin)
    cfg.Port_PinDirection = s2 at h2 ⊢
  obtain ⟨w2, w4, w8, h3⟩ := port_init_drive_log s2 base (PORT_GET_PIN cfg.Port_Pin)
    cfg.Port_Current hbase hcur
  generalize Port_Init_driveStrength s2 base (PORT_GET_PIN cfg.Port_Pin)
    cfg.Port_Current = s3 at h3 ⊢
  obtain ⟨c1, u, h4, hc1⟩ := port_init_pull_up_log s3 base (PORT_GET_PIN cfg.Port_Pin)
    cfg.Port_PinPullUpRes hbase hb hpu
  generalize Port_Init_pullUp s3 base (PORT_GET_PIN cfg.Port_Pin)
    cfg.Port_PinPullUpRes = s4 at h4 ⊢
  obtain ⟨c2, v, h5, hc2⟩ := port_init_pull_down_log s4 base (PORT_GET_PIN cfg.Port_Pin)
    cfg.Port_PinPullDownRes hbase hb hpd
  generalize Port_Init_pullDown s4 base (PORT_GET_PIN cfg.Port_Pin)
    cfg.Port_PinPullDownRes = s5 at h5 ⊢
  obtain ⟨o, h6⟩ := port_init_open_drain_log s5 base (PORT_GET_PIN cfg.Port_Pin)
    cfg.Port_PinOpenDrain hbase hod
  generalize Port_Init_openDrain s5 base (PORT_GET_PIN cfg.Port_Pin)
    cfg.Port_PinOpenDrain = s6 at h6 ⊢
  obtain ⟨c3, e, c4, a, h7, hc3, hc4⟩ := port_set_pin_mode_regs_log s6 base
    (PORT_GET_PIN cfg.Port_Pin) cfg.Port_PinMode hbase hb
  refine ⟨k1, k2, d, w2, w4, w8, c1, u, c2, v, o, c3, e, c4, a, ?_, hc1, hc2, hc3, hc4⟩
  rw [h7, h6, h5, h4, h3, h2, h1]
  simp only [List.append_assoc, List.cons_append, List.nil_append]

/-- Two different offsets from one base are two different addresses. -/
theorem port_reg_ne (base o1 o2 : Nat) (h : o1 ≠ o2) : base + o1 ≠ base + o2 :=
  fun hc => h (Nat.add_left_cancel hc)

/-- C13, evaluated at the header's own UART receive configuration on pin A0
(`PORT_PIN_U0RX`, `PORT_PIN_UART`, `PORT_PIN_UART_RX_DEFAULT`): the pin
exists and the mode is one of the ten modes, yet `Port_ConfigTypeCheck`
returns `E_NOT_OK` and `Port_Init` aborts.  For configurations that fit the
bit-fields the check returns `E_OK` exactly for an existing pin with mode DIO
or ADC. -/
theorem Port_ConfigTypeCheck_rejects_UART :
    Port_PortPinCheck 0x00 = E_OK ∧ Port_PortPinModeCheck PORT_PIN_UART = E_OK ∧
    Port_ConfigTypeCheck (some
      { Port_Pin := 0x00, Port_PinMode := PORT_PIN_UART, Port_Current := PORT_CURRENT_DEFAULT,
        Port_PinDirection := PORT_PIN_IN, Port_PinLevelInit := STD_HIGH,
        Port_PinPullUpRes := PORT_PULL_UP_ENABLE, Port_PinPullDownRes := PORT_PULL_DOWN_DISABLE,
        Port_PinOpenDrain := PORT_OPEN_DRAIN_DISABLE }) = some E_NOT_OK ∧
    Port_Init HW.zero (some
      { Port_Pin := 0x00, Port_PinMode := PORT_PIN_UART, Port_Current := PORT_CURRENT_DEFAULT,
        Port_PinDirection := PORT_PIN_IN, Port_PinLevelInit := STD_HIGH,
        Port_PinPullUpRes := PORT_PULL_UP_ENABLE, Port_PinPullDownRes := PORT_PULL_DOWN_DISABLE,
        Port_PinOpenDrain := PORT_OPEN_DRAIN_DISABLE }) = Outcome.abort HW.zero ∧
    ∀ cfg : Port_ConfigType, cfg.fits →
      (Port_ConfigTypeCheck (some cfg) = some E_OK ↔
        Port_PortPinCheck cfg.Port_Pin = E_OK ∧
          (cfg.Port_PinMode = PORT_PIN_DIO ∨ cfg.Port_PinMode = PORT_PIN_ADC)) := by
  refine ⟨by decide, by decide, by decide, ?_, ?_⟩
  · exact port_init_abort _ _ (by decide)
  · intro cfg hfit
    obtain ⟨h1, h2, h3, h4, h5, h6, h7⟩ := hfit
    rw [port_config_check_iff]
    simp only [ PORT_PIN_DIO, PORT_PIN_ADC]
    constructor
    · rintro ⟨hp, -, hm, -⟩
      exact ⟨hp, by omega⟩
    · rintro ⟨hp, hm⟩
      exact ⟨hp, by omega, by omega, by omega, by omega, by omega, by omega⟩

/-- C18, evaluated: for every pin and every choice of the other fields,
`Port_Init` with mode UART aborts at its first assertion with the register
file untouched, so neither the digital-enable nor the
alternate-function-select bit is set. -/
theorem Port_Init_UART_aborts (s : HW) (pin cur dir lvl pu pd od : Nat) :
    Port_Init s (some
      { Port_Pin := pin, Port_PinMode := PORT_PIN_UART, Port_Current := cur,
        Port_PinDirection := dir, Port_PinLevelInit := lvl, Port_PinPullUpRes := pu,
        Port_PinPullDownRes := pd, Port_PinOpenDrain := od }) = Outcome.abort s := by
  apply port_init_abort
  intro hc
  have h : PORT_PIN_UART ≤ 1 := ((port_config_check_iff _).1 hc).2.2.1
  exact absurd h (by decide)

/-- C14: for a non-null configuration, either `Port_ConfigTypeCheck` does not
return `E_OK` and `Port_Init` aborts at its first assertion with the register
file untouched, or the check returns `E_OK` and `Port_Init` runs to
completion: the assertions of the nested `Port_SetPinDirection` and
`Port_SetPinMode` calls pass whatever the register state. -/
theorem Port_Init_all_or_nothing (s : HW) (cfg : Port_ConfigType) (hfit : cfg.fits) :
    (Port_ConfigTypeCheck (some cfg) ≠ some E_OK ∧ Port_Init s (some cfg) = Outcome.abort s) ∨
    (Port_ConfigTypeCheck (some cfg) = some E_OK ∧
      (∃ s1, Port_Init s (some cfg) = Outcome.done () s1) ∧
      (∀ t, ∃ t1, Port_SetPinDirection t cfg.Port_Pin cfg.Port_PinDirection =
        Outcome.done () t1) ∧
      (∀ t, ∃ t1, Port_SetPinMode t cfg.Port_Pin cfg.Port_PinMode = Outcome.done () t1)) := by
  by_cases hchk : Port_ConfigTypeCheck (some cfg) = some E_OK
  · right
    obtain ⟨base, -, -, -, -, hrun⟩ := port_init_run s cfg hfit hchk
    obtain ⟨hpin, -, hmode, -⟩ := (port_config_check_iff cfg).1 hchk
    obtain ⟨-, -, hdir, -⟩ := hfit
    refine ⟨hchk, ⟨_, hrun⟩, fun t => ?_, fun t => ?_⟩
    · obtain ⟨b, -, -, -, h⟩ := port_set_pin_direction_run t cfg.Port_Pin cfg.Port_PinDirection
        hpin (by omega)
      exact ⟨_, h⟩
    · obtain ⟨b, -, -, -, h⟩ := port_set_pin_mode_run t cfg.Port_Pin cfg.Port_PinMode hpin
        (by omega)
      exact ⟨_, h⟩
  · exact Or.inl ⟨hchk, port_init_abort s cfg hchk⟩

/-- C14 at an ADC input configuration of pin B3 (0x13) on the all-zero
register file. -/
theorem Port_Init_all_or_nothing_witness :
    (⟨0x13, PORT_PIN_ADC, PORT_CURRENT_DEFAULT, PORT_PIN_IN, STD_LOW, PORT_PULL_UP_DISABLE,
        PORT_PULL_DOWN_DISABLE, PORT_OPEN_DRAIN_DISABLE⟩ : Port_ConfigType).fits ∧
    ((Port_ConfigTypeCheck (some ⟨0x13, PORT_PIN_ADC, PORT_CURRENT_DEFAULT, PORT_PIN_IN, STD_LOW,
          PORT_PULL_UP_DISABLE, PORT_PULL_DOWN_DISABLE, PORT_OPEN_DRAIN_DISABLE⟩) ≠ some E_OK ∧
        Port_Init HW.zero (some ⟨0x13, PORT_PIN_ADC, PORT_CURRENT_DEFAULT, PORT_PIN_IN, STD_LOW,
          PORT_PULL_UP_DISABLE, PORT_PULL_DOWN_DISABLE, PORT_OPEN_DRAIN_DISABLE⟩) =
          Outcome.abort HW.zero) ∨
      (Port_ConfigTypeCheck (some ⟨0x13, PORT_PIN_ADC, PORT_CURRENT_DEFAULT, PORT_PIN_IN, STD_LOW,
          PORT_PULL_UP_DISABLE, PORT_PULL_DOWN_DISABLE, PORT_OPEN_DRAIN_DISABLE⟩) = some E_OK ∧
        (∃ s1, Port_Init HW.zero (some ⟨0x13, PORT_PIN_ADC, PORT_CURRENT_DEFAULT, PORT_PIN_IN,
          STD_LOW, PORT_PULL_UP_DISABLE, PORT_PULL_DOWN_DISABLE, PORT_OPEN_DRAIN_DISABLE⟩) =
          Outcome.done () s1) ∧
        (∀ t, ∃ t1, Port_SetPinDirection t 0x13 PORT_PIN_IN = Outcome.done () t1) ∧
        (∀ t, ∃ t1, Port_SetPinMode t 0x13 PORT_PIN_ADC = Outcome.done () t1))) :=
  ⟨by decide, Port_Init_all_or_nothing HW.zero _ (by decide)⟩

/-- C19: for every valid pin and every choice of drive strength, direction,
level, pull-up, pull-down and open-drain within their domains, `Port_Init`
with mode ADC runs to completion and leaves the pin's digital-enable bit and
its alternate-function-select bit clear. -/
theorem Port_Init_ADC_clears_mux (s : HW) (cfg : Port_ConfigType)
    (hpin : Port_PortPinCheck cfg.Port_Pin = E_OK) (hmode : cfg.Port_PinMode = PORT_PIN_ADC)
    (hcur : cfg.Port_Current ≤ 3) (hdir : cfg.Port_PinDirection ≤ 1)
    (hlvl : cfg.Port_PinLevelInit ≤ 1) (hpu : cfg.Port_PinPullUpRes ≤ 1)
    (hpd : cfg.Port_PinPullDownRes ≤ 1) (hod : cfg.Port_PinOpenDrain ≤ 1) :
    ∃ base s1, HW_PortsAddresses[PORT_GET_PORT cfg.Port_Pin]? = some base ∧
      Port_Init s (some cfg) = Outcome.done () s1 ∧
      (s1.mem (base + HW_GPIODEN_OFFSET)).testBit (PORT_GET_PIN cfg.Port_Pin) = false ∧
      (s1.mem (base + HW_GPIOAFSEL_OFFSET)).testBit (PORT_GET_PIN cfg.Port_Pin) = false := by
  have hm1 : cfg.Port_PinMode ≤ 1 := le_of_eq hmode
  have hfit : cfg.fits := ⟨by omega, by omega, by omega, by omega, by omega, by omega, by omega⟩
  have hchk : Port_ConfigTypeCheck (some cfg) = some E_OK :=
    (port_config_check_iff cfg).2 ⟨hpin, hcur, hm1, hlvl, hpu, hpd, hod⟩
  obtain ⟨base, hb, hbase, -, hbit, hrun⟩ := port_init_run s cfg hfit hchk
  refine ⟨base, _, hb, hrun, ?_, ?_⟩
  · unfold Port_Init_regs
    simp only
    rw [port_set_pin_mode_regs_den _ base _ _ hbase hbit, hmode]
    decide
  · unfold Port_Init_regs
    simp only
    rw [port_set_pin_mode_regs_afsel _ base _ _ hbase hbit, hmode]
    simp

/-- C19 at pin E3 (0x43) with 4 mA drive, direction IN, level LOW, pull-up
and open drain enabled, on the all-zero register file. -/
theorem Port_Init_ADC_clears_mux_witness :
    (Port_PortPinCheck 0x43 = E_OK ∧ PORT_PIN_ADC = PORT_PIN_ADC ∧ PORT_CURRENT_4mA ≤ 3 ∧
      PORT_PIN_IN ≤ 1 ∧ STD_LOW ≤ 1 ∧ PORT_PULL_UP_ENABLE ≤ 1 ∧ PORT_PULL_DOWN_DISABLE ≤ 1 ∧
      PORT_OPEN_DRAIN_ENABLE ≤ 1) ∧
    ∃ base s1, HW_PortsAddresses[PORT_GET_PORT 0x43]? = some base ∧
      Port_Init HW.zero (some ⟨0x43, PORT_PIN_ADC, PORT_CURRENT_4mA, PORT_PIN_IN, STD_LOW,
        PORT_PULL_UP_ENABLE, PORT_PULL_DOWN_DISABLE, PORT_OPEN_DRAIN_ENABLE⟩) =
        Outcome.done () s1 ∧
      (s1.mem (base + HW_GPIODEN_OFFSET)).testBit (PORT_GET_PIN 0x43) = false ∧
      (s1.mem (base + HW_GPIOAFSEL_OFFSET)).testBit (PORT_GET_PIN 0x43) = false :=
  ⟨⟨by decide, rfl, by decide, by decide, by decide, by decide, by decide, by decide⟩,
    Port_Init_ADC_clears_mux HW.zero
      ⟨0x43, PORT_PIN_ADC, PORT_CURRENT_4mA, PORT_PIN_IN, STD_LOW, PORT_PULL_UP_ENABLE,
        PORT_PULL_DOWN_DISABLE, PORT_OPEN_DRAIN_ENABLE⟩
      (by decide) rfl (by decide) (by decide) (by decide) (by decide) (by decide) (by decide)⟩

/-- The stage of a register inside the block of the port at `base` depends
on its offset alone. -/
theorem stage_of_port_reg (base off : Nat) (hbase : base ≤ 0x40025000) (hoff : off ≤ 0xFFF) :
    stageOf base (base + off) =
      if off = HW_GPIODIR_OFFSET then some 1
      else if off = HW_GPIODR2R_OFFSET ∨ off = HW_GPIODR4R_OFFSET ∨
          off = HW_GPIODR8R_OFFSET then some 2
      else if off = HW_GPIOPUR_OFFSET ∨ off = HW_GPIOPDR_OFFSET ∨
          off = HW_GPIOODR_OFFSET then some 3
      else if off = HW_GPIODEN_OFFSET ∨ off = HW_GPIOAFSEL_OFFSET then some 4
      else none := by
  have hclk : ¬ (base + off = HW_SYSTEM_CONTROL_BA + HW_RCGC2_OFFSET ∨
      base + off = HW_SYSTEM_CONTROL_BA + HW_RCGCGPIO_OFFSET) := by
    unfold HW_SYSTEM_CONTROL_BA HW_RCGC2_OFFSET HW_RCGCGPIO_OFFSET
    omega
  unfold stageOf
  rw [if_neg hclk]
  simp only [Nat.add_left_cancel_iff]

/-- The stage of each register `Port_Init` writes. -/
theorem stage_of_registers (base : Nat) (hbase : base ≤ 0x40025000) :
    stageOf base (HW_SYSTEM_CONTROL_BA + HW_RCGC2_OFFSET) = some 0 ∧
    stageOf base (HW_SYSTEM_CONTROL_BA + HW_RCGCGPIO_OFFSET) = some 0 ∧
    stageOf base (base + HW_GPIODIR_OFFSET) = some 1 ∧
    stageOf base (base + HW_GPIODR2R_OFFSET) = some 2 ∧
    stageOf base (base + HW_GPIODR4R_OFFSET) = some 2 ∧
    stageOf base (base + HW_GPIODR8R_OFFSET) = some 2 ∧
    stageOf base (base + HW_GPIOPUR_OFFSET) = some 3 ∧
    stageOf base (base + HW_GPIOPDR_OFFSET) = some 3 ∧
    stageOf base (base + HW_GPIOODR_OFFSET) = some 3 ∧
    stageOf base (base + HW_GPIODEN_OFFSET) = some 4 ∧
    stageOf base (base + HW_GPIOAFSEL_OFFSET) = some 4 ∧
    stageOf base (base + HW_GPIOLOCK_OFFSET) = none ∧
    stageOf base (base + HW_GPIOCR_OFFSET) = none := by
  refine ⟨if_pos (Or.inl rfl), if_pos (Or.inr rfl), ?_, ?_, ?_, ?_, ?_, ?_, ?_, ?_, ?_, ?_, ?_⟩ <;>
    (rw [stage_of_port_reg base _ hbase (by decide)]
     decide)

/-- C15: for every configuration `Port_Init` accepts, the register writes it
performs are, in order, the two clock gating registers, the direction
register, the three drive strength registers, the pull-up, pull-down and
open-drain registers and the digital-enable and alternate-function-select
registers, with writes to the lock and commit-control registers in between;
leaving those out, the stages of the registers written never decrease and
each of the five stages occurs. -/
theorem Port_Init_stage_order (s : HW) (cfg : Port_ConfigType) (hfit : cfg.fits)
    (hchk : Port_ConfigTypeCheck (some cfg) = some E_OK) :
    ∃ base s1 L, HW_PortsAddresses[PORT_GET_PORT cfg.Port_Pin]? = some base ∧
      Port_Init s (some cfg) = Outcome.done () s1 ∧ s1.log = s.log ++ L ∧
      writeAddrs L =
        [HW_SYSTEM_CONTROL_BA + HW_RCGC2_OFFSET, HW_SYSTEM_CONTROL_BA + HW_RCGCGPIO_OFFSET,
          base + HW_GPIODIR_OFFSET,
          base + HW_GPIODR2R_OFFSET, base + HW_GPIODR4R_OFFSET, base + HW_GPIODR8R_OFFSET,
          base + HW_GPIOLOCK_OFFSET, base + HW_GPIOCR_OFFSET, base + HW_GPIOPUR_OFFSET,
          base + HW_GPIOLOCK_OFFSET, base + HW_GPIOCR_OFFSET, base + HW_GPIOPDR_OFFSET,
          base + HW_GPIOODR_OFFSET,
          base + HW_GPIOLOCK_OFFSET, base + HW_GPIOCR_OFFSET, base + HW_GPIODEN_OFFSET,
          base + HW_GPIOLOCK_OFFSET, base + HW_GPIOCR_OFFSET, base + HW_GPIOAFSEL_OFFSET] ∧
      (writeAddrs L).filterMap (stageOf base) = [0, 0, 1, 2, 2, 2, 3, 3, 3, 4, 4] ∧
      List.Pairwise (fun a b => a ≤ b) ((writeAddrs L).filterMap (stageOf base)) ∧
      ∀ k, k ≤ 4 → k ∈ (writeAddrs L).filterMap (stageOf base) := by
  obtain ⟨base, hb, hbase, -, hbit, hrun⟩ := port_init_run s cfg hfit hchk
  obtain ⟨-, hcur, -, -, hpu, hpd, hod⟩ := (port_config_check_iff cfg).1 hchk
  obtain ⟨-, -, hdir, -⟩ := hfit
  obtain ⟨k1, k2, d, w2, w4, w8, c1, u, c2, v, o, c3, e, c4, a, hlog, -⟩ :=
    port_init_regs_log s base cfg hbase hbit (by omega) hcur hpu hpd hod
  obtain ⟨g1, g2, g3, g4, g5, g6, g7, g8, g9, g10, g11, g12, g13⟩ :=
    stage_of_registers base hbase
  have hstages : List.filterMap (stageOf base)
      [HW_SYSTEM_CONTROL_BA + HW_RCGC2_OFFSET, HW_SYSTEM_CONTROL_BA + HW_RCGCGPIO_OFFSET,
        base + HW_GPIODIR_OFFSET,
        base + HW_GPIODR2R_OFFSET, base + HW_GPIODR4R_OFFSET, base + HW_GPIODR8R_OFFSET,
        base + HW_GPIOLOCK_OFFSET, base + HW_GPIOCR_OFFSET, base + HW_GPIOPUR_OFFSET,
        base + HW_GPIOLOCK_OFFSET, base + HW_GPIOCR_OFFSET, base + HW_GPIOPDR_OFFSET,
        base + HW_GPIOODR_OFFSET,
        base + HW_GPIOLOCK_OFFSET, base + HW_GPIOCR_OFFSET, base + HW_GPIODEN_OFFSET,
        base + HW_GPIOLOCK_OFFSET, base + HW_GPIOCR_OFFSET, base + HW_GPIOAFSEL_OFFSET] =
      [0, 0, 1, 2, 2, 2, 3, 3, 3, 4, 4] := by
    simp only [List.filterMap_cons, List.filterMap_nil, g1, g2, g3, g4, g5, g6, g7, g8, g9, g10,
      g11, g12, g13]
  refine ⟨base, _, _, hb, hrun, hlog, rfl, ?_, ?_, ?_⟩
  · exact hstages
  · have hw : ∀ x y : List Nat, x = y → List.Pairwise (fun a b => a ≤ b) y →
        List.Pairwise (fun a b => a ≤ b) x := fun x y h hp => h ▸ hp
    exact hw _ _ hstages (by decide)
  · intro k hk
    have hw : ∀ x y : List Nat, x = y → k ∈ y → k ∈ x := fun x y h hp => h ▸ hp
    refine hw _ _ hstages ?_
    interval_cases k <;> decide

/-- C15 at an ADC configuration of pin B3 (0x13) on the all-zero register
file. -/
theorem Port_Init_stage_order_witness :
    ((⟨0x13, PORT_PIN_ADC, PORT_CURRENT_DEFAULT, PORT_PIN_IN, STD_LOW, PORT_PULL_UP_DISABLE,
        PORT_PULL_DOWN_DISABLE, PORT_OPEN_DRAIN_DISABLE⟩ : Port_ConfigType).fits ∧
      Port_ConfigTypeCheck (some ⟨0x13, PORT_PIN_ADC, PORT_CURRENT_DEFAULT, PORT_PIN_IN, STD_LOW,
        PORT_PULL_UP_DISABLE, PORT_PULL_DOWN_DISABLE, PORT_OPEN_DRAIN_DISABLE⟩) = some E_OK) ∧
    ∃ base s1 L, HW_PortsAddresses[PORT_GET_PORT 0x13]? = some base ∧
      Port_Init HW.zero (some ⟨0x13, PORT_PIN_ADC, PORT_CURRENT_DEFAULT, PORT_PIN_IN, STD_LOW,
        PORT_PULL_UP_DISABLE, PORT_PULL_DOWN_DISABLE, PORT_OPEN_DRAIN_DISABLE⟩) =
        Outcome.done () s1 ∧ s1.log = HW.zero.log ++ L ∧
      writeAddrs L =
        [HW_SYSTEM_CONTROL_BA + HW_RCGC2_OFFSET, HW_SYSTEM_CONTROL_BA + HW_RCGCGPIO_OFFSET,
          base + HW_GPIODIR_OFFSET,
          base + HW_GPIODR2R_OFFSET, base + HW_GPIODR4R_OFFSET, base + HW_GPIODR8R_OFFSET,
          base + HW_GPIOLOCK_OFFSET, base + HW_GPIOCR_OFFSET, base + HW_GPIOPUR_OFFSET,
          base + HW_GPIOLOCK_OFFSET, base + HW_GPIOCR_OFFSET, base + HW_GPIOPDR_OFFSET,
          base + HW_GPIOODR_OFFSET,
          base + HW_GPIOLOCK_OFFSET, base + HW_GPIOCR_OFFSET, base + HW_GPIODEN_OFFSET,
          base + HW_GPIOLOCK_OFFSET, base + HW_GPIOCR_OFFSET, base + HW_GPIOAFSEL_OFFSET] ∧
      (writeAddrs L).filterMap (stageOf base) = [0, 0, 1, 2, 2, 2, 3, 3, 3, 4, 4] ∧
      List.Pairwise (fun a b => a ≤ b) ((writeAddrs L).filterMap (stageOf base)) ∧
      ∀ k, k ≤ 4 → k ∈ (writeAddrs L).filterMap (stageOf base) :=
  ⟨⟨by decide, by decide⟩,
    Port_Init_stage_order HW.zero
      ⟨0x13, PORT_PIN_ADC, PORT_CURRENT_DEFAULT, PORT_PIN_IN, STD_LOW, PORT_PULL_UP_DISABLE,
        PORT_PULL_DOWN_DISABLE, PORT_OPEN_DRAIN_DISABLE⟩ (by decide) (by decide)⟩

/-! ## Unlock and commit before protected writes -/

/-- Nothing is asked of the empty log. -/
theorem unlocked_after_nil (lock cr bit : Nat) (prot R : List _) :
    UnlockedAfter lock cr bit prot R [] := by
  intro pre post addr v h
  cases pre <;> cases h

/-- One step of the check: the first access passes, and so does the rest of
the log after it. -/
theorem unlocked_after_cons (lock cr bit : Nat) (prot : List Nat) (R L : List Access)
    (x : Access)
    (hx : ∀ addr v, x = Access.write addr v → addr ∈ prot →
      ∃ rest c, R = Access.read addr :: Access.write cr c :: Access.read cr ::
          Access.write lock HW_GPIO_UNLOCK_PATTERN :: rest ∧
        c.testBit bit = true)
    (hL : UnlockedAfter lock cr bit prot (x :: R) L) :
    UnlockedAfter lock cr bit prot R (x :: L) := by
  intro pre post addr v h hmem
  cases pre with
  | nil =>
    simp only [List.nil_append, List.cons.injEq] at h
    simpa using hx addr v h.1 hmem
  | cons y pre1 =>
    simp only [List.cons_append, List.cons.injEq] at h
    obtain ⟨rest, c, hr, hc⟩ := hL pre1 post addr v h.2 hmem
    refine ⟨rest, c, ?_, hc⟩
    rw [List.reverse_cons, List.append_assoc, ← h.1]
    exact hr

/-- A read always passes. -/
theorem unlocked_after_read (lock cr bit : Nat) (prot : List Nat) (R L : List Access)
    (a : Nat) (hL : UnlockedAfter lock cr bit prot (Access.read a :: R) L) :
    UnlockedAfter lock cr bit prot R (Access.read a :: L) :=
  unlocked_after_cons lock cr bit prot R L _ (fun addr v h => by cases h) hL

/-- A write to an address outside `prot` passes. -/
theorem unlocked_after_write_free (lock cr bit : Nat) (prot : List Nat) (R L : List Access)
    (a w : Nat) (ha : a ∉ prot)
    (hL : UnlockedAfter lock cr bit prot (Access.write a w :: R) L) :
    UnlockedAfter lock cr bit prot R (Access.write a w :: L) :=
  unlocked_after_cons lock cr bit prot R L _
    (fun addr v h hm => by
      cases h
      exact absurd hm ha) hL

/-- A write that comes right after unlock, commit and a read of its address
passes. -/
theorem unlocked_after_write_prot (lock cr bit : Nat) (prot : List Nat) (R L : List Access)
    (a w c : Nat) (hc : c.testBit bit = true)
    (hL : UnlockedAfter lock cr bit prot
      (Access.write a w :: Access.read a :: Access.write cr c :: Access.read cr ::
        Access.write lock HW_GPIO_UNLOCK_PATTERN :: R) L) :
    UnlockedAfter lock cr bit prot
      (Access.read a :: Access.write cr c :: Access.read cr ::
        Access.write lock HW_GPIO_UNLOCK_PATTERN :: R) (Access.write a w :: L) :=
  unlocked_after_cons lock cr bit prot _ L _
    (fun addr v h _ => by
      cases h
      exact ⟨R, c, rfl, hc⟩) hL

/-- From the beginning of a log the check is the ordering itself. -/
theorem unlocked_of_after (lock cr bit : Nat) (prot : List Nat) (L : List Access)
    (h : UnlockedAfter lock cr bit prot [] L) : UnlockedBeforeEachWrite lock cr bit prot L := by
  intro pre post addr v hL hmem
  obtain ⟨rest, c, hr, hc⟩ := h pre post addr v hL hmem
  refine ⟨rest.reverse, c, ?_, hc⟩
  rw [List.append_nil] at hr
  have := congrArg List.reverse hr
  rw [List.reverse_reverse] at this
  rw [this]
  simp

/-- A register of a port that is not one of the four commit-protected ones
is not among their addresses. -/
theorem port_reg_not_prot (base off : Nat)
    (h : off ∉ [HW_GPIOPUR_OFFSET, HW_GPIOPDR_OFFSET, HW_GPIODEN_OFFSET, HW_GPIOAFSEL_OFFSET]) :
    base + off ∉ [base + HW_GPIOPUR_OFFSET, base + HW_GPIOPDR_OFFSET,
      base + HW_GPIODEN_OFFSET, base + HW_GPIOAFSEL_OFFSET] := by
  simp only [List.mem_cons, List.mem_singleton, List.not_mem_nil, or_false,
    Nat.add_left_cancel_iff] at h ⊢
  exact h

/-- The clock gating registers are not among the commit-protected registers
of any port. -/
theorem clock_reg_not_prot (base off : Nat) (hbase : base ≤ 0x40025000) (hoff : off ≤ 0xFFF) :
    HW_SYSTEM_CONTROL_BA + off ∉ [base + HW_GPIOPUR_OFFSET, base + HW_GPIOPDR_OFFSET,
      base + HW_GPIODEN_OFFSET, base + HW_GPIOAFSEL_OFFSET] := by
  simp only [List.mem_cons, List.mem_singleton, List.not_mem_nil, or_false]
  unfold HW_SYSTEM_CONTROL_BA HW_GPIOPUR_OFFSET HW_GPIOPDR_OFFSET HW_GPIODEN_OFFSET
    HW_GPIOAFSEL_OFFSET
  omega

/-- In a `Port_SetPinMode` pass the writes to the digital-enable and
alternate-function-select registers each come right after their own unlock
and commit. -/
theorem port_set_pin_mode_unlocked (s : HW) (base b mode : Nat) (hbase : base ≤ 0x40025000)
    (hb : b ≤ 7) :
    ∃ L, (Port_SetPinMode_regs s base b mode).log = s.log ++ L ∧
      UnlockedBeforeEachWrite (base + HW_GPIOLOCK_OFFSET) (base + HW_GPIOCR_OFFSET) b
        [base + HW_GPIOPUR_OFFSET, base + HW_GPIOPDR_OFFSET, base + HW_GPIODEN_OFFSET,
          base + HW_GPIOAFSEL_OFFSET] L := by
  obtain ⟨c1, d, c2, a, hlog, hc1, hc2⟩ := port_set_pin_mode_regs_log s base b mode hbase hb
  refine ⟨_, hlog, ?_⟩
  apply unlocked_of_after
  apply unlocked_after_write_free _ _ _ _ _ _ _ _ (port_reg_not_prot base _ (by decide))
  apply unlocked_after_read
  apply unlocked_after_write_free _ _ _ _ _ _ _ _ (port_reg_not_prot base _ (by decide))
  apply unlocked_after_read
  apply unlocked_after_write_prot _ _ _ _ _ _ _ _ _ hc1
  apply unlocked_after_write_free _ _ _ _ _ _ _ _ (port_reg_not_prot base _ (by decide))
  apply unlocked_after_read
  apply unlocked_after_write_free _ _ _ _ _ _ _ _ (port_reg_not_prot base _ (by decide))
  apply unlocked_after_read
  apply unlocked_after_write_prot _ _ _ _ _ _ _ _ _ hc2
  exact unlocked_after_nil _ _ _ _ _

/-- In a `Port_Init` pass the writes to the pull-up, pull-down, digital-enable
and alternate-function-select registers each come right after their own
unlock and commit. -/
theorem port_init_unlocked (s : HW) (base : Nat) (cfg : Port_ConfigType)
    (hbase : base ≤ 0x40025000) (hb : PORT_GET_PIN cfg.Port_Pin ≤ 7)
    (hdir : cfg.Port_PinDirection ≤ 1) (hcur : cfg.Port_Current ≤ 3)
    (hpu : cfg.Port_PinPullUpRes ≤ 1) (hpd : cfg.Port_PinPullDownRes ≤ 1)
    (hod : cfg.Port_PinOpenDrain ≤ 1) :
    ∃ L, (Port_Init_regs s base cfg).log = s.log ++ L ∧
      UnlockedBeforeEachWrite (base + HW_GPIOLOCK_OFFSET) (base + HW_GPIOCR_OFFSET)
        (PORT_GET_PIN cfg.Port_Pin)
        [base + HW_GPIOPUR_OFFSET, base + HW_GPIOPDR_OFFSET, base + HW_GPIODEN_OFFSET,
          base + HW_GPIOAFSEL_OFFSET] L := by
  obtain ⟨k1, k2, d, w2, w4, w8, c1, u, c2, v, o, c3, e, c4, a, hlog, hc1, hc2, hc3, hc4⟩ :=
    port_init_regs_log s base cfg hbase hb hdir hcur hpu hpd hod
  refine ⟨_, hlog, ?_⟩
  apply unlocked_of_after
  apply unlocked_after_read
  apply unlocked_after_write_free _ _ _ _ _ _ _ _ (clock_reg_not_prot base _ hbase (by decide))
  apply unlocked_after_read
  apply unlocked_after_write_free _ _ _ _ _ _ _ _ (clock_reg_not_prot base _ hbase (by decide))
  apply unlocked_after_read
  apply unlocked_after_write_free _ _ _ _ _ _ _ _ (port_reg_not_prot base _ (by decide))
  apply unlocked_after_read
  apply unlocked_after_write_free _ _ _ _ _ _ _ _ (port_reg_not_prot base _ (by decide))
  apply unlocked_after_read
  apply unlocked_after_write_free _ _ _ _ _ _ _ _ (port_reg_not_prot base _ (by decide))
  apply unlocked_after_read
  apply unlocked_after_write_free _ _ _ _ _ _ _ _ (port_reg_not_prot base _ (by decide))
  apply unlocked_after_write_free _ _ _ _ _ _ _ _ (port_reg_not_prot base _ (by decide))
  apply unlocked_after_read
  apply unlocked_after_write_free _ _ _ _ _ _ _ _ (port_reg_not_prot base _ (by decide))
  apply unlocked_after_read
  apply unlocked_after_write_prot _ _ _ _ _ _ _ _ _ hc1
  apply unlocked_after_write_free _ _ _ _ _ _ _ _ (port_reg_not_prot base _ (by decide))
  apply unlocked_after_read
  apply unlocked_after_write_free _ _ _ _ _ _ _ _ (port_reg_not_prot base _ (by decide))
  apply unlocked_after_read
  apply unlocked_after_write_prot _ _ _ _ _ _ _ _ _ hc2
  apply unlocked_after_read
  apply unlocked_after_write_free _ _ _ _ _ _ _ _ (port_reg_not_prot base _ (by decide))
  apply unlocked_after_write_free _ _ _ _ _ _ _ _ (port_reg_not_prot base _ (by decide))
  apply unlocked_after_read
  apply unlocked_after_write_free _ _ _ _ _ _ _ _ (port_reg_not_prot base _ (by decide))
  apply unlocked_after_read
  apply unlocked_after_write_prot _ _ _ _ _ _ _ _ _ hc3
  apply unlocked_after_write_free _ _ _ _ _ _ _ _ (port_reg_not_prot base _ (by decide))
  apply unlocked_after_read
  apply unlocked_after_write_free _ _ _ _ _ _ _ _ (port_reg_not_prot base _ (by decide))
  apply unlocked_after_read
  apply unlocked_after_write_prot _ _ _ _ _ _ _ _ _ hc4
  exact unlocked_after_nil _ _ _ _ _

/-- The accesses of `Port_Init` on the all-zero register file for pin A0 as a
plain input (mode DIO, default drive, no pull resistor, no open drain). -/
theorem port_init_example_log :
    (Port_Init HW.zero (some ⟨0x00, PORT_PIN_DIO, PORT_CURRENT_DEFAULT, PORT_PIN_IN, STD_LOW,
      PORT_PULL_UP_DISABLE, PORT_PULL_DOWN_DISABLE, PORT_OPEN_DRAIN_DISABLE⟩)).hw.log =
      [Access.read 0x400FE108, Access.write 0x400FE108 1,
        Access.read 0x400FE608, Access.write 0x400FE608 1,
        Access.read 0x40004400, Access.write 0x40004400 0,
        Access.read 0x40004500, Access.write 0x40004500 0,
        Access.read 0x40004504, Access.write 0x40004504 0,
        Access.read 0x40004508, Access.write 0x40004508 0,
        Access.write 0x40004520 0x4C4F434B,
        Access.read 0x40004524, Access.write 0x40004524 1,
        Access.read 0x40004510, Access.write 0x40004510 0,
        Access.write 0x40004520 0x4C4F434B,
        Access.read 0x40004524, Access.write 0x40004524 1,
        Access.read 0x40004514, Access.write 0x40004514 0,
        Access.read 0x4000450C, Access.write 0x4000450C 0,
        Access.write 0x40004520 0x4C4F434B,
        Access.read 0x40004524, Access.write 0x40004524 1,
        Access.read 0x4000451C, Access.write 0x4000451C 1,
        Access.write 0x40004520 0x4C4F434B,
        Access.read 0x40004524, Access.write 0x40004524 1,
        Access.read 0x40004420, Access.write 0x40004420 0] := by
  rfl

/-- C16, as stated, fails at the open-drain register: in the `Port_Init` pass
for pin A0 as a plain input on the all-zero register file, the write to the
open-drain register (0x4000450C) comes right after the commit of the
pull-down step, the read and write of the pull-down register and its own
read, with no write to the lock register and no commit of its own before
it. -/
theorem Port_Init_open_drain_without_unlock :
    (∃ s1, Port_Init HW.zero (some ⟨0x00, PORT_PIN_DIO, PORT_CURRENT_DEFAULT, PORT_PIN_IN,
      STD_LOW, PORT_PULL_UP_DISABLE, PORT_PULL_DOWN_DISABLE, PORT_OPEN_DRAIN_DISABLE⟩) =
      Outcome.done () s1) ∧
    (((Port_Init HW.zero (some ⟨0x00, PORT_PIN_DIO, PORT_CURRENT_DEFAULT, PORT_PIN_IN, STD_LOW,
      PORT_PULL_UP_DISABLE, PORT_PULL_DOWN_DISABLE, PORT_OPEN_DRAIN_DISABLE⟩)).hw.log.drop
        19).take 5 =
      [Access.write (0x40004000 + HW_GPIOCR_OFFSET) 1,
        Access.read (0x40004000 + HW_GPIOPDR_OFFSET),
        Access.write (0x40004000 + HW_GPIOPDR_OFFSET) 0,
        Access.read (0x40004000 + HW_GPIOODR_OFFSET),
        Access.write (0x40004000 + HW_GPIOODR_OFFSET) 0]) ∧
    ¬ UnlockedBeforeEachWrite (0x40004000 + HW_GPIOLOCK_OFFSET) (0x40004000 + HW_GPIOCR_OFFSET)
      (PORT_GET_PIN 0x00)
      [0x40004000 + HW_GPIOPUR_OFFSET, 0x40004000 + HW_GPIOPDR_OFFSET,
        0x40004000 + HW_GPIOODR_OFFSET, 0x40004000 + HW_GPIODEN_OFFSET,
        0x40004000 + HW_GPIOAFSEL_OFFSET]
      (Port_Init HW.zero (some ⟨0x00, PORT_PIN_DIO, PORT_CURRENT_DEFAULT, PORT_PIN_IN, STD_LOW,
        PORT_PULL_UP_DISABLE, PORT_PULL_DOWN_DISABLE, PORT_OPEN_DRAIN_DISABLE⟩)).hw.log := by
  refine ⟨?_, ?_, ?_⟩
  · obtain ⟨base, -, -, -, -, hrun⟩ := port_init_run HW.zero
      ⟨0x00, PORT_PIN_DIO, PORT_CURRENT_DEFAULT, PORT_PIN_IN, STD_LOW, PORT_PULL_UP_DISABLE,
        PORT_PULL_DOWN_DISABLE, PORT_OPEN_DRAIN_DISABLE⟩ (by decide) (by decide)
    exact ⟨_, hrun⟩
  · rw [port_init_example_log]
    rfl
  · rw [port_init_example_log]
    intro h
    obtain ⟨pre1, c, hpre, -⟩ := h
      [Access.read 0x400FE108, Access.write 0x400FE108 1,
        Access.read 0x400FE608, Access.write 0x400FE608 1,
        Access.read 0x40004400, Access.write 0x40004400 0,
        Access.read 0x40004500, Access.write 0x40004500 0,
        Access.read 0x40004504, Access.write 0x40004504 0,
        Access.read 0x40004508, Access.write 0x40004508 0,
        Access.write 0x40004520 0x4C4F434B,
        Access.read 0x40004524, Access.write 0x40004524 1,
        Access.read 0x40004510, Access.write 0x40004510 0,
        Access.write 0x40004520 0x4C4F434B,
        Access.read 0x40004524, Access.write 0x40004524 1,
        Access.read 0x40004514, Access.write 0x40004514 0,
        Access.read 0x4000450C]
      [Access.write 0x40004520 0x4C4F434B,
        Access.read 0x40004524, Access.write 0x40004524 1,
        Access.read 0x4000451C, Access.write 0x4000451C 1,
        Access.write 0x40004520 0x4C4F434B,
        Access.read 0x40004524, Access.write 0x40004524 1,
        Access.read 0x40004420, Access.write 0x40004420 0]
      0x4000450C 0 rfl (by decide)
    have hrev := congrArg List.reverse hpre
    simp at hrev

/-- C16, amended: within one `Port_Init` pass that accepts its configuration,
and within one `Port_SetPinMode` pass on a valid pin and mode, every write to
the pull-up, pull-down, digital-enable or alternate-function-select register
comes right after its own unlock and commit: a write of the unlock pattern
0x4C4F434B to the port's lock register, a read of the commit-control
register and a write to it of a word with the pin's bit set, then the read
of the register itself.  The registers written are listed for both passes. -/
theorem Port_Init_unlock_before_protected (s t : HW) (cfg : Port_ConfigType) (pin mode : Nat)
    (hfit : cfg.fits) (hchk : Port_ConfigTypeCheck (some cfg) = some E_OK)
    (hpin : Port_PortPinCheck pin = E_OK) (hmode : mode ≤ 9) :
    (∃ base s1 L, HW_PortsAddresses[PORT_GET_PORT cfg.Port_Pin]? = some base ∧
      Port_Init s (some cfg) = Outcome.done () s1 ∧ s1.log = s.log ++ L ∧
      writeAddrs L =
        [HW_SYSTEM_CONTROL_BA + HW_RCGC2_OFFSET, HW_SYSTEM_CONTROL_BA + HW_RCGCGPIO_OFFSET,
          base + HW_GPIODIR_OFFSET,
          base + HW_GPIODR2R_OFFSET, base + HW_GPIODR4R_OFFSET, base + HW_GPIODR8R_OFFSET,
          base + HW_GPIOLOCK_OFFSET, base + HW_GPIOCR_OFFSET, base + HW_GPIOPUR_OFFSET,
          base + HW_GPIOLOCK_OFFSET, base + HW_GPIOCR_OFFSET, base + HW_GPIOPDR_OFFSET,
          base + HW_GPIOODR_OFFSET,
          base + HW_GPIOLOCK_OFFSET, base + HW_GPIOCR_OFFSET, base + HW_GPIODEN_OFFSET,
          base + HW_GPIOLOCK_OFFSET, base + HW_GPIOCR_OFFSET, base + HW_GPIOAFSEL_OFFSET] ∧
      UnlockedBeforeEachWrite (base + HW_GPIOLOCK_OFFSET) (base + HW_GPIOCR_OFFSET)
        (PORT_GET_PIN cfg.Port_Pin)
        [base + HW_GPIOPUR_OFFSET, base + HW_GPIOPDR_OFFSET, base + HW_GPIODEN_OFFSET,
          base + HW_GPIOAFSEL_OFFSET] L) ∧
    ∃ base t1 L, HW_PortsAddresses[PORT_GET_PORT pin]? = some base ∧
      Port_SetPinMode t pin mode = Outcome.done () t1 ∧ t1.log = t.log ++ L ∧
      writeAddrs L =
        [base + HW_GPIOLOCK_OFFSET, base + HW_GPIOCR_OFFSET, base + HW_GPIODEN_OFFSET,
          base + HW_GPIOLOCK_OFFSET, base + HW_GPIOCR_OFFSET, base + HW_GPIOAFSEL_OFFSET] ∧
      UnlockedBeforeEachWrite (base + HW_GPIOLOCK_OFFSET) (base + HW_GPIOCR_OFFSET)
        (PORT_GET_PIN pin)
        [base + HW_GPIOPUR_OFFSET, base + HW_GPIOPDR_OFFSET, base + HW_GPIODEN_OFFSET,
          base + HW_GPIOAFSEL_OFFSET] L := by
  constructor
  · obtain ⟨base, hb, hbase, -, hbit, hrun⟩ := port_init_run s cfg hfit hchk
    obtain ⟨-, hcur, -, -, hpu, hpd, hod⟩ := (port_config_check_iff cfg).1 hchk
    obtain ⟨-, -, hdir, -⟩ := hfit
    obtain ⟨k1, k2, d, w2, w4, w8, c1, u, c2, v, o, c3, e, c4, a, hlog, -⟩ :=
      port_init_regs_log s base cfg hbase hbit (by omega) hcur hpu hpd hod
    obtain ⟨L, hL, hun⟩ := port_init_unlocked s base cfg hbase hbit (by omega) hcur hpu hpd hod
    have hLL := List.append_cancel_left (hL.symm.trans hlog)
    refine ⟨base, _, L, hb, hrun, hL, ?_, hun⟩
    rw [hLL]
    rfl
  · obtain ⟨base, hb, hbase, hbit, hrun⟩ := port_set_pin_mode_run t pin mode hpin hmode
    obtain ⟨c1, d, c2, a, hlog, -⟩ := port_set_pin_mode_regs_log t base (PORT_GET_PIN pin) mode
      hbase hbit
    obtain ⟨L, hL, hun⟩ := port_set_pin_mode_unlocked t base (PORT_GET_PIN pin) mode hbase hbit
    have hLL := List.append_cancel_left (hL.symm.trans hlog)
    refine ⟨base, _, L, hb, hrun, hL, ?_, hun⟩
    rw [hLL]
    rfl

/-- C16, amended, at an ADC configuration of pin B3 (0x13) and at
`Port_SetPinMode` for pin B3 with mode UART, on the all-zero register file. -/
theorem Port_Init_unlock_before_protected_witness :
    ((⟨0x13, PORT_PIN_ADC, PORT_CURRENT_DEFAULT, PORT_PIN_IN, STD_LOW, PORT_PULL_UP_DISABLE,
        PORT_PULL_DOWN_DISABLE, PORT_OPEN_DRAIN_DISABLE⟩ : Port_ConfigType).fits ∧
      Port_ConfigTypeCheck (some ⟨0x13, PORT_PIN_ADC, PORT_CURRENT_DEFAULT, PORT_PIN_IN, STD_LOW,
        PORT_PULL_UP_DISABLE, PORT_PULL_DOWN_DISABLE, PORT_OPEN_DRAIN_DISABLE⟩) = some E_OK ∧
      Port_PortPinCheck 0x13 = E_OK ∧ PORT_PIN_UART ≤ 9) ∧
    (∃ base s1 L, HW_PortsAddresses[PORT_GET_PORT 0x13]? = some base ∧
      Port_Init HW.zero (some ⟨0x13, PORT_PIN_ADC, PORT_CURRENT_DEFAULT, PORT_PIN_IN, STD_LOW,
        PORT_PULL_UP_DISABLE, PORT_PULL_DOWN_DISABLE, PORT_OPEN_DRAIN_DISABLE⟩) =
        Outcome.done () s1 ∧ s1.log = HW.zero.log ++ L ∧
      writeAddrs L =
        [HW_SYSTEM_CONTROL_BA + HW_RCGC2_OFFSET, HW_SYSTEM_CONTROL_BA + HW_RCGCGPIO_OFFSET,
          base + HW_GPIODIR_OFFSET,
          base + HW_GPIODR2R_OFFSET, base + HW_GPIODR4R_OFFSET, base + HW_GPIODR8R_OFFSET,
          base + HW_GPIOLOCK_OFFSET, base + HW_GPIOCR_OFFSET, base + HW_GPIOPUR_OFFSET,
          base + HW_GPIOLOCK_OFFSET, base + HW_GPIOCR_OFFSET, base + HW_GPIOPDR_OFFSET,
          base + HW_GPIOODR_OFFSET,
          base + HW_GPIOLOCK_OFFSET, base + HW_GPIOCR_OFFSET, base + HW_GPIODEN_OFFSET,
          base + HW_GPIOLOCK_OFFSET, base + HW_GPIOCR_OFFSET, base + HW_GPIOAFSEL_OFFSET] ∧
      UnlockedBeforeEachWrite (base + HW_GPIOLOCK_OFFSET) (base + HW_GPIOCR_OFFSET)
        (PORT_GET_PIN 0x13)
        [base + HW_GPIOPUR_OFFSET, base + HW_GPIOPDR_OFFSET, base + HW_GPIODEN_OFFSET,
          base + HW_GPIOAFSEL_OFFSET] L) ∧
    ∃ base t1 L, HW_PortsAddresses[PORT_GET_PORT 0x13]? = some base ∧
      Port_SetPinMode HW.zero 0x13 PORT_PIN_UART = Outcome.done () t1 ∧
      t1.log = HW.zero.log ++ L ∧
      writeAddrs L =
        [base + HW_GPIOLOCK_OFFSET, base + HW_GPIOCR_OFFSET, base + HW_GPIODEN_OFFSET,
          base + HW_GPIOLOCK_OFFSET, base + HW_GPIOCR_OFFSET, base + HW_GPIOAFSEL_OFFSET] ∧
      UnlockedBeforeEachWrite (base + HW_GPIOLOCK_OFFSET) (base + HW_GPIOCR_OFFSET)
        (PORT_GET_PIN 0x13)
        [base + HW_GPIOPUR_OFFSET, base + HW_GPIOPDR_OFFSET, base + HW_GPIODEN_OFFSET,
          base + HW_GPIOAFSEL_OFFSET] L :=
  ⟨⟨by decide, by decide, by decide, by decide⟩,
    Port_Init_unlock_before_protected HW.zero HW.zero
      ⟨0x13, PORT_PIN_ADC, PORT_CURRENT_DEFAULT, PORT_PIN_IN, STD_LOW, PORT_PULL_UP_DISABLE,
        PORT_PULL_DOWN_DISABLE, PORT_OPEN_DRAIN_DISABLE⟩ 0x13 PORT_PIN_UART
      (by decide) (by decide) (by decide) (by decide)⟩

/-! ## Drive strength, pull resistors and open drain -/

/-- After the drive strength statement the pin's bit in each of the three
drive strength registers says whether that register's tier was asked for. -/
theorem port_init_drive_bits (s : HW) (base b cur : Nat) (hbase : base ≤ 0x40025000)
    (hb : b ≤ 7) (hcur : cur ≤ 3) :
    ((Port_Init_driveStrength s base b cur).mem (base + HW_GPIODR2R_OFFSET)).testBit b =
        decide (cur = PORT_CURRENT_2mA) ∧
      ((Port_Init_driveStrength s base b cur).mem (base + HW_GPIODR4R_OFFSET)).testBit b =
        decide (cur = PORT_CURRENT_4mA) ∧
      ((Port_Init_driveStrength s base b cur).mem (base + HW_GPIODR8R_OFFSET)).testBit b =
        decide (cur = PORT_CURRENT_8mA) := by
  unfold Port_Init_driveStrength
  rw [port_reg_addr base HW_GPIODR2R_OFFSET hbase (by decide),
    port_reg_addr base HW_GPIODR4R_OFFSET hbase (by decide),
    port_reg_addr base HW_GPIODR8R_OFFSET hbase (by decide)]
  have hb32 : b < 32 := by omega
  have h24 : base + HW_GPIODR2R_OFFSET ≠ base + HW_GPIODR4R_OFFSET :=
    port_reg_ne base _ _ (by decide)
  have h28 : base + HW_GPIODR2R_OFFSET ≠ base + HW_GPIODR8R_OFFSET :=
    port_reg_ne base _ _ (by decide)
  have h48 : base + HW_GPIODR4R_OFFSET ≠ base + HW_GPIODR8R_OFFSET :=
    port_reg_ne base _ _ (by decide)
  interval_cases cur
  · rw [if_pos rfl]
    simp only [HW_C_BIT_mem_ne _ _ _ _ h28, HW_C_BIT_mem_ne _ _ _ _ h24,
      HW_C_BIT_mem_ne _ _ _ _ h48, HW_C_BIT_testBit _ _ _ hb32]
    decide
  · rw [if_neg (by decide), if_pos rfl]
    simp only [HW_C_BIT_mem_ne _ _ _ _ h28, HW_C_BIT_mem_ne _ _ _ _ h24,
      HW_C_BIT_mem_ne _ _ _ _ h48, HW_C_BIT_testBit _ _ _ hb32, HW_S_BIT_testBit _ _ _ hb32]
    decide
  · rw [if_neg (by decide), if_neg (by decide), if_pos rfl]
    simp only [HW_C_BIT_mem_ne _ _ _ _ h28, HW_S_BIT_mem_ne _ _ _ _ h24,
      HW_C_BIT_mem_ne _ _ _ _ h48, HW_C_BIT_testBit _ _ _ hb32, HW_S_BIT_testBit _ _ _ hb32]
    decide
  · rw [if_neg (by decide), if_neg (by decide), if_neg (by decide), if_pos rfl]
    simp only [HW_S_BIT_mem_ne _ _ _ _ h28, HW_C_BIT_mem_ne _ _ _ _ h24,
      HW_S_BIT_mem_ne _ _ _ _ h48, HW_C_BIT_testBit _ _ _ hb32, HW_S_BIT_testBit _ _ _ hb32]
    decide

/-- After the pull-up statements the pin's pull-up bit is the setting asked for. -/
theorem port_init_pull_up_bit (s : HW) (base b pu : Nat) (hbase : base ≤ 0x40025000)
    (hb : b ≤ 7) (hpu : pu ≤ 1) :
    ((Port_Init_pullUp s base b pu).mem (base + HW_GPIOPUR_OFFSET)).testBit b =
      decide (pu = PORT_PULL_UP_ENABLE) := by
  unfold Port_Init_pullUp
  rw [port_reg_addr base HW_GPIOPUR_OFFSET hbase (by decide)]
  have hb32 : b < 32 := by omega
  simp only
  interval_cases pu
  · rw [if_pos rfl, HW_C_BIT_testBit _ _ _ hb32]
    decide
  · rw [if_neg (by decide), if_pos rfl, HW_S_BIT_testBit _ _ _ hb32]
    decide

/-- After the pull-down statements the pin's pull-down bit is the setting asked for. -/
theorem port_init_pull_down_bit (s : HW) (base b pd : Nat) (hbase : base ≤ 0x40025000)
    (hb : b ≤ 7) (hpd : pd ≤ 1) :
    ((Port_Init_pullDown s base b pd).mem (base + HW_GPIOPDR_OFFSET)).testBit b =
      decide (pd = PORT_PULL_DOWN_ENABLE) := by
  unfold Port_Init_pullDown
  rw [port_reg_addr base HW_GPIOPDR_OFFSET hbase (by decide)]
  have hb32 : b < 32 := by omega
  simp only
  interval_cases pd
  · rw [if_pos rfl, HW_C_BIT_testBit _ _ _ hb32]
    decide
  · rw [if_neg (by decide), if_pos rfl, HW_S_BIT_testBit _ _ _ hb32]
    decide

/-- After the open-drain statement the pin's open-drain bit is the setting asked for. -/
theorem port_init_open_drain_bit (s : HW) (base b od : Nat) (hbase : base ≤ 0x40025000)
    (hb : b ≤ 7) (hod : od ≤ 1) :
    ((Port_Init_openDrain s base b od).mem (base + HW_GPIOODR_OFFSET)).testBit b =
      decide (od = PORT_OPEN_DRAIN_ENABLE) := by
  unfold Port_Init_openDrain
  rw [port_reg_addr base HW_GPIOODR_OFFSET hbase (by decide)]
  have hb32 : b < 32 := by omega
  interval_cases od
  · rw [if_pos rfl, HW_C_BIT_testBit _ _ _ hb32]
    decide
  · rw [if_neg (by decide), if_pos rfl, HW_S_BIT_testBit _ _ _ hb32]
    decide

/-- After a `Port_Init` call whose assertions pass, the pin's bit in each
drive strength register says whether that register's tier was configured. -/
theorem port_init_regs_drive (s : HW) (base : Nat) (cfg : Port_ConfigType)
    (hbase : base ≤ 0x40025000) (hb : PORT_GET_PIN cfg.Port_Pin ≤ 7)
    (hcur : cfg.Port_Current ≤ 3) :
    ((Port_Init_regs s base cfg).mem (base + HW_GPIODR2R_OFFSET)).testBit
        (PORT_GET_PIN cfg.Port_Pin) = decide (cfg.Port_Current = PORT_CURRENT_2mA) ∧
      ((Port_Init_regs s base cfg).mem (base + HW_GPIODR4R_OFFSET)).testBit
        (PORT_GET_PIN cfg.Port_Pin) = decide (cfg.Port_Current = PORT_CURRENT_4mA) ∧
      ((Port_Init_regs s base cfg).mem (base + HW_GPIODR8R_OFFSET)).testBit
        (PORT_GET_PIN cfg.Port_Pin) = decide (cfg.Port_Current = PORT_CURRENT_8mA) := by
  have later : ∀ off, off ∈ [HW_GPIODR2R_OFFSET, HW_GPIODR4R_OFFSET, HW_GPIODR8R_OFFSET] →
      ∀ t, (Port_SetPinMode_regs (Port_Init_openDrain (Port_Init_pullDown (Port_Init_pullUp t
        base (PORT_GET_PIN cfg.Port_Pin) cfg.Port_PinPullUpRes)
        base (PORT_GET_PIN cfg.Port_Pin) cfg.Port_PinPullDownRes)
        base (PORT_GET_PIN cfg.Port_Pin) cfg.Port_PinOpenDrain)
        base (PORT_GET_PIN cfg.Port_Pin) cfg.Port_PinMode).mem (base + off) =
        t.mem (base + off) := by
    intro off hoff t
    have hne : ∀ o2, o2 ∈ [HW_GPIOLOCK_OFFSET, HW_GPIOCR_OFFSET, HW_GPIODEN_OFFSET,
        HW_GPIOAFSEL_OFFSET, HW_GPIOODR_OFFSET, HW_GPIOPDR_OFFSET, HW_GPIOPUR_OFFSET] →
        base + off ≠ base + o2 := by
      intro o2 ho2
      apply port_reg_ne
      revert o2
      revert off
      decide
    rw [port_set_pin_mode_regs_frame _ base _ _ _ hbase (hne _ (by decide)) (hne _ (by decide))
        (hne _ (by decide)) (hne _ (by decide)),
      port_init_open_drain_frame _ base _ _ _ hbase (hne _ (by decide)),
      port_init_pull_down_frame _ base _ _ _ hbase (hne _ (by decide)) (hne _ (by decide))
        (hne _ (by decide)),
      port_init_pull_up_frame _ base _ _ _ hbase (hne _ (by decide)) (hne _ (by decide))
        (hne _ (by decide))]
  unfold Port_Init_regs
  simp only
  rw [later _ (by decide), later _ (by decide), later _ (by decide)]
  exact port_init_drive_bits _ base _ _ hbase hb hcur

/-- After a `Port_Init` call whose assertions pass, the pin's pull-up,
pull-down and open-drain bits are the three settings configured. -/
theorem port_init_regs_pull (s : HW) (base : Nat) (cfg : Port_ConfigType)
    (hbase : base ≤ 0x40025000) (hb : PORT_GET_PIN cfg.Port_Pin ≤ 7)
    (hpu : cfg.Port_PinPullUpRes ≤ 1) (hpd : cfg.Port_PinPullDownRes ≤ 1)
    (hod : cfg.Port_PinOpenDrain ≤ 1) :
    ((Port_Init_regs s base cfg).mem (base + HW_GPIOPUR_OFFSET)).testBit
        (PORT_GET_PIN cfg.Port_Pin) = decide (cfg.Port_PinPullUpRes = PORT_PULL_UP_ENABLE) ∧
      ((Port_Init_regs s base cfg).mem (base + HW_GPIOPDR_OFFSET)).testBit
        (PORT_GET_PIN cfg.Port_Pin) =
          decide (cfg.Port_PinPullDownRes = PORT_PULL_DOWN_ENABLE) ∧
      ((Port_Init_regs s base cfg).mem (base + HW_GPIOODR_OFFSET)).testBit
        (PORT_GET_PIN cfg.Port_Pin) =
          decide (cfg.Port_PinOpenDrain = PORT_OPEN_DRAIN_ENABLE) := by
  unfold Port_Init_regs
  simp only
  refine ⟨?_, ?_, ?_⟩
  · rw [port_set_pin_mode_regs_frame _ base _ _ _ hbase (port_reg_ne base _ _ (by decide))
        (port_reg_ne base _ _ (by decide)) (port_reg_ne base _ _ (by decide))
        (port_reg_ne base _ _ (by decide)),
      port_init_open_drain_frame _ base _ _ _ hbase (port_reg_ne base _ _ (by decide)),
      port_init_pull_down_frame _ base _ _ _ hbase (port_reg_ne base _ _ (by decide))
        (port_reg_ne base _ _ (by decide)) (port_reg_ne base _ _ (by decide))]
    exact port_init_pull_up_bit _ base _ _ hbase hb hpu
  · rw [port_set_pin_mode_regs_frame _ base _ _ _ hbase (port_reg_ne base _ _ (by decide))
        (port_reg_ne base _ _ (by decide)) (port_reg_ne base _ _ (by decide))
        (port_reg_ne base _ _ (by decide)),
      port_init_open_drain_frame _ base _ _ _ hbase (port_reg_ne base _ _ (by decide))]
    exact port_init_pull_down_bit _ base _ _ hbase hb hpd
  · rw [port_set_pin_mode_regs_frame _ base _ _ _ hbase (port_reg_ne base _ _ (by decide))
        (port_reg_ne base _ _ (by decide)) (port_reg_ne base _ _ (by decide))
        (port_reg_ne base _ _ (by decide))]
    exact port_init_open_drain_bit _ base _ _ hbase hb hod

/-! ## Clock gating -/

/-- The word `HW_S_BIT` leaves in the register it is applied to. -/
theorem HW_S_BIT_mem_eq (s : HW) (a b : Nat) :
    (HW_S_BIT s a b).mem a = (s.mem a % 2 ^ 32 ||| 1 <<< b) % 2 ^ 32 := by
  show (if a = a then (s.mem a % 2 ^ 32 ||| 1 <<< b) % 2 ^ 32 else _) = _
  rw [if_pos rfl]

/-- Setting bit `p` of a 32-bit word: bit `p` is set afterwards, the other
bits keep their value, and a word that had the bit set is not changed. -/
theorem word_set_bit (m p : Nat) (hp : p < 32) :
    ((m % 2 ^ 32 ||| 1 <<< p) % 2 ^ 32).testBit p = true ∧
      (∀ i, i < 32 → i ≠ p → ((m % 2 ^ 32 ||| 1 <<< p) % 2 ^ 32).testBit i = m.testBit i) ∧
      (m.testBit p = true → (m % 2 ^ 32 ||| 1 <<< p) % 2 ^ 32 = m % 2 ^ 32) := by
  refine ⟨?_, ?_, ?_⟩
  · rw [Nat.testBit_mod_two_pow, Nat.testBit_or, Nat.one_shiftLeft, Nat.testBit_two_pow_self]
    simp [hp]
  · intro i hi hne
    rw [Nat.testBit_mod_two_pow, Nat.testBit_or, Nat.testBit_mod_two_pow, Nat.one_shiftLeft,
      Nat.testBit_two_pow]
    simp [hi, Ne.symm hne]
  · intro hset
    apply Nat.eq_of_testBit_eq
    intro i
    rw [Nat.testBit_mod_two_pow, Nat.testBit_or, Nat.testBit_mod_two_pow, Nat.one_shiftLeft,
      Nat.testBit_two_pow]
    by_cases hi : i < 32
    · by_cases hip : p = i
      · subst hip
        simp [hi, hset]
      · simp [hi, hip]
    · simp [hi]

/-- The clock enable statements leave in each clock gating register its old
32-bit word with the port's bit set. -/
theorem port_init_clock_mem (s : HW) (p : Nat) :
    (Port_Init_clock s p).mem (HW_SYSTEM_CONTROL_BA + HW_RCGC2_OFFSET) =
        (s.mem (HW_SYSTEM_CONTROL_BA + HW_RCGC2_OFFSET) % 2 ^ 32 ||| 1 <<< p) % 2 ^ 32 ∧
      (Port_Init_clock s p).mem (HW_SYSTEM_CONTROL_BA + HW_RCGCGPIO_OFFSET) =
        (s.mem (HW_SYSTEM_CONTROL_BA + HW_RCGCGPIO_OFFSET) % 2 ^ 32 ||| 1 <<< p) % 2 ^ 32 := by
  have hne : HW_SYSTEM_CONTROL_BA + HW_RCGC2_OFFSET ≠ HW_SYSTEM_CONTROL_BA + HW_RCGCGPIO_OFFSET :=
    by decide
  unfold Port_Init_clock
  simp only
  constructor
  · rw [HW_S_BIT_mem_ne _ _ _ _ hne, HW_S_BIT_mem_eq]
  · rw [HW_S_BIT_mem_eq, HW_S_BIT_mem_ne _ _ _ _ (Ne.symm hne)]

/-- The clock gating registers lie outside every port's 4 KiB block. -/
theorem clock_reg_ne (base k off : Nat) (hbase : base ≤ 0x40025000) (hoff : off ≤ 0xFFF) :
    HW_SYSTEM_CONTROL_BA + k ≠ base + off := by
  unfold HW_SYSTEM_CONTROL_BA
  omega

/-- A `Port_Init` call whose assertions pass changes the clock gating
registers in its clock enable statements only. -/
theorem port_init_regs_clock (s : HW) (base : Nat) (cfg : Port_ConfigType)
    (hbase : base ≤ 0x40025000) (k : Nat) :
    (Port_Init_regs s base cfg).mem (HW_SYSTEM_CONTROL_BA + k) =
      (Port_Init_clock s (PORT_GET_PORT cfg.Port_Pin)).mem (HW_SYSTEM_CONTROL_BA + k) := by
  unfold Port_Init_regs
  simp only
  rw [port_set_pin_mode_regs_frame _ base _ _ _ hbase (clock_reg_ne base _ _ hbase (by decide))
      (clock_reg_ne base _ _ hbase (by decide)) (clock_reg_ne base _ _ hbase (by decide))
      (clock_reg_ne base _ _ hbase (by decide)),
    port_init_open_drain_frame _ base _ _ _ hbase (clock_reg_ne base _ _ hbase (by decide)),
    port_init_pull_down_frame _ base _ _ _ hbase (clock_reg_ne base _ _ hbase (by decide))
      (clock_reg_ne base _ _ hbase (by decide)) (clock_reg_ne base _ _ hbase (by decide)),
    port_init_pull_up_frame _ base _ _ _ hbase (clock_reg_ne base _ _ hbase (by decide))
      (clock_reg_ne base _ _ hbase (by decide)) (clock_reg_ne base _ _ hbase (by decide)),
    port_init_drive_frame _ base _ _ _ hbase (clock_reg_ne base _ _ hbase (by decide))
      (clock_reg_ne base _ _ hbase (by decide)) (clock_reg_ne base _ _ hbase (by decide)),
    port_set_pin_direction_regs_frame _ base _ _ _ hbase
      (clock_reg_ne base _ _ hbase (by decide))]

/-! ## Drive strength, pull resistors, open drain and clock: claims -/

/-- C21: for every configuration `Port_Init` accepts, with target pin
(port, bit): afterwards bit `bit` of DR2R (base + 0x500) is set exactly for
the 2mA tier, of DR4R (base + 0x504) exactly for the 4mA tier and of DR8R
(base + 0x508) exactly for the 8mA tier; so for the default tier it is set in
none of them, and in every case in at most one. -/
theorem Port_Init_drive_strength (s : HW) (cfg : Port_ConfigType) (hfit : cfg.fits)
    (hchk : Port_ConfigTypeCheck (some cfg) = some E_OK) :
    ∃ base s1, HW_PortsAddresses[PORT_GET_PORT cfg.Port_Pin]? = some base ∧
      Port_Init s (some cfg) = Outcome.done () s1 ∧
      (s1.mem (base + HW_GPIODR2R_OFFSET)).testBit (PORT_GET_PIN cfg.Port_Pin) =
        decide (cfg.Port_Current = PORT_CURRENT_2mA) ∧
      (s1.mem (base + HW_GPIODR4R_OFFSET)).testBit (PORT_GET_PIN cfg.Port_Pin) =
        decide (cfg.Port_Current = PORT_CURRENT_4mA) ∧
      (s1.mem (base + HW_GPIODR8R_OFFSET)).testBit (PORT_GET_PIN cfg.Port_Pin) =
        decide (cfg.Port_Current = PORT_CURRENT_8mA) ∧
      (cfg.Port_Current = PORT_CURRENT_DEFAULT →
        (s1.mem (base + HW_GPIODR2R_OFFSET)).testBit (PORT_GET_PIN cfg.Port_Pin) = false ∧
        (s1.mem (base + HW_GPIODR4R_OFFSET)).testBit (PORT_GET_PIN cfg.Port_Pin) = false ∧
        (s1.mem (base + HW_GPIODR8R_OFFSET)).testBit (PORT_GET_PIN cfg.Port_Pin) = false) ∧
      ((s1.mem (base + HW_GPIODR2R_OFFSET)).testBit (PORT_GET_PIN cfg.Port_Pin)).toNat +
        ((s1.mem (base + HW_GPIODR4R_OFFSET)).testBit (PORT_GET_PIN cfg.Port_Pin)).toNat +
        ((s1.mem (base + HW_GPIODR8R_OFFSET)).testBit (PORT_GET_PIN cfg.Port_Pin)).toNat ≤ 1 := by
  obtain ⟨base, hb, hbase, -, hbit, hrun⟩ := port_init_run s cfg hfit hchk
  obtain ⟨-, hcur, -⟩ := (port_config_check_iff cfg).1 hchk
  obtain ⟨h2, h4, h8⟩ := port_init_regs_drive s base cfg hbase hbit hcur
  refine ⟨base, _, hb, hrun, h2, h4, h8, ?_, ?_⟩
  · intro hdef
    rw [h2, h4, h8, hdef]
    decide
  · rw [h2, h4, h8]
    generalize cfg.Port_Current = cur at hcur
    interval_cases cur <;> decide

/-- C21 at the 4mA configuration of pin B3 (0x13) on the all-zero register
file. -/
theorem Port_Init_drive_strength_witness :
    ((⟨0x13, PORT_PIN_DIO, PORT_CURRENT_4mA, PORT_PIN_OUT, STD_LOW, PORT_PULL_UP_DISABLE,
        PORT_PULL_DOWN_DISABLE, PORT_OPEN_DRAIN_DISABLE⟩ : Port_ConfigType).fits ∧
      Port_ConfigTypeCheck (some ⟨0x13, PORT_PIN_DIO, PORT_CURRENT_4mA, PORT_PIN_OUT, STD_LOW,
        PORT_PULL_UP_DISABLE, PORT_PULL_DOWN_DISABLE, PORT_OPEN_DRAIN_DISABLE⟩) = some E_OK) ∧
    ∃ base s1, HW_PortsAddresses[PORT_GET_PORT 0x13]? = some base ∧
      Port_Init HW.zero (some ⟨0x13, PORT_PIN_DIO, PORT_CURRENT_4mA, PORT_PIN_OUT, STD_LOW,
        PORT_PULL_UP_DISABLE, PORT_PULL_DOWN_DISABLE, PORT_OPEN_DRAIN_DISABLE⟩) =
        Outcome.done () s1 ∧
      (s1.mem (base + HW_GPIODR2R_OFFSET)).testBit (PORT_GET_PIN 0x13) =
        decide (PORT_CURRENT_4mA = PORT_CURRENT_2mA) ∧
      (s1.mem (base + HW_GPIODR4R_OFFSET)).testBit (PORT_GET_PIN 0x13) =
        decide (PORT_CURRENT_4mA = PORT_CURRENT_4mA) ∧
      (s1.mem (base + HW_GPIODR8R_OFFSET)).testBit (PORT_GET_PIN 0x13) =
        decide (PORT_CURRENT_4mA = PORT_CURRENT_8mA) ∧
      (PORT_CURRENT_4mA = PORT_CURRENT_DEFAULT →
        (s1.mem (base + HW_GPIODR2R_OFFSET)).testBit (PORT_GET_PIN 0x13) = false ∧
        (s1.mem (base + HW_GPIODR4R_OFFSET)).testBit (PORT_GET_PIN 0x13) = false ∧
        (s1.mem (base + HW_GPIODR8R_OFFSET)).testBit (PORT_GET_PIN 0x13) = false) ∧
      ((s1.mem (base + HW_GPIODR2R_OFFSET)).testBit (PORT_GET_PIN 0x13)).toNat +
        ((s1.mem (base + HW_GPIODR4R_OFFSET)).testBit (PORT_GET_PIN 0x13)).toNat +
        ((s1.mem (base + HW_GPIODR8R_OFFSET)).testBit (PORT_GET_PIN 0x13)).toNat ≤ 1 :=
  ⟨⟨by decide, by decide⟩,
    Port_Init_drive_strength HW.zero
      ⟨0x13, PORT_PIN_DIO, PORT_CURRENT_4mA, PORT_PIN_OUT, STD_LOW, PORT_PULL_UP_DISABLE,
        PORT_PULL_DOWN_DISABLE, PORT_OPEN_DRAIN_DISABLE⟩ (by decide) (by decide)⟩

/-- C22: for every configuration `Port_Init` accepts, with target pin
(port, bit): afterwards bit `bit` of the pull-up register (base + 0x510) is
the pull-up field, bit `bit` of the pull-down register (base + 0x514) is the
pull-down field and bit `bit` of the open-drain register (base + 0x50C) is
the open-drain field, each whatever the other two are; and the configuration
with pull-up and pull-down both enabled is accepted as well and leaves both
bits set. -/
theorem Port_Init_pull_and_drain (s : HW) (cfg : Port_ConfigType) (hfit : cfg.fits)
    (hchk : Port_ConfigTypeCheck (some cfg) = some E_OK) :
    (∃ base s1, HW_PortsAddresses[PORT_GET_PORT cfg.Port_Pin]? = some base ∧
      Port_Init s (some cfg) = Outcome.done () s1 ∧
      ((s1.mem (base + HW_GPIOPUR_OFFSET)).testBit (PORT_GET_PIN cfg.Port_Pin)).toNat =
        cfg.Port_PinPullUpRes ∧
      ((s1.mem (base + HW_GPIOPDR_OFFSET)).testBit (PORT_GET_PIN cfg.Port_Pin)).toNat =
        cfg.Port_PinPullDownRes ∧
      ((s1.mem (base + HW_GPIOODR_OFFSET)).testBit (PORT_GET_PIN cfg.Port_Pin)).toNat =
        cfg.Port_PinOpenDrain) ∧
    Port_ConfigTypeCheck (some
      { cfg with Port_PinPullUpRes := PORT_PULL_UP_ENABLE
                 Port_PinPullDownRes := PORT_PULL_DOWN_ENABLE }) = some E_OK ∧
    ∃ base s2, HW_PortsAddresses[PORT_GET_PORT cfg.Port_Pin]? = some base ∧
      Port_Init s (some
        { cfg with Port_PinPullUpRes := PORT_PULL_UP_ENABLE
                   Port_PinPullDownRes := PORT_PULL_DOWN_ENABLE }) = Outcome.done () s2 ∧
      (s2.mem (base + HW_GPIOPUR_OFFSET)).testBit (PORT_GET_PIN cfg.Port_Pin) = true ∧
      (s2.mem (base + HW_GPIOPDR_OFFSET)).testBit (PORT_GET_PIN cfg.Port_Pin) = true := by
  have key : ∀ c : Port_ConfigType, c.fits → Port_ConfigTypeCheck (some c) = some E_OK →
      ∃ base s1, HW_PortsAddresses[PORT_GET_PORT c.Port_Pin]? = some base ∧
        Port_Init s (some c) = Outcome.done () s1 ∧
        ((s1.mem (base + HW_GPIOPUR_OFFSET)).testBit (PORT_GET_PIN c.Port_Pin)).toNat =
          c.Port_PinPullUpRes ∧
        ((s1.mem (base + HW_GPIOPDR_OFFSET)).testBit (PORT_GET_PIN c.Port_Pin)).toNat =
          c.Port_PinPullDownRes ∧
        ((s1.mem (base + HW_GPIOODR_OFFSET)).testBit (PORT_GET_PIN c.Port_Pin)).toNat =
          c.Port_PinOpenDrain := by
    intro c hcfit hcchk
    obtain ⟨base, hb, hbase, -, hbit, hrun⟩ := port_init_run s c hcfit hcchk
    obtain ⟨-, -, -, -, hpu, hpd, hod⟩ := (port_config_check_iff c).1 hcchk
    obtain ⟨hu, hd, ho⟩ := port_init_regs_pull s base c hbase hbit hpu hpd hod
    refine ⟨base, _, hb, hrun, ?_, ?_, ?_⟩
    · rw [hu]
      generalize c.Port_PinPullUpRes = x at hpu
      interval_cases x <;> decide
    · rw [hd]
      generalize c.Port_PinPullDownRes = x at hpd
      interval_cases x <;> decide
    · rw [ho]
      generalize c.Port_PinOpenDrain = x at hod
      interval_cases x <;> decide
  obtain ⟨hpin, hcur, hmode, hlev, -, -, hod⟩ := (port_config_check_iff cfg).1 hchk
  have hfit2 : Port_ConfigType.fits
      { cfg with Port_PinPullUpRes := PORT_PULL_UP_ENABLE
                 Port_PinPullDownRes := PORT_PULL_DOWN_ENABLE } :=
    ⟨hfit.1, hfit.2.1, hfit.2.2.1, hfit.2.2.2.1, (by decide : (1 : Nat) < 2),
      (by decide : (1 : Nat) < 2), hfit.2.2.2.2.2.2⟩
  have hchk2 : Port_ConfigTypeCheck (some
      { cfg with Port_PinPullUpRes := PORT_PULL_UP_ENABLE
                 Port_PinPullDownRes := PORT_PULL_DOWN_ENABLE }) = some E_OK :=
    (port_config_check_iff _).2 ⟨hpin, hcur, hmode, hlev, le_refl 1, le_refl 1, hod⟩
  refine ⟨key cfg hfit hchk, hchk2, ?_⟩
  obtain ⟨base, s2, hb, hrun, hu, hd, -⟩ := key _ hfit2 hchk2
  have hu1 : ((s2.mem (base + HW_GPIOPUR_OFFSET)).testBit (PORT_GET_PIN cfg.Port_Pin)).toNat =
      1 := hu
  have hd1 : ((s2.mem (base + HW_GPIOPDR_OFFSET)).testBit (PORT_GET_PIN cfg.Port_Pin)).toNat =
      1 := hd
  refine ⟨base, s2, hb, hrun, ?_, ?_⟩
  · cases h : (s2.mem (base + HW_GPIOPUR_OFFSET)).testBit (PORT_GET_PIN cfg.Port_Pin)
    · rw [h] at hu1
      exact absurd hu1 (by decide)
    · rfl
  · cases h : (s2.mem (base + HW_GPIOPDR_OFFSET)).testBit (PORT_GET_PIN cfg.Port_Pin)
    · rw [h] at hd1
      exact absurd hd1 (by decide)
    · rfl

/-- C22 at the configuration of pin F4 (0x54) with pull-up and pull-down
enabled and open drain disabled, on the all-zero register file. -/
theorem Port_Init_pull_and_drain_witness :
    ((⟨0x54, PORT_PIN_DIO, PORT_CURRENT_DEFAULT, PORT_PIN_IN, STD_LOW, PORT_PULL_UP_ENABLE,
        PORT_PULL_DOWN_ENABLE, PORT_OPEN_DRAIN_DISABLE⟩ : Port_ConfigType).fits ∧
      Port_ConfigTypeCheck (some ⟨0x54, PORT_PIN_DIO, PORT_CURRENT_DEFAULT, PORT_PIN_IN, STD_LOW,
        PORT_PULL_UP_ENABLE, PORT_PULL_DOWN_ENABLE, PORT_OPEN_DRAIN_DISABLE⟩) = some E_OK) ∧
    (∃ base s1, HW_PortsAddresses[PORT_GET_PORT 0x54]? = some base ∧
      Port_Init HW.zero (some ⟨0x54, PORT_PIN_DIO, PORT_CURRENT_DEFAULT, PORT_PIN_IN, STD_LOW,
        PORT_PULL_UP_ENABLE, PORT_PULL_DOWN_ENABLE, PORT_OPEN_DRAIN_DISABLE⟩) =
        Outcome.done () s1 ∧
      ((s1.mem (base + HW_GPIOPUR_OFFSET)).testBit (PORT_GET_PIN 0x54)).toNat =
        PORT_PULL_UP_ENABLE ∧
      ((s1.mem (base + HW_GPIOPDR_OFFSET)).testBit (PORT_GET_PIN 0x54)).toNat =
        PORT_PULL_DOWN_ENABLE ∧
      ((s1.mem (base + HW_GPIOODR_OFFSET)).testBit (PORT_GET_PIN 0x54)).toNat =
        PORT_OPEN_DRAIN_DISABLE) ∧
    Port_ConfigTypeCheck (some ⟨0x54, PORT_PIN_DIO, PORT_CURRENT_DEFAULT, PORT_PIN_IN, STD_LOW,
      PORT_PULL_UP_ENABLE, PORT_PULL_DOWN_ENABLE, PORT_OPEN_DRAIN_DISABLE⟩) = some E_OK ∧
    ∃ base s2, HW_PortsAddresses[PORT_GET_PORT 0x54]? = some base ∧
      Port_Init HW.zero (some ⟨0x54, PORT_PIN_DIO, PORT_CURRENT_DEFAULT, PORT_PIN_IN, STD_LOW,
        PORT_PULL_UP_ENABLE, PORT_PULL_DOWN_ENABLE, PORT_OPEN_DRAIN_DISABLE⟩) =
        Outcome.done () s2 ∧
      (s2.mem (base + HW_GPIOPUR_OFFSET)).testBit (PORT_GET_PIN 0x54) = true ∧
      (s2.mem (base + HW_GPIOPDR_OFFSET)).testBit (PORT_GET_PIN 0x54) = true :=
  ⟨⟨by decide, by decide⟩,
    Port_Init_pull_and_drain HW.zero
      ⟨0x54, PORT_PIN_DIO, PORT_CURRENT_DEFAULT, PORT_PIN_IN, STD_LOW, PORT_PULL_UP_ENABLE,
        PORT_PULL_DOWN_ENABLE, PORT_OPEN_DRAIN_DISABLE⟩ (by decide) (by decide)⟩

/-- C23: for every configuration `Port_Init` accepts, with target port p:
afterwards bit p is set in the clock gating register at 0x400FE000 + 0x608
and in the legacy one at 0x400FE000 + 0x108, every other bit of those two
32-bit registers is as it was, and a register that already had bit p set
holds the word it held before. -/
theorem Port_Init_clock_gate (s : HW) (cfg : Port_ConfigType) (hfit : cfg.fits)
    (hchk : Port_ConfigTypeCheck (some cfg) = some E_OK) :
    ∃ s1, Port_Init s (some cfg) = Outcome.done () s1 ∧ PORT_GET_PORT cfg.Port_Pin ≤ 5 ∧
      ∀ a, a = HW_SYSTEM_CONTROL_BA + HW_RCGCGPIO_OFFSET ∨
          a = HW_SYSTEM_CONTROL_BA + HW_RCGC2_OFFSET →
        (s1.mem a).testBit (PORT_GET_PORT cfg.Port_Pin) = true ∧
        (∀ i, i < 32 → i ≠ PORT_GET_PORT cfg.Port_Pin →
          (s1.mem a).testBit i = (s.mem a).testBit i) ∧
        ((s.mem a).testBit (PORT_GET_PORT cfg.Port_Pin) = true →
          s1.mem a = s.mem a % 2 ^ 32 ∧ (s.mem a < 2 ^ 32 → s1.mem a = s.mem a)) := by
  obtain ⟨base, -, hbase, -, -, hrun⟩ := port_init_run s cfg hfit hchk
  obtain ⟨hpin, -⟩ := (port_config_check_iff cfg).1 hchk
  obtain ⟨hp, -⟩ := port_pin_decode_bounds _ hpin
  obtain ⟨hc2, hcg⟩ := port_init_clock_mem s (PORT_GET_PORT cfg.Port_Pin)
  have hp32 : PORT_GET_PORT cfg.Port_Pin < 32 := by omega
  refine ⟨_, hrun, hp, ?_⟩
  have each : ∀ a k, a = HW_SYSTEM_CONTROL_BA + k →
      (Port_Init_clock s (PORT_GET_PORT cfg.Port_Pin)).mem a =
        (s.mem a % 2 ^ 32 ||| 1 <<< PORT_GET_PORT cfg.Port_Pin) % 2 ^ 32 →
      (Port_Init_regs s base cfg).mem a =
        (s.mem a % 2 ^ 32 ||| 1 <<< PORT_GET_PORT cfg.Port_Pin) % 2 ^ 32 := by
    intro a k hk hmem
    rw [← hmem, hk]
    exact port_init_regs_clock s base cfg hbase k
  intro a ha
  have hval : (Port_Init_regs s base cfg).mem a =
      (s.mem a % 2 ^ 32 ||| 1 <<< PORT_GET_PORT cfg.Port_Pin) % 2 ^ 32 := by
    rcases ha with ha | ha
    · exact each a _ ha (ha ▸ hcg)
    · exact each a _ ha (ha ▸ hc2)
  obtain ⟨w1, w2, w3⟩ := word_set_bit (s.mem a) (PORT_GET_PORT cfg.Port_Pin) hp32
  rw [hval]
  refine ⟨w1, w2, fun hset => ⟨w3 hset, fun hlt => ?_⟩⟩
  rw [w3 hset]
  exact Nat.mod_eq_of_lt hlt

/-- C23 at the default configuration of pin E2 (0x42) on the all-zero
register file. -/
theorem Port_Init_clock_gate_witness :
    ((⟨0x42, PORT_PIN_DIO, PORT_CURRENT_DEFAULT, PORT_PIN_IN, STD_LOW, PORT_PULL_UP_DISABLE,
        PORT_PULL_DOWN_DISABLE, PORT_OPEN_DRAIN_DISABLE⟩ : Port_ConfigType).fits ∧
      Port_ConfigTypeCheck (some ⟨0x42, PORT_PIN_DIO, PORT_CURRENT_DEFAULT, PORT_PIN_IN, STD_LOW,
        PORT_PULL_UP_DISABLE, PORT_PULL_DOWN_DISABLE, PORT_OPEN_DRAIN_DISABLE⟩) = some E_OK) ∧
    ∃ s1, Port_Init HW.zero (some ⟨0x42, PORT_PIN_DIO, PORT_CURRENT_DEFAULT, PORT_PIN_IN, STD_LOW,
        PORT_PULL_UP_DISABLE, PORT_PULL_DOWN_DISABLE, PORT_OPEN_DRAIN_DISABLE⟩) =
        Outcome.done () s1 ∧ PORT_GET_PORT 0x42 ≤ 5 ∧
      ∀ a, a = HW_SYSTEM_CONTROL_BA + HW_RCGCGPIO_OFFSET ∨
          a = HW_SYSTEM_CONTROL_BA + HW_RCGC2_OFFSET →
        (s1.mem a).testBit (PORT_GET_PORT 0x42) = true ∧
        (∀ i, i < 32 → i ≠ PORT_GET_PORT 0x42 →
          (s1.mem a).testBit i = (HW.zero.mem a).testBit i) ∧
        ((HW.zero.mem a).testBit (PORT_GET_PORT 0x42) = true →
          s1.mem a = HW.zero.mem a % 2 ^ 32 ∧
            (HW.zero.mem a < 2 ^ 32 → s1.mem a = HW.zero.mem a)) :=
  ⟨⟨by decide, by decide⟩,
    Port_Init_clock_gate HW.zero
      ⟨0x42, PORT_PIN_DIO, PORT_CURRENT_DEFAULT, PORT_PIN_IN, STD_LOW, PORT_PULL_UP_DISABLE,
        PORT_PULL_DOWN_DISABLE, PORT_OPEN_DRAIN_DISABLE⟩ (by decide) (by decide)⟩

/-! ## Parameter checks -/

/-- C24: on the null configuration pointer `Port_ConfigTypeCheck` does not
return `E_NOT_OK`: after the null test has set its result it goes on to read
`ConfigPtr->Port_Pin`, so it has no result, and `Port_Init` ends in the
dereference of the null pointer, not in an abort at its assertion. -/
theorem Port_ConfigTypeCheck_null_dereferenced (s : HW) :
    Port_ConfigTypeCheck none = none ∧ Port_ConfigTypeCheck none ≠ some E_NOT_OK ∧
      Port_Init s none = Outcome.fault s ∧ Port_Init s none ≠ Outcome.abort s := by
  refine ⟨rfl, ?_, rfl, ?_⟩
  · intro h
    cases h
  · intro h
    cases h

/-- C25: for every port identifier p, `DIO_PortIdCheck p` is `E_OK` exactly
when 0 <= p <= 5 and `E_NOT_OK` otherwise; when it is not `E_OK`,
`Dio_ReadPort`, `Dio_WritePort` and `Dio_MaskedWritePort` abort with the
register file and the access log as they were; port 6 is rejected. -/
theorem DIO_PortIdCheck_iff_in_range (s : HW) (p Level Mask : Nat) :
    (DIO_PortIdCheck p = E_OK ↔ 0 ≤ p ∧ p ≤ 5) ∧
      (DIO_PortIdCheck p ≠ E_OK →
        DIO_PortIdCheck p = E_NOT_OK ∧ Dio_ReadPort s p = Outcome.abort s ∧
          Dio_WritePort s p Level = Outcome.abort s ∧
          Dio_MaskedWritePort s p Level Mask = Outcome.abort s) ∧
      DIO_PortIdCheck 6 = E_NOT_OK := by
  refine ⟨?_, ?_, by decide⟩
  · unfold DIO_PortIdCheck
    split_ifs with h
    · exact ⟨fun _ => h, fun _ => rfl⟩
    · exact ⟨fun hc => absurd hc (by decide), fun hc => absurd hc h⟩
  · intro hne
    have hne2 : ¬ E_OK = DIO_PortIdCheck p := fun hc => hne hc.symm
    refine ⟨?_, ?_, ?_, ?_⟩
    · unfold DIO_PortIdCheck at hne ⊢
      split_ifs with h
      · rw [if_pos h] at hne
        exact absurd rfl hne
      · rfl
    · unfold Dio_ReadPort
      rw [if_neg hne2]
    · unfold Dio_WritePort
      rw [if_neg hne2]
    · unfold Dio_MaskedWritePort
      rw [if_neg hne2]

/-- C26: for every group offset o, `DIO_ChannelOffsetCheck o` is `E_OK`
exactly when 0 <= o <= 7 and `E_NOT_OK` otherwise; offset 9 is rejected. -/
theorem DIO_ChannelOffsetCheck_iff_in_range (o : Nat) :
    (DIO_ChannelOffsetCheck o = E_OK ↔ 0 ≤ o ∧ o ≤ 7) ∧
      (DIO_ChannelOffsetCheck o ≠ E_OK → DIO_ChannelOffsetCheck o = E_NOT_OK) ∧
      DIO_ChannelOffsetCheck 9 = E_NOT_OK := by
  refine ⟨?_, ?_, by decide⟩
  · unfold DIO_ChannelOffsetCheck
    split_ifs with h
    · exact ⟨fun _ => h, fun _ => rfl⟩
    · exact ⟨fun hc => absurd hc (by decide), fun hc => absurd hc h⟩
  · unfold DIO_ChannelOffsetCheck
    split_ifs with h
    · intro hne
      exact absurd rfl hne
    · intro _
      rfl

/-- C28: the identifier 0x100 is not a pin of the board, and
`DIO_ChannelIdCheck` rejects it, but `Port_PortPinCheck` looks at the low
byte only and accepts it; `Port_SetPinDirection` then treats it as pin A0 and
writes port A's direction register. -/
theorem Port_PortPinCheck_accepts_0x100 :
    Port_PortPinCheck 0x100 = E_OK ∧ DIO_ChannelIdCheck 0x100 = E_NOT_OK ∧
      PORT_GET_PORT 0x100 = 0 ∧ PORT_GET_PIN 0x100 = 0 ∧
      ∃ s1, Port_SetPinDirection HW.zero 0x100 PORT_PIN_OUT = Outcome.done () s1 ∧
        s1.log = [Access.read 0x40004400, Access.write 0x40004400 1] := by
  refine ⟨by decide, by decide, by decide, by decide, _, rfl, ?_⟩
  rfl

/-- C29: for every identifier in 0..255, `Port_PortPinCheck` returns `E_OK`
exactly when `DIO_ChannelIdCheck` does, and the two return the same value. -/
theorem Port_PortPinCheck_agrees_with_DIO_ChannelIdCheck (c : Nat) (hc : c < 256) :
    (Port_PortPinCheck c = E_OK ↔ DIO_ChannelIdCheck c = E_OK) ∧
      Port_PortPinCheck c = DIO_ChannelIdCheck c := by
  have hiff : Port_PortPinCheck c = E_OK ↔ DIO_ChannelIdCheck c = E_OK :=
    ⟨fun h => (pin_check_table c hc (Or.inr h)).1, fun h => (pin_check_table c hc (Or.inl h)).2.1⟩
  refine ⟨hiff, ?_⟩
  by_cases h : DIO_ChannelIdCheck c = E_OK
  · rw [h, hiff.2 h]
  · have hp : Port_PortPinCheck c ≠ E_OK := fun hp => h (hiff.1 hp)
    rw [(dio_check_table c hc).2 h]
    rcases port_pin_check_cases c with h1 | h1
    · exact absurd h1 hp
    · exact h1

/-- C29 at pin B3 (0x13), which both validators accept. -/
theorem Port_PortPinCheck_agrees_with_DIO_ChannelIdCheck_witness :
    (0x13 < 256) ∧
      ((Port_PortPinCheck 0x13 = E_OK ↔ DIO_ChannelIdCheck 0x13 = E_OK) ∧
        Port_PortPinCheck 0x13 = DIO_ChannelIdCheck 0x13) :=
  ⟨by decide, Port_PortPinCheck_agrees_with_DIO_ChannelIdCheck 0x13 (by decide)⟩

/-! ## Lookups in the base-address table -/

/-- An accepted channel decodes to a port that has an entry in the
base-address table. -/
theorem dio_channel_lookup (c : Nat) (h : DIO_ChannelIdCheck c = E_OK) :
    (c &&& 0xF0) >>> 4 ≤ 5 ∧ ∃ base, HW_PortsAddresses[(c &&& 0xF0) >>> 4]? = some base := by
  have hc : c < 256 := by
    have := dio_accepted_le h
    omega
  obtain ⟨hp, -⟩ := dio_decode_bounds c hc h
  obtain ⟨base, hbase, -⟩ := port_base_lookup _ hp
  exact ⟨hp, base, hbase⟩

/-- An accepted port has an entry in the base-address table. -/
theorem dio_port_lookup (p : Nat) (h : DIO_PortIdCheck p = E_OK) :
    p ≤ 5 ∧ ∃ base, HW_PortsAddresses[p]? = some base := by
  have hp : p ≤ 5 := by
    unfold DIO_PortIdCheck at h
    split_ifs at h with h1
    exact h1.2
  obtain ⟨base, hbase, -⟩ := port_base_lookup _ hp
  exact ⟨hp, base, hbase⟩

/-- An accepted pin decodes to a port that has an entry in the base-address
table. -/
theorem port_pin_lookup (pin : Nat) (h : Port_PortPinCheck pin = E_OK) :
    PORT_GET_PORT pin ≤ 5 ∧ ∃ base, HW_PortsAddresses[PORT_GET_PORT pin]? = some base := by
  obtain ⟨hp, -⟩ := port_pin_decode_bounds pin h
  obtain ⟨base, hbase, -⟩ := port_base_lookup _ hp
  exact ⟨hp, base, hbase⟩

/-- `Dio_ReadChannel` returns a level or aborts with the register file as it
was. -/
theorem dio_read_channel_cases (s : HW) (c : Nat) :
    (∃ v s1, Dio_ReadChannel s c = Outcome.done v s1) ∨ Dio_ReadChannel s c = Outcome.abort s := by
  unfold Dio_ReadChannel
  by_cases h : E_OK = DIO_ChannelIdCheck c
  · obtain ⟨-, base, hbase⟩ := dio_channel_lookup c h.symm
    rw [if_pos h]
    simp only [hbase]
    exact Or.inl ⟨_, _, rfl⟩
  · rw [if_neg h]
    exact Or.inr rfl

/-- `Dio_WriteChannel` completes or aborts with the register file as it was. -/
theorem dio_write_channel_cases (s : HW) (c Level : Nat) :
    (∃ s1, Dio_WriteChannel s c Level = Outcome.done () s1) ∨
      Dio_WriteChannel s c Level = Outcome.abort s := by
  unfold Dio_WriteChannel
  by_cases h : E_OK = DIO_ChannelIdCheck c
  · obtain ⟨-, base, hbase⟩ := dio_channel_lookup c h.symm
    rw [if_pos h]
    by_cases hl : Level = STD_HIGH ∨ Level = STD_LOW
    · rw [if_pos hl]
      simp only [hbase]
      exact Or.inl ⟨_, rfl⟩
    · rw [if_neg hl]
      exact Or.inr rfl
  · rw [if_neg h]
    exact Or.inr rfl

/-- `Port_SetPinDirection` completes or aborts with the register file as it
was. -/
theorem port_set_pin_direction_cases (s : HW) (pin dir : Nat) :
    (∃ s1, Port_SetPinDirection s pin dir = Outcome.done () s1) ∨
      Port_SetPinDirection s pin dir = Outcome.abort s := by
  unfold Port_SetPinDirection
  by_cases h : E_OK = Port_PortPinCheck pin
  · obtain ⟨-, base, hbase⟩ := port_pin_lookup pin h.symm
    rw [if_pos h]
    by_cases hd : PORT_PIN_IN = dir ∨ PORT_PIN_OUT = dir
    · rw [if_pos hd]
      simp only [hbase]
      exact Or.inl ⟨_, rfl⟩
    · rw [if_neg hd]
      exact Or.inr rfl
  · rw [if_neg h]
    exact Or.inr rfl

/-- `Port_SetPinMode` completes or aborts with the register file as it was. -/
theorem port_set_pin_mode_cases (s : HW) (pin mode : Nat) :
    (∃ s1, Port_SetPinMode s pin mode = Outcome.done () s1) ∨
      Port_SetPinMode s pin mode = Outcome.abort s := by
  unfold Port_SetPinMode
  by_cases h : E_OK = Port_PortPinCheck pin
  · obtain ⟨-, base, hbase⟩ := port_pin_lookup pin h.symm
    rw [if_pos h]
    by_cases hd : E_OK = Port_PortPinModeCheck mode
    · rw [if_pos hd]
      simp only [hbase]
      exact Or.inl ⟨_, rfl⟩
    · rw [if_neg hd]
      exact Or.inr rfl
  · rw [if_neg h]
    exact Or.inr rfl

/-- `Dio_FlipChannel` returns a level or aborts. -/
theorem dio_flip_channel_cases (s : HW) (c : Nat) :
    (∃ v s1, Dio_FlipChannel s c = Outcome.done v s1) ∨
      ∃ s1, Dio_FlipChannel s c = Outcome.abort s1 := by
  unfold Dio_FlipChannel
  by_cases h : E_OK = DIO_ChannelIdCheck c
  · rw [if_pos h]
    rcases dio_read_channel_cases s c with ⟨v, s1, hr⟩ | hr
    · rw [hr]
      simp only [Outcome.bind]
      rcases dio_write_channel_cases s1 c ((if v = 0 then 1 else 0) % 256) with ⟨s2, hw⟩ | hw
      · rw [hw]
        exact Or.inl ⟨_, _, rfl⟩
      · rw [hw]
        exact Or.inr ⟨_, rfl⟩
    · rw [hr]
      exact Or.inr ⟨_, rfl⟩
  · rw [if_neg h]
    exact Or.inr ⟨_, rfl⟩

/-- `Dio_ReadPort`, `Dio_WritePort` and `Dio_MaskedWritePort` complete or
abort with the register file as it was. -/
theorem dio_port_cases (s : HW) (p Level Mask : Nat) :
    ((∃ v s1, Dio_ReadPort s p = Outcome.done v s1) ∨ Dio_ReadPort s p = Outcome.abort s) ∧
      ((∃ s1, Dio_WritePort s p Level = Outcome.done () s1) ∨
        Dio_WritePort s p Level = Outcome.abort s) ∧
      ((∃ s1, Dio_MaskedWritePort s p Level Mask = Outcome.done () s1) ∨
        Dio_MaskedWritePort s p Level Mask = Outcome.abort s) := by
  unfold Dio_ReadPort Dio_WritePort Dio_MaskedWritePort
  by_cases h : E_OK = DIO_PortIdCheck p
  · obtain ⟨-, base, hbase⟩ := dio_port_lookup p h.symm
    rw [if_pos h, if_pos h, if_pos h]
    simp only [hbase]
    exact ⟨Or.inl ⟨_, _, rfl⟩, Or.inl ⟨_, rfl⟩, Or.inl ⟨_, rfl⟩⟩
  · rw [if_neg h, if_neg h, if_neg h]
    exact ⟨Or.inr rfl, Or.inr rfl, Or.inr rfl⟩

/-- `Dio_ReadChannelGroup` and `Dio_WriteChannelGroup` complete or abort with
the register file as it was. -/
theorem dio_group_cases (s : HW) (g : Option Dio_ChannelGroupType) (Level : Nat) :
    ((∃ v s1, Dio_ReadChannelGroup s g = Outcome.done v s1) ∨
        Dio_ReadChannelGroup s g = Outcome.abort s) ∧
      ((∃ s1, Dio_WriteChannelGroup s g Level = Outcome.done () s1) ∨
        Dio_WriteChannelGroup s g Level = Outcome.abort s) := by
  unfold Dio_ReadChannelGroup Dio_WriteChannelGroup
  cases g with
  | none => exact ⟨Or.inr rfl, Or.inr rfl⟩
  | some g =>
    simp only
    by_cases ho : E_OK = DIO_ChannelOffsetCheck g.offset
    · rw [if_pos ho, if_pos ho]
      by_cases h : E_OK = DIO_PortIdCheck g.port
      · obtain ⟨-, base, hbase⟩ := dio_port_lookup g.port h.symm
        rw [if_pos h, if_pos h]
        simp only [hbase]
        exact ⟨Or.inl ⟨_, _, rfl⟩, Or.inl ⟨_, rfl⟩⟩
      · rw [if_neg h, if_neg h]
        exact ⟨Or.inr rfl, Or.inr rfl⟩
    · rw [if_neg ho, if_neg ho]
      exact ⟨Or.inr rfl, Or.inr rfl⟩

/-- On a non-null configuration `Port_Init` completes or aborts. -/
theorem port_init_cases (s : HW) (cfg : Port_ConfigType) :
    (∃ s1, Port_Init s (some cfg) = Outcome.done () s1) ∨
      ∃ s1, Port_Init s (some cfg) = Outcome.abort s1 := by
  rcases port_config_check_cases cfg with hchk | hchk
  · obtain ⟨hpin, -⟩ := (port_config_check_iff cfg).1 hchk
    obtain ⟨-, base, hbase⟩ := port_pin_lookup cfg.Port_Pin hpin
    unfold Port_Init
    rw [hchk]
    simp only [if_true]
    rcases port_set_pin_direction_cases (Port_Init_clock s (PORT_GET_PORT cfg.Port_Pin))
      cfg.Port_Pin cfg.Port_PinDirection with ⟨s1, hd⟩ | hd
    · rw [hd]
      simp only [Outcome.bind, hbase]
      rcases port_set_pin_mode_cases (Port_Init_openDrain (Port_Init_pullDown (Port_Init_pullUp
        (Port_Init_driveStrength s1 base (PORT_GET_PIN cfg.Port_Pin) cfg.Port_Current)
        base (PORT_GET_PIN cfg.Port_Pin) cfg.Port_PinPullUpRes)
        base (PORT_GET_PIN cfg.Port_Pin) cfg.Port_PinPullDownRes)
        base (PORT_GET_PIN cfg.Port_Pin) cfg.Port_PinOpenDrain) cfg.Port_Pin cfg.Port_PinMode
        with ⟨s2, hm⟩ | hm
      · exact Or.inl ⟨s2, hm⟩
      · exact Or.inr ⟨_, hm⟩
    · rw [hd]
      exact Or.inr ⟨_, rfl⟩
  · exact Or.inr ⟨s, port_init_abort s cfg (by rw [hchk]; decide)⟩

/-- A call that completes or aborts has not made an out-of-range lookup. -/
theorem outcome_not_fault {α : Type} (o : Outcome α)
    (h : (∃ v s1, o = Outcome.done v s1) ∨ ∃ s1, o = Outcome.abort s1) (t : HW) :
    o ≠ Outcome.fault t := by
  rcases h with ⟨v, s1, h⟩ | ⟨s1, h⟩ <;>
  · rw [h]
    intro hc
    cases hc

/-- C27: the base-address table has exactly `HW_NO_OF_PORTS` = 6 entries;
the port decoded from a channel that `DIO_ChannelIdCheck` accepts or from a
pin that `Port_PortPinCheck` accepts, and a port that `DIO_PortIdCheck`
accepts, is at most 5 and has an entry in the table; and no public operation
of the two drivers ends in an out-of-range lookup, whatever its arguments
(for `Port_Init`: whatever the configuration pointed to). -/
theorem HW_PortsAddresses_lookup_in_range :
    HW_PortsAddresses.length = 6 ∧ HW_NO_OF_PORTS = 6 ∧
      (∀ c, DIO_ChannelIdCheck c = E_OK →
        (c &&& 0xF0) >>> 4 ≤ 5 ∧ ∃ base, HW_PortsAddresses[(c &&& 0xF0) >>> 4]? = some base) ∧
      (∀ pin, Port_PortPinCheck pin = E_OK →
        PORT_GET_PORT pin ≤ 5 ∧ ∃ base, HW_PortsAddresses[PORT_GET_PORT pin]? = some base) ∧
      (∀ p, DIO_PortIdCheck p = E_OK → p ≤ 5 ∧ ∃ base, HW_PortsAddresses[p]? = some base) ∧
      (∀ i, 6 ≤ i → HW_PortsAddresses[i]? = none) ∧
      ∀ s t : HW,
        (∀ c, Dio_ReadChannel s c ≠ Outcome.fault t) ∧
        (∀ c Level, Dio_WriteChannel s c Level ≠ Outcome.fault t) ∧
        (∀ c, Dio_FlipChannel s c ≠ Outcome.fault t) ∧
        (∀ p, Dio_ReadPort s p ≠ Outcome.fault t) ∧
        (∀ p Level, Dio_WritePort s p Level ≠ Outcome.fault t) ∧
        (∀ p Level Mask, Dio_MaskedWritePort s p Level Mask ≠ Outcome.fault t) ∧
        (∀ g, Dio_ReadChannelGroup s g ≠ Outcome.fault t) ∧
        (∀ g Level, Dio_WriteChannelGroup s g Level ≠ Outcome.fault t) ∧
        (∀ pin dir, Port_SetPinDirection s pin dir ≠ Outcome.fault t) ∧
        (∀ pin mode, Port_SetPinMode s pin mode ≠ Outcome.fault t) ∧
        (∀ cfg, Port_Init s (some cfg) ≠ Outcome.fault t) := by
  refine ⟨rfl, rfl, dio_channel_lookup, port_pin_lookup, dio_port_lookup, ?_, ?_⟩
  · intro i hi
    exact List.getElem?_eq_none (by simpa using hi)
  intro s t
  refine ⟨?_, ?_, ?_, ?_, ?_, ?_, ?_, ?_, ?_, ?_, ?_⟩
  · intro c
    apply outcome_not_fault
    rcases dio_read_channel_cases s c with h | h
    · exact Or.inl h
    · exact Or.inr ⟨_, h⟩
  · intro c Level
    apply outcome_not_fault
    rcases dio_write_channel_cases s c Level with ⟨s1, h⟩ | h
    · exact Or.inl ⟨_, _, h⟩
    · exact Or.inr ⟨_, h⟩
  · intro c
    exact outcome_not_fault _ (dio_flip_channel_cases s c) t
  · intro p
    apply outcome_not_fault
    rcases (dio_port_cases s p 0 0).1 with h | h
    · exact Or.inl h
    · exact Or.inr ⟨_, h⟩
  · intro p Level
    apply outcome_not_fault
    rcases (dio_port_cases s p Level 0).2.1 with ⟨s1, h⟩ | h
    · exact Or.inl ⟨_, _, h⟩
    · exact Or.inr ⟨_, h⟩
  · intro p Level Mask
    apply outcome_not_fault
    rcases (dio_port_cases s p Level Mask).2.2 with ⟨s1, h⟩ | h
    · exact Or.inl ⟨_, _, h⟩
    · exact Or.inr ⟨_, h⟩
  · intro g
    apply outcome_not_fault
    rcases (dio_group_cases s g 0).1 with h | h
    · exact Or.inl h
    · exact Or.inr ⟨_, h⟩
  · intro g Level
    apply outcome_not_fault
    rcases (dio_group_cases s g Level).2 with ⟨s1, h⟩ | h
    · exact Or.inl ⟨_, _, h⟩
    · exact Or.inr ⟨_, h⟩
  · intro pin dir
    apply outcome_not_fault
    rcases port_set_pin_direction_cases s pin dir with ⟨s1, h⟩ | h
    · exact Or.inl ⟨_, _, h⟩
    · exact Or.inr ⟨_, h⟩
  · intro pin mode
    apply outcome_not_fault
    rcases port_set_pin_mode_cases s pin mode with ⟨s1, h⟩ | h
    · exact Or.inl ⟨_, _, h⟩
    · exact Or.inr ⟨_, h⟩
  · intro cfg
    apply outcome_not_fault
    rcases port_init_cases s cfg with ⟨s1, h⟩ | h
    · exact Or.inl ⟨_, _, h⟩
    · exact Or.inr h

/-! ## The initial level -/

/-- A register at offset 0x400 or above in the block of the port at `base`
is outside the data region of the port at `bq`, which is the same block or
one at least 4 KiB away. -/
theorem port_reg_not_data (base bq off : Nat) (hlo : 0x400 ≤ off) (hhi : off ≤ 0xFFF)
    (hq : bq = base ∨ base + 0x1000 ≤ bq ∨ bq + 0x1000 ≤ base) :
    ¬ (bq ≤ base + off ∧ base + off ≤ bq + 0x3FC) := by
  omega

/-- The clock gating registers are outside every port's data region. -/
theorem clock_reg_not_data (bq k : Nat) (hbq : bq ≤ 0x40025000) :
    ¬ (bq ≤ HW_SYSTEM_CONTROL_BA + k ∧ HW_SYSTEM_CONTROL_BA + k ≤ bq + 0x3FC) := by
  unfold HW_SYSTEM_CONTROL_BA
  omega

/-- `Port_Init` reads the initial level in `Port_ConfigTypeCheck` only: two
configurations that both pass the check and differ in the level alone give
the same run. -/
theorem port_init_level_irrelevant (s : HW) (cfg : Port_ConfigType) (lvl : Nat)
    (hchk : Port_ConfigTypeCheck (some cfg) = some E_OK)
    (hchk2 : Port_ConfigTypeCheck (some { cfg with Port_PinLevelInit := lvl }) = some E_OK) :
    Port_Init s (some { cfg with Port_PinLevelInit := lvl }) = Port_Init s (some cfg) := by
  unfold Port_Init
  rw [hchk, hchk2]

/-- C30: `Port_Init` does not apply the configured initial level.  For an
accepted configuration and the configuration that differs from it in
`Port_PinLevelInit` alone, also accepted, and any starting register state,
`Port_Init` ends with the same register file and the same access log, so the
same sequence of register writes; and none of the addresses it writes lies in
the data region (offsets 0x000..0x3FC) of the pin's port or of any other
port. -/
theorem Port_Init_ignores_initial_level (s : HW) (cfg : Port_ConfigType) (lvl : Nat)
    (hfit : cfg.fits) (hchk : Port_ConfigTypeCheck (some cfg) = some E_OK)
    (hchk2 : Port_ConfigTypeCheck (some { cfg with Port_PinLevelInit := lvl }) = some E_OK) :
    ∃ base s1 L, HW_PortsAddresses[PORT_GET_PORT cfg.Port_Pin]? = some base ∧
      Port_Init s (some cfg) = Outcome.done () s1 ∧
      Port_Init s (some { cfg with Port_PinLevelInit := lvl }) = Outcome.done () s1 ∧
      s1.log = s.log ++ L ∧ (writeAddrs L).length = 19 ∧
      (∀ a, a ∈ writeAddrs L → ¬ (base ≤ a ∧ a ≤ base + 0x3FC)) ∧
      ∀ q bq : Nat, HW_PortsAddresses[q]? = some bq →
        ∀ a, a ∈ writeAddrs L → ¬ (bq ≤ a ∧ a ≤ bq + 0x3FC) := by
  obtain ⟨base, hb, hbase, -, hbit, hrun⟩ := port_init_run s cfg hfit hchk
  obtain ⟨-, hcur, -, -, hpu, hpd, hod⟩ := (port_config_check_iff cfg).1 hchk
  obtain ⟨-, -, hdir, -⟩ := hfit
  obtain ⟨k1, k2, d, w2, w4, w8, c1, u, c2, v, o, c3, e, c4, a, hlog, -⟩ :=
    port_init_regs_log s base cfg hbase hbit (by omega) hcur hpu hpd hod
  obtain ⟨L, hL⟩ : ∃ L, (Port_Init_regs s base cfg).log = s.log ++ L := ⟨_, hlog⟩
  have hLL := List.append_cancel_left (hL.symm.trans hlog)
  have hall : ∀ x, x ∈ writeAddrs L →
      (∃ k, x = HW_SYSTEM_CONTROL_BA + k) ∨
        ∃ off, 0x400 ≤ off ∧ off ≤ 0xFFF ∧ x = base + off := by
    intro x hx
    rw [hLL] at hx
    simp only [writeAddrs, List.mem_cons, List.mem_singleton, List.not_mem_nil, or_false] at hx
    rcases hx with h | h | h | h | h | h | h | h | h | h | h | h | h | h | h | h | h | h | h
    · exact Or.inl ⟨_, h⟩
    · exact Or.inl ⟨_, h⟩
    all_goals exact Or.inr ⟨_, by decide, by decide, h⟩
  have hdata : ∀ bq, (bq = base ∨ base + 0x1000 ≤ bq ∨ bq + 0x1000 ≤ base) → bq ≤ 0x40025000 →
      ∀ x, x ∈ writeAddrs L → ¬ (bq ≤ x ∧ x ≤ bq + 0x3FC) := by
    intro bq hq hbq x hx
    rcases hall x hx with ⟨k, rfl⟩ | ⟨off, hlo, hhi, rfl⟩
    · exact clock_reg_not_data bq k hbq
    · exact port_reg_not_data base bq off hlo hhi hq
  have hlen : (writeAddrs L).length = 19 := by
    rw [hLL]
    rfl
  refine ⟨base, _, L, hb, hrun, ?_, hL, hlen, hdata base (Or.inl rfl) hbase, ?_⟩
  · rw [port_init_level_irrelevant s cfg lvl hchk hchk2]
    exact hrun
  · intro q bq hq
    have hq5 := port_lookup_lt q bq hq
    obtain ⟨bq2, hbq2, -, hle⟩ := port_base_lookup q hq5
    have e : bq2 = bq := Option.some.inj (hbq2.symm.trans hq)
    subst e
    refine hdata bq2 ?_ hle
    by_cases hqp : q = PORT_GET_PORT cfg.Port_Pin
    · subst hqp
      exact Or.inl (Option.some.inj (hq.symm.trans hb))
    · rcases port_blocks_apart _ q base bq2 hqp hb hq with h | h
      · exact Or.inr (Or.inl h)
      · exact Or.inr (Or.inr h)

/-- C30 at the default configuration of pin B3 (0x13) with initial level low
against the same configuration with initial level high, on the all-zero
register file. -/
theorem Port_Init_ignores_initial_level_witness :
    ((⟨0x13, PORT_PIN_DIO, PORT_CURRENT_DEFAULT, PORT_PIN_OUT, STD_LOW, PORT_PULL_UP_DISABLE,
        PORT_PULL_DOWN_DISABLE, PORT_OPEN_DRAIN_DISABLE⟩ : Port_ConfigType).fits ∧
      Port_ConfigTypeCheck (some ⟨0x13, PORT_PIN_DIO, PORT_CURRENT_DEFAULT, PORT_PIN_OUT, STD_LOW,
        PORT_PULL_UP_DISABLE, PORT_PULL_DOWN_DISABLE, PORT_OPEN_DRAIN_DISABLE⟩) = some E_OK ∧
      Port_ConfigTypeCheck (some ⟨0x13, PORT_PIN_DIO, PORT_CURRENT_DEFAULT, PORT_PIN_OUT,
        STD_HIGH, PORT_PULL_UP_DISABLE, PORT_PULL_DOWN_DISABLE, PORT_OPEN_DRAIN_DISABLE⟩) =
        some E_OK) ∧
    ∃ base s1 L, HW_PortsAddresses[PORT_GET_PORT 0x13]? = some base ∧
      Port_Init HW.zero (some ⟨0x13, PORT_PIN_DIO, PORT_CURRENT_DEFAULT, PORT_PIN_OUT, STD_LOW,
        PORT_PULL_UP_DISABLE, PORT_PULL_DOWN_DISABLE, PORT_OPEN_DRAIN_DISABLE⟩) =
        Outcome.done () s1 ∧
      Port_Init HW.zero (some ⟨0x13, PORT_PIN_DIO, PORT_CURRENT_DEFAULT, PORT_PIN_OUT, STD_HIGH,
        PORT_PULL_UP_DISABLE, PORT_PULL_DOWN_DISABLE, PORT_OPEN_DRAIN_DISABLE⟩) =
        Outcome.done () s1 ∧
      s1.log = HW.zero.log ++ L ∧ (writeAddrs L).length = 19 ∧
      (∀ a, a ∈ writeAddrs L → ¬ (base ≤ a ∧ a ≤ base + 0x3FC)) ∧
      ∀ q bq : Nat, HW_PortsAddresses[q]? = some bq →
        ∀ a, a ∈ writeAddrs L → ¬ (bq ≤ a ∧ a ≤ bq + 0x3FC) :=
  ⟨⟨by decide, by decide, by decide⟩,
    Port_Init_ignores_initial_level HW.zero
      ⟨0x13, PORT_PIN_DIO, PORT_CURRENT_DEFAULT, PORT_PIN_OUT, STD_LOW, PORT_PULL_UP_DISABLE,
        PORT_PULL_DOWN_DISABLE, PORT_OPEN_DRAIN_DISABLE⟩ STD_HIGH (by decide) (by decide)
      (by decide)⟩

/-! ## Flipping twice, full mask, distinct channels -/

/-- What `Dio_FlipChannel` does on an accepted channel: it reads a level l
that is `STD_LOW` or `STD_HIGH`, writes the inverse of l with
`Dio_WriteChannel`, whose assertions pass, and returns the inverse, which a
read made right after returns too. -/
theorem dio_flip_channel_run (s : HW) (c : Nat) (h : DIO_ChannelIdCheck c = E_OK) :
    ∃ l s0 s1 s2, Dio_ReadChannel s c = Outcome.done l s0 ∧
      (l = STD_LOW ∨ l = STD_HIGH) ∧
      (if l = 0 then 1 else 0) % 256 = (if l = STD_LOW then STD_HIGH else STD_LOW) ∧
      Dio_WriteChannel s0 c (if l = STD_LOW then STD_HIGH else STD_LOW) = Outcome.done () s1 ∧
      Dio_FlipChannel s c = Outcome.done (if l = STD_LOW then STD_HIGH else STD_LOW) s1 ∧
      Dio_ReadChannel s1 c = Outcome.done (if l = STD_LOW then STD_HIGH else STD_LOW) s2 := by
  obtain ⟨base, hb, -, hr⟩ := dio_read_channel_run s c h
  generalize hl : (if s.mem (base + ((1 <<< (c &&& 0x0F)) <<< 2)) % 2 ^ 32 ≠ 0
    then STD_HIGH else STD_LOW) = l at hr
  have hl2 : l = STD_LOW ∨ l = STD_HIGH := by
    rw [← hl]
    split_ifs
    · exact Or.inr rfl
    · exact Or.inl rfl
  have hnew : (if l = 0 then 1 else 0) % 256 = (if l = STD_LOW then STD_HIGH else STD_LOW) := by
    rcases hl2 with rfl | rfl <;> decide
  have hnew2 : (if l = STD_LOW then STD_HIGH else STD_LOW) = STD_HIGH ∨
      (if l = STD_LOW then STD_HIGH else STD_LOW) = STD_LOW := by
    rcases hl2 with rfl | rfl
    · exact Or.inl rfl
    · exact Or.inr rfl
  obtain ⟨t1, t2, hw, hr2⟩ := dio_write_channel_then_read _ c _ h hnew2
  refine ⟨l, _, t1, t2, hr, hl2, hnew, hw, ?_, hr2⟩
  unfold Dio_FlipChannel
  rw [if_pos h.symm, hr]
  simp only [Outcome.bind]
  rw [hnew, hw]

/-- C34: for every valid channel c and every register state, with l the
level `Dio_ReadChannel c` returns in that state: the first of two consecutive
`Dio_FlipChannel c` calls returns the inverse of l, the second returns the
inverse of what the first returned, which is l, and `Dio_ReadChannel c` after
the two calls returns l again. -/
theorem Dio_FlipChannel_twice (s : HW) (c : Nat) (h : DIO_ChannelIdCheck c = E_OK) :
    ∃ l s0 r1 s1 r2 s2 s3, Dio_ReadChannel s c = Outcome.done l s0 ∧
      Dio_FlipChannel s c = Outcome.done r1 s1 ∧
      Dio_FlipChannel s1 c = Outcome.done r2 s2 ∧
      r1 = (if l = STD_LOW then STD_HIGH else STD_LOW) ∧
      r2 = (if r1 = STD_LOW then STD_HIGH else STD_LOW) ∧ r2 = l ∧
      Dio_ReadChannel s2 c = Outcome.done l s3 := by
  obtain ⟨l, s0, s1, t1, hr, hl, -, -, hf, hr1⟩ := dio_flip_channel_run s c h
  obtain ⟨l1, u0, s2, s3, hr1b, -, -, -, hf2, hr2⟩ := dio_flip_channel_run s1 c h
  have e : l1 = (if l = STD_LOW then STD_HIGH else STD_LOW) := by
    have := hr1b.symm.trans hr1
    injection this
  subst e
  have hback : (if (if l = STD_LOW then STD_HIGH else STD_LOW) = STD_LOW then STD_HIGH
      else STD_LOW) = l := by
    rcases hl with rfl | rfl <;> decide
  rw [hback] at hf2 hr2
  exact ⟨l, s0, _, s1, l, s2, s3, hr, hf, hf2, rfl, hback.symm, rfl, hr2⟩

/-- C34 at channel A3 (0x03) on the all-zero register file. -/
theorem Dio_FlipChannel_twice_witness :
    DIO_ChannelIdCheck 0x03 = E_OK ∧
      ∃ l s0 r1 s1 r2 s2 s3, Dio_ReadChannel HW.zero 0x03 = Outcome.done l s0 ∧
        Dio_FlipChannel HW.zero 0x03 = Outcome.done r1 s1 ∧
        Dio_FlipChannel s1 0x03 = Outcome.done r2 s2 ∧
        r1 = (if l = STD_LOW then STD_HIGH else STD_LOW) ∧
        r2 = (if r1 = STD_LOW then STD_HIGH else STD_LOW) ∧ r2 = l ∧
        Dio_ReadChannel s2 0x03 = Outcome.done l s3 :=
  ⟨by decide, Dio_FlipChannel_twice HW.zero 0x03 (by decide)⟩

/-- C35: for every channel that passes the `DIO_ChannelIdCheck` assertion of
`Dio_FlipChannel`, in every register state: the nested `Dio_ReadChannel`
returns a level l that is `STD_LOW` or `STD_HIGH`, the level handed to
`Dio_WriteChannel`, `(Dio_LevelType)!l`, is `STD_HIGH` or `STD_LOW`, the
nested `Dio_WriteChannel` completes, and so does `Dio_FlipChannel`. -/
theorem Dio_FlipChannel_nested_assertions_pass (s : HW) (c : Nat)
    (h : E_OK = DIO_ChannelIdCheck c) :
    ∃ l s0 s1, Dio_ReadChannel s c = Outcome.done l s0 ∧ (l = STD_LOW ∨ l = STD_HIGH) ∧
      ((if l = 0 then 1 else 0) % 256 = STD_HIGH ∨ (if l = 0 then 1 else 0) % 256 = STD_LOW) ∧
      Dio_WriteChannel s0 c ((if l = 0 then 1 else 0) % 256) = Outcome.done () s1 ∧
      Dio_FlipChannel s c = Outcome.done ((if l = 0 then 1 else 0) % 256) s1 := by
  obtain ⟨l, s0, s1, -, hr, hl, hnew, hw, hf, -⟩ := dio_flip_channel_run s c h.symm
  rw [← hnew] at hw hf
  refine ⟨l, s0, s1, hr, hl, ?_, hw, hf⟩
  rcases hl with rfl | rfl
  · exact Or.inl (by decide)
  · exact Or.inr (by decide)

/-- C35 at channel F4 (0x54) on the all-zero register file. -/
theorem Dio_FlipChannel_nested_assertions_pass_witness :
    E_OK = DIO_ChannelIdCheck 0x54 ∧
      ∃ l s0 s1, Dio_ReadChannel HW.zero 0x54 = Outcome.done l s0 ∧
        (l = STD_LOW ∨ l = STD_HIGH) ∧
        ((if l = 0 then 1 else 0) % 256 = STD_HIGH ∨
          (if l = 0 then 1 else 0) % 256 = STD_LOW) ∧
        Dio_WriteChannel s0 0x54 ((if l = 0 then 1 else 0) % 256) = Outcome.done () s1 ∧
        Dio_FlipChannel HW.zero 0x54 = Outcome.done ((if l = 0 then 1 else 0) % 256) s1 :=
  ⟨by decide, Dio_FlipChannel_nested_assertions_pass HW.zero 0x54 (by decide)⟩

/-- C36: for every port p in 0..5 and every byte v,
`Dio_MaskedWritePort p v 0xFF` and `Dio_WritePort p v` end the same way: one
register access, a write of v to `HW_PortsAddresses[p] + 0x3FC`. -/
theorem Dio_MaskedWritePort_full_mask (s : HW) (p v : Nat) (hp : p ≤ 5) (hv : v < 256) :
    Dio_MaskedWritePort s p v 0xFF = Dio_WritePort s p v ∧
      ∃ base, HW_PortsAddresses[p]? = some base ∧
        Dio_WritePort s p v =
          Outcome.done ()
            { mem := fun a => if a = base + 0x3FC then v else s.mem a
              log := s.log ++ [Access.write (base + 0x3FC) v] } :=
  ⟨rfl, dio_write_port_run s p v hp hv⟩

/-- C36 at port F (5) and the byte 0xA5, on the all-zero register file. -/
theorem Dio_MaskedWritePort_full_mask_witness :
    (5 ≤ 5 ∧ 0xA5 < 256) ∧
      (Dio_MaskedWritePort HW.zero 5 0xA5 0xFF = Dio_WritePort HW.zero 5 0xA5 ∧
        ∃ base, HW_PortsAddresses[5]? = some base ∧
          Dio_WritePort HW.zero 5 0xA5 =
            Outcome.done ()
              { mem := fun a => if a = base + 0x3FC then 0xA5 else HW.zero.mem a
                log := HW.zero.log ++ [Access.write (base + 0x3FC) 0xA5] }) :=
  ⟨⟨by decide, by decide⟩, Dio_MaskedWritePort_full_mask HW.zero 5 0xA5 (by decide) (by decide)⟩

/-! ## Distinct channels, distinct addresses -/

/-- Two bits below 8 with the same alias offset are the same bit. -/
theorem dio_pin_offset_inj : ∀ b1, b1 < 8 → ∀ b2, b2 < 8 →
    (1 <<< b1) <<< 2 = (1 <<< b2) <<< 2 → b1 = b2 := by
  decide

/-- The alias addresses of two different accepted channels differ. -/
theorem dio_channel_address_ne (c1 c2 base1 base2 : Nat) (h1 : DIO_ChannelIdCheck c1 = E_OK)
    (h2 : DIO_ChannelIdCheck c2 = E_OK) (hne : c1 ≠ c2)
    (hb1 : HW_PortsAddresses[(c1 &&& 0xF0) >>> 4]? = some base1)
    (hb2 : HW_PortsAddresses[(c2 &&& 0xF0) >>> 4]? = some base2) :
    base1 + ((1 <<< (c1 &&& 0x0F)) <<< 2) ≠ base2 + ((1 <<< (c2 &&& 0x0F)) <<< 2) := by
  have hc1 : c1 < 256 := by
    have := dio_accepted_le h1
    omega
  have hc2 : c2 < 256 := by
    have := dio_accepted_le h2
    omega
  obtain ⟨-, -, -, e1⟩ := pin_check_table c1 hc1 (Or.inl h1)
  obtain ⟨-, -, -, e2⟩ := pin_check_table c2 hc2 (Or.inl h2)
  obtain ⟨-, hbit1⟩ := dio_decode_bounds c1 hc1 h1
  obtain ⟨-, hbit2⟩ := dio_decode_bounds c2 hc2 h2
  obtain ⟨-, ho1⟩ := dio_pin_offset _ hbit1
  obtain ⟨-, ho2⟩ := dio_pin_offset _ hbit2
  by_cases hp : (c2 &&& 0xF0) >>> 4 = (c1 &&& 0xF0) >>> 4
  · rw [hp] at hb2
    have hbb : base2 = base1 := Option.some.inj (hb2.symm.trans hb1)
    subst hbb
    intro heq
    have hoff := Nat.add_left_cancel heq
    have hbits := dio_pin_offset_inj _ (by omega) _ (by omega) hoff
    apply hne
    rw [← e1, ← e2, hp, hbits]
  · have hapart := port_blocks_apart _ _ base1 base2 hp hb1 hb2
    generalize (1 <<< (c1 &&& 0x0F)) <<< 2 = o1 at ho1 ⊢
    generalize (1 <<< (c2 &&& 0x0F)) <<< 2 = o2 at ho2 ⊢
    omega

/-- C33: for any two distinct valid channels c1 and c2 the alias addresses
base(port1) + ((1 << bit1) << 2) and base(port2) + ((1 << bit2) << 2)
differ, and `Dio_WriteChannel c1 L` with L `STD_HIGH` or `STD_LOW` leaves
`Dio_ReadChannel c2` returning the level it returned before. -/
theorem Dio_channel_addresses_distinct (s : HW) (c1 c2 L : Nat)
    (h1 : DIO_ChannelIdCheck c1 = E_OK) (h2 : DIO_ChannelIdCheck c2 = E_OK) (hne : c1 ≠ c2)
    (hL : L = STD_HIGH ∨ L = STD_LOW) :
    ∃ base1 base2, HW_PortsAddresses[(c1 &&& 0xF0) >>> 4]? = some base1 ∧
      HW_PortsAddresses[(c2 &&& 0xF0) >>> 4]? = some base2 ∧
      base1 + ((1 <<< (c1 &&& 0x0F)) <<< 2) ≠ base2 + ((1 <<< (c2 &&& 0x0F)) <<< 2) ∧
      ∃ s1 v t t1, Dio_WriteChannel s c1 L = Outcome.done () s1 ∧
        Dio_ReadChannel s c2 = Outcome.done v t ∧ Dio_ReadChannel s1 c2 = Outcome.done v t1 := by
  obtain ⟨base1, hb1, hw⟩ := dio_write_channel_run s c1 L h1 hL
  obtain ⟨base2, hb2, -, hr⟩ := dio_read_channel_run s c2 h2
  obtain ⟨base3, hb3, -, hr1⟩ := dio_read_channel_run
    { mem := fun a =>
        if a = base1 + ((1 <<< (c1 &&& 0x0F)) <<< 2) then L <<< (c1 &&& 0x0F) else s.mem a
      log := s.log ++
        [Access.write (base1 + ((1 <<< (c1 &&& 0x0F)) <<< 2)) (L <<< (c1 &&& 0x0F))] } c2 h2
  have hbb : base3 = base2 := Option.some.inj (hb3.symm.trans hb2)
  subst hbb
  have hadr := dio_channel_address_ne c1 c2 base1 base3 h1 h2 hne hb1 hb2
  simp only [if_neg (Ne.symm hadr)] at hr1
  exact ⟨base1, base3, hb1, hb2, hadr, _, _, _, _, hw, hr, hr1⟩

/-- C33 at the channels A0 (0x00) and F4 (0x54), writing `STD_HIGH` to A0 on
the all-zero register file. -/
theorem Dio_channel_addresses_distinct_witness :
    (DIO_ChannelIdCheck 0x00 = E_OK ∧ DIO_ChannelIdCheck 0x54 = E_OK ∧ 0x00 ≠ 0x54 ∧
      (STD_HIGH = STD_HIGH ∨ STD_HIGH = STD_LOW)) ∧
    ∃ base1 base2, HW_PortsAddresses[(0x00 &&& 0xF0) >>> 4]? = some base1 ∧
      HW_PortsAddresses[(0x54 &&& 0xF0) >>> 4]? = some base2 ∧
      base1 + ((1 <<< (0x00 &&& 0x0F)) <<< 2) ≠ base2 + ((1 <<< (0x54 &&& 0x0F)) <<< 2) ∧
      ∃ s1 v t t1, Dio_WriteChannel HW.zero 0x00 STD_HIGH = Outcome.done () s1 ∧
        Dio_ReadChannel HW.zero 0x54 = Outcome.done v t ∧
        Dio_ReadChannel s1 0x54 = Outcome.done v t1 :=
  ⟨⟨by decide, by decide, by decide, Or.inl rfl⟩,
    Dio_channel_addresses_distinct HW.zero 0x00 0x54 STD_HIGH (by decide) (by decide) (by decide)
      (Or.inl rfl)⟩

/-! ## The base-address table -/

/-- C38: the six base addresses in `HW_PortsAddresses` are pairwise distinct
and multiples of 4 KiB; the blocks [base, base + 0xFFF] of two different
ports have no address in common; neither clock gating register (0x400FE108,
0x400FE608) lies in a block; and an address base(p) + offset with offset at
most 0xFFF (so also at most 0x524) lies in the block of port p and of no other
port. -/
theorem HW_PortsAddresses_blocks_disjoint :
    HW_PortsAddresses.length = 6 ∧ HW_PortsAddresses.Nodup ∧
      (∀ base, base ∈ HW_PortsAddresses → base % 0x1000 = 0) ∧
      (∀ p q bp bq : Nat, HW_PortsAddresses[p]? = some bp → HW_PortsAddresses[q]? = some bq →
        p ≠ q → bp ≠ bq ∧ ∀ a, bp ≤ a ∧ a ≤ bp + 0xFFF → ¬ (bq ≤ a ∧ a ≤ bq + 0xFFF)) ∧
      (∀ q bq : Nat, HW_PortsAddresses[q]? = some bq →
        ¬ (bq ≤ HW_SYSTEM_CONTROL_BA + HW_RCGC2_OFFSET ∧
          HW_SYSTEM_CONTROL_BA + HW_RCGC2_OFFSET ≤ bq + 0xFFF) ∧
        ¬ (bq ≤ HW_SYSTEM_CONTROL_BA + HW_RCGCGPIO_OFFSET ∧
          HW_SYSTEM_CONTROL_BA + HW_RCGCGPIO_OFFSET ≤ bq + 0xFFF)) ∧
      HW_SYSTEM_CONTROL_BA + HW_RCGC2_OFFSET = 0x400FE108 ∧
      HW_SYSTEM_CONTROL_BA + HW_RCGCGPIO_OFFSET = 0x400FE608 ∧
      ∀ p q bp bq off : Nat, HW_PortsAddresses[p]? = some bp →
        HW_PortsAddresses[q]? = some bq → off ≤ 0xFFF →
        (bq ≤ bp + off ∧ bp + off ≤ bq + 0xFFF ↔ q = p) := by
  have apart : ∀ p q bp bq : Nat, HW_PortsAddresses[p]? = some bp →
      HW_PortsAddresses[q]? = some bq → p ≠ q → bp + 0x1000 ≤ bq ∨ bq + 0x1000 ≤ bp :=
    fun p q bp bq hp hq hne => port_blocks_apart p q bp bq (Ne.symm hne) hp hq
  refine ⟨rfl, by decide, by decide, ?_, ?_, rfl, rfl, ?_⟩
  · intro p q bp bq hp hq hne
    have := apart p q bp bq hp hq hne
    exact ⟨by omega, fun a ha => by omega⟩
  · intro q bq hq
    obtain ⟨b2, hb2, -, hle⟩ := port_base_lookup q (port_lookup_lt q bq hq)
    have e : b2 = bq := Option.some.inj (hb2.symm.trans hq)
    subst e
    unfold HW_SYSTEM_CONTROL_BA HW_RCGC2_OFFSET HW_RCGCGPIO_OFFSET
    omega
  · intro p q bp bq off hp hq hoff
    constructor
    · intro hin
      by_contra hne
      have := apart p q bp bq hp hq (fun h => hne h.symm)
      omega
    · intro e
      subst e
      have e2 : bq = bp := Option.some.inj (hq.symm.trans hp)
      omega

/-! ## Lock and commit-control after a pass -/

/-- After the statements of `Port_SetPinMode` the port's lock register holds
the unlock pattern and the pin's bit of the commit-control register is set. -/
theorem port_set_pin_mode_regs_lock (s : HW) (base b mode : Nat) (hbase : base ≤ 0x40025000)
    (hb : b ≤ 7) :
    (Port_SetPinMode_regs s base b mode).mem (base + HW_GPIOLOCK_OFFSET) =
        HW_GPIO_UNLOCK_PATTERN ∧
      ((Port_SetPinMode_regs s base b mode).mem (base + HW_GPIOCR_OFFSET)).testBit b = true := by
  unfold Port_SetPinMode_regs
  rw [port_reg_addr base HW_GPIOLOCK_OFFSET hbase (by decide),
    port_reg_addr base HW_GPIOCR_OFFSET hbase (by decide),
    port_reg_addr base HW_GPIODEN_OFFSET hbase (by decide),
    port_reg_addr base HW_GPIOAFSEL_OFFSET hbase (by decide)]
  have hla : base + HW_GPIOLOCK_OFFSET ≠ base + HW_GPIOAFSEL_OFFSET :=
    port_reg_ne base _ _ (by decide)
  have hlc : base + HW_GPIOLOCK_OFFSET ≠ base + HW_GPIOCR_OFFSET :=
    port_reg_ne base _ _ (by decide)
  have hca : base + HW_GPIOCR_OFFSET ≠ base + HW_GPIOAFSEL_OFFSET :=
    port_reg_ne base _ _ (by decide)
  have hb32 : b < 32 := by omega
  simp only
  constructor
  · split_ifs <;>
      simp only [HW_S_BIT_mem_ne _ _ _ _ hla, HW_C_BIT_mem_ne _ _ _ _ hla,
        HW_S_BIT_mem_ne _ _ _ _ hlc, HW_W_8RIG_mem_eq] <;>
      decide
  · split_ifs <;>
      simp only [HW_S_BIT_mem_ne _ _ _ _ hca, HW_C_BIT_mem_ne _ _ _ _ hca,
        HW_S_BIT_testBit _ _ _ hb32]

/-- A `Port_SetPinMode` call that completes leaves the register file of
`Port_SetPinMode_regs`, for a pin with a bit below 8 on a port of the table. -/
theorem port_set_pin_mode_done (t t1 : HW) (pin mode : Nat)
    (h : Port_SetPinMode t pin mode = Outcome.done () t1) :
    ∃ base, HW_PortsAddresses[PORT_GET_PORT pin]? = some base ∧ base ≤ 0x40025000 ∧
      PORT_GET_PIN pin ≤ 7 ∧ t1 = Port_SetPinMode_regs t base (PORT_GET_PIN pin) mode := by
  unfold Port_SetPinMode at h
  by_cases hpin : E_OK = Port_PortPinCheck pin
  · obtain ⟨hp, hb⟩ := port_pin_decode_bounds pin hpin.symm
    obtain ⟨base, hbase, -, hle⟩ := port_base_lookup _ hp
    rw [if_pos hpin] at h
    by_cases hm : E_OK = Port_PortPinModeCheck mode
    · rw [if_pos hm] at h
      simp only [hbase] at h
      injection h with _ h2
      exact ⟨base, hbase, hle, hb, h2.symm⟩
    · rw [if_neg hm] at h
      cases h
  · rw [if_neg hpin] at h
    cases h

/-- A `Port_Init` call that completes ends with a `Port_SetPinMode` call that
completes, for the configured pin and mode. -/
theorem port_init_done (s s1 : HW) (cfg : Port_ConfigType)
    (h : Port_Init s (some cfg) = Outcome.done () s1) :
    ∃ t, Port_SetPinMode t cfg.Port_Pin cfg.Port_PinMode = Outcome.done () s1 := by
  rcases port_config_check_cases cfg with hchk | hchk
  · obtain ⟨hpin, -⟩ := (port_config_check_iff cfg).1 hchk
    obtain ⟨-, base, hbase⟩ := port_pin_lookup cfg.Port_Pin hpin
    unfold Port_Init at h
    rw [hchk] at h
    simp only [if_true] at h
    rcases port_set_pin_direction_cases (Port_Init_clock s (PORT_GET_PORT cfg.Port_Pin))
      cfg.Port_Pin cfg.Port_PinDirection with ⟨s0, hd⟩ | hd
    · rw [hd] at h
      simp only [Outcome.bind, hbase] at h
      exact ⟨_, h⟩
    · rw [hd] at h
      cases h
  · rw [port_init_abort s cfg (by rw [hchk]; decide)] at h
    cases h

/-- C37: with the registers as an address-to-word map, after any
`Port_Init` or `Port_SetPinMode` call that completes, for a pin (port p,
bit b): the lock register of port p (base + 0x520) holds the unlock pattern
0x4C4F434B and bit b of its commit-control register (base + 0x524) is set. -/
theorem Port_lock_left_open (s s1 t t1 : HW) (cfg : Port_ConfigType) (pin mode : Nat)
    (hinit : Port_Init s (some cfg) = Outcome.done () s1)
    (hmode : Port_SetPinMode t pin mode = Outcome.done () t1) :
    (∃ base, HW_PortsAddresses[PORT_GET_PORT cfg.Port_Pin]? = some base ∧
      s1.mem (base + HW_GPIOLOCK_OFFSET) = HW_GPIO_UNLOCK_PATTERN ∧
      HW_GPIO_UNLOCK_PATTERN = 0x4C4F434B ∧
      (s1.mem (base + HW_GPIOCR_OFFSET)).testBit (PORT_GET_PIN cfg.Port_Pin) = true) ∧
    ∃ base, HW_PortsAddresses[PORT_GET_PORT pin]? = some base ∧
      t1.mem (base + HW_GPIOLOCK_OFFSET) = HW_GPIO_UNLOCK_PATTERN ∧
      (t1.mem (base + HW_GPIOCR_OFFSET)).testBit (PORT_GET_PIN pin) = true := by
  have key : ∀ (u u1 : HW) (pn md : Nat), Port_SetPinMode u pn md = Outcome.done () u1 →
      ∃ base, HW_PortsAddresses[PORT_GET_PORT pn]? = some base ∧
        u1.mem (base + HW_GPIOLOCK_OFFSET) = HW_GPIO_UNLOCK_PATTERN ∧
        (u1.mem (base + HW_GPIOCR_OFFSET)).testBit (PORT_GET_PIN pn) = true := by
    intro u u1 pn md hu
    obtain ⟨base, hbase, hle, hb, e⟩ := port_set_pin_mode_done u u1 pn md hu
    obtain ⟨hl, hc⟩ := port_set_pin_mode_regs_lock u base (PORT_GET_PIN pn) md hle hb
    exact ⟨base, hbase, e ▸ hl, e ▸ hc⟩
  obtain ⟨u, hu⟩ := port_init_done s s1 cfg hinit
  obtain ⟨base, hbase, hl, hc⟩ := key u s1 _ _ hu
  exact ⟨⟨base, hbase, hl, rfl, hc⟩, key t t1 pin mode hmode⟩

set_option maxRecDepth 100000 in
/-- C37 at `Port_Init` with the default configuration of pin A0 (0x00) and at
`Port_SetPinMode` for pin B3 (0x13) with mode UART, each on the all-zero
register file. -/
theorem Port_lock_left_open_witness :
    (Port_Init HW.zero (some ⟨0x00, PORT_PIN_DIO, PORT_CURRENT_DEFAULT, PORT_PIN_IN, STD_LOW,
        PORT_PULL_UP_DISABLE, PORT_PULL_DOWN_DISABLE, PORT_OPEN_DRAIN_DISABLE⟩) =
        Outcome.done () (Port_Init_regs HW.zero 0x40004000 ⟨0x00, PORT_PIN_DIO,
          PORT_CURRENT_DEFAULT, PORT_PIN_IN, STD_LOW, PORT_PULL_UP_DISABLE,
          PORT_PULL_DOWN_DISABLE, PORT_OPEN_DRAIN_DISABLE⟩) ∧
      Port_SetPinMode HW.zero 0x13 PORT_PIN_UART =
        Outcome.done () (Port_SetPinMode_regs HW.zero 0x40005000 3 PORT_PIN_UART)) ∧
    ((∃ base, HW_PortsAddresses[PORT_GET_PORT 0x00]? = some base ∧
      (Port_Init_regs HW.zero 0x40004000 ⟨0x00, PORT_PIN_DIO, PORT_CURRENT_DEFAULT, PORT_PIN_IN,
        STD_LOW, PORT_PULL_UP_DISABLE, PORT_PULL_DOWN_DISABLE, PORT_OPEN_DRAIN_DISABLE⟩).mem
          (base + HW_GPIOLOCK_OFFSET) = HW_GPIO_UNLOCK_PATTERN ∧
      HW_GPIO_UNLOCK_PATTERN = 0x4C4F434B ∧
      ((Port_Init_regs HW.zero 0x40004000 ⟨0x00, PORT_PIN_DIO, PORT_CURRENT_DEFAULT, PORT_PIN_IN,
        STD_LOW, PORT_PULL_UP_DISABLE, PORT_PULL_DOWN_DISABLE, PORT_OPEN_DRAIN_DISABLE⟩).mem
          (base + HW_GPIOCR_OFFSET)).testBit (PORT_GET_PIN 0x00) = true) ∧
    ∃ base, HW_PortsAddresses[PORT_GET_PORT 0x13]? = some base ∧
      (Port_SetPinMode_regs HW.zero 0x40005000 3 PORT_PIN_UART).mem (base + HW_GPIOLOCK_OFFSET) =
        HW_GPIO_UNLOCK_PATTERN ∧
      ((Port_SetPinMode_regs HW.zero 0x40005000 3 PORT_PIN_UART).mem
        (base + HW_GPIOCR_OFFSET)).testBit (PORT_GET_PIN 0x13) = true) :=
  ⟨⟨rfl, rfl⟩,
    Port_lock_left_open HW.zero
      (Port_Init_regs HW.zero 0x40004000 ⟨0x00, PORT_PIN_DIO, PORT_CURRENT_DEFAULT, PORT_PIN_IN,
        STD_LOW, PORT_PULL_UP_DISABLE, PORT_PULL_DOWN_DISABLE, PORT_OPEN_DRAIN_DISABLE⟩)
      HW.zero (Port_SetPinMode_regs HW.zero 0x40005000 3 PORT_PIN_UART)
      ⟨0x00, PORT_PIN_DIO, PORT_CURRENT_DEFAULT, PORT_PIN_IN, STD_LOW, PORT_PULL_UP_DISABLE,
        PORT_PULL_DOWN_DISABLE, PORT_OPEN_DRAIN_DISABLE⟩ 0x13 PORT_PIN_UART rfl rfl⟩

/-! ## What a pass may change -/

/-- `HW_S_BIT` for bit b changes no other bit among the low 32 of any word. -/
theorem HW_S_BIT_testBit_ne (s : HW) (a b x i : Nat) (hi : i < 32) (hne : i ≠ b) :
    ((HW_S_BIT s a b).mem x).testBit i = (s.mem x).testBit i := by
  by_cases hx : x = a
  · subst hx
    rw [HW_S_BIT_mem_eq, Nat.testBit_mod_two_pow, Nat.testBit_or, Nat.testBit_mod_two_pow,
      Nat.one_shiftLeft, Nat.testBit_two_pow]
    simp [hi, Ne.symm hne]
  · rw [HW_S_BIT_mem_ne _ _ _ _ hx]

/-- The word `HW_C_BIT` leaves in the register it is applied to. -/
theorem HW_C_BIT_mem_eq (s : HW) (a b : Nat) :
    (HW_C_BIT s a b).mem a = (s.mem a % 2 ^ 32 &&& (0xFFFFFFFF ^^^ 1 <<< b)) % 2 ^ 32 := by
  show (if a = a then (s.mem a % 2 ^ 32 &&& (0xFFFFFFFF ^^^ 1 <<< b)) % 2 ^ 32 else _) = _
  rw [if_pos rfl]

/-- `HW_C_BIT` for bit b changes no other bit among the low 32 of any word. -/
theorem HW_C_BIT_testBit_ne (s : HW) (a b x i : Nat) (hi : i < 32) (hne : i ≠ b) :
    ((HW_C_BIT s a b).mem x).testBit i = (s.mem x).testBit i := by
  by_cases hx : x = a
  · subst hx
    have hff : (0xFFFFFFFF : Nat).testBit i = decide (i < 32) := Nat.testBit_two_pow_sub_one 32 i
    rw [HW_C_BIT_mem_eq, Nat.testBit_mod_two_pow, Nat.testBit_and, Nat.testBit_mod_two_pow,
      Nat.testBit_xor, hff, Nat.one_shiftLeft, Nat.testBit_two_pow]
    simp [hi, Ne.symm hne]
  · rw [HW_C_BIT_mem_ne _ _ _ _ hx]

/-- `Port_SetPinDirection` for bit b changes no other bit among the low 32 of
any word. -/
theorem port_set_pin_direction_regs_keeps (s : HW) (base b dir x i : Nat) (hi : i < 32)
    (hne : i ≠ b) :
    ((Port_SetPinDirection_regs s base b dir).mem x).testBit i = (s.mem x).testBit i := by
  unfold Port_SetPinDirection_regs
  split_ifs
  · exact HW_C_BIT_testBit_ne _ _ _ _ _ hi hne
  · exact HW_S_BIT_testBit_ne _ _ _ _ _ hi hne
  · rfl

/-- The drive strength statement for bit b changes no other bit among the low
32 of any word. -/
theorem port_init_drive_keeps (s : HW) (base b cur x i : Nat) (hi : i < 32) (hne : i ≠ b) :
    ((Port_Init_driveStrength s base b cur).mem x).testBit i = (s.mem x).testBit i := by
  unfold Port_Init_driveStrength
  split_ifs <;>
    simp only [HW_S_BIT_testBit_ne _ _ _ _ _ hi hne, HW_C_BIT_testBit_ne _ _ _ _ _ hi hne]

/-- The open-drain statement for bit b changes no other bit among the low 32
of any word. -/
theorem port_init_open_drain_keeps (s : HW) (base b od x i : Nat) (hi : i < 32) (hne : i ≠ b) :
    ((Port_Init_openDrain s base b od).mem x).testBit i = (s.mem x).testBit i := by
  unfold Port_Init_openDrain
  split_ifs
  · exact HW_C_BIT_testBit_ne _ _ _ _ _ hi hne
  · exact HW_S_BIT_testBit_ne _ _ _ _ _ hi hne
  · rfl

/-- The pull-up statements for bit b change no other bit among the low 32 of
any word but the lock register. -/
theorem port_init_pull_up_keeps (s : HW) (base b pu x i : Nat) (hbase : base ≤ 0x40025000)
    (hx : x ≠ base + HW_GPIOLOCK_OFFSET) (hi : i < 32) (hne : i ≠ b) :
    ((Port_Init_pullUp s base b pu).mem x).testBit i = (s.mem x).testBit i := by
  unfold Port_Init_pullUp
  rw [port_reg_addr base HW_GPIOLOCK_OFFSET hbase (by decide)]
  simp only
  split_ifs <;>
    simp only [HW_S_BIT_testBit_ne _ _ _ _ _ hi hne, HW_C_BIT_testBit_ne _ _ _ _ _ hi hne,
      HW_W_8RIG_mem_ne _ _ _ _ hx]

/-- The pull-down statements for bit b change no other bit among the low 32
of any word but the lock register. -/
theorem port_init_pull_down_keeps (s : HW) (base b pd x i : Nat) (hbase : base ≤ 0x40025000)
    (hx : x ≠ base + HW_GPIOLOCK_OFFSET) (hi : i < 32) (hne : i ≠ b) :
    ((Port_Init_pullDown s base b pd).mem x).testBit i = (s.mem x).testBit i := by
  unfold Port_Init_pullDown
  rw [port_reg_addr base HW_GPIOLOCK_OFFSET hbase (by decide)]
  simp only
  split_ifs <;>
    simp only [HW_S_BIT_testBit_ne _ _ _ _ _ hi hne, HW_C_BIT_testBit_ne _ _ _ _ _ hi hne,
      HW_W_8RIG_mem_ne _ _ _ _ hx]

/-- `Port_SetPinMode` for bit b changes no other bit among the low 32 of any
word but the lock register. -/
theorem port_set_pin_mode_regs_keeps (s : HW) (base b mode x i : Nat)
    (hbase : base ≤ 0x40025000) (hx : x ≠ base + HW_GPIOLOCK_OFFSET) (hi : i < 32)
    (hne : i ≠ b) :
    ((Port_SetPinMode_regs s base b mode).mem x).testBit i = (s.mem x).testBit i := by
  unfold Port_SetPinMode_regs
  rw [port_reg_addr base HW_GPIOLOCK_OFFSET hbase (by decide)]
  simp only
  split_ifs <;>
    simp only [HW_S_BIT_testBit_ne _ _ _ _ _ hi hne, HW_C_BIT_testBit_ne _ _ _ _ _ hi hne,
      HW_W_8RIG_mem_ne _ _ _ _ hx]

/-- A `Port_Init` call whose assertions pass, for bit b of the port at
`base`, changes no other bit among the low 32 of any word but the lock
register and the clock gating registers. -/
theorem port_init_regs_keeps (s : HW) (base : Nat) (cfg : Port_ConfigType) (x i : Nat)
    (hbase : base ≤ 0x40025000) (hx : x ≠ base + HW_GPIOLOCK_OFFSET)
    (h1 : x ≠ HW_SYSTEM_CONTROL_BA + HW_RCGC2_OFFSET)
    (h2 : x ≠ HW_SYSTEM_CONTROL_BA + HW_RCGCGPIO_OFFSET) (hi : i < 32)
    (hne : i ≠ PORT_GET_PIN cfg.Port_Pin) :
    ((Port_Init_regs s base cfg).mem x).testBit i = (s.mem x).testBit i := by
  unfold Port_Init_regs
  simp only
  rw [port_set_pin_mode_regs_keeps _ base _ _ x i hbase hx hi hne,
    port_init_open_drain_keeps _ base _ _ x i hi hne,
    port_init_pull_down_keeps _ base _ _ x i hbase hx hi hne,
    port_init_pull_up_keeps _ base _ _ x i hbase hx hi hne,
    port_init_drive_keeps _ base _ _ x i hi hne,
    port_set_pin_direction_regs_keeps _ base _ _ x i hi hne,
    port_init_clock_frame _ _ x h1 h2]

/-- A `Port_Init` call whose assertions pass changes no word other than the
two clock gating registers and eleven registers of its port: direction,
alternate function select, the three drive strength registers, open drain,
pull-up, pull-down, digital enable, lock and commit control. -/
theorem port_init_regs_frame (s : HW) (base : Nat) (cfg : Port_ConfigType) (x : Nat)
    (hbase : base ≤ 0x40025000)
    (h1 : x ≠ HW_SYSTEM_CONTROL_BA + HW_RCGC2_OFFSET)
    (h2 : x ≠ HW_SYSTEM_CONTROL_BA + HW_RCGCGPIO_OFFSET)
    (hx : x ∉ [base + HW_GPIODIR_OFFSET, base + HW_GPIOAFSEL_OFFSET, base + HW_GPIODR2R_OFFSET,
      base + HW_GPIODR4R_OFFSET, base + HW_GPIODR8R_OFFSET, base + HW_GPIOODR_OFFSET,
      base + HW_GPIOPUR_OFFSET, base + HW_GPIOPDR_OFFSET, base + HW_GPIODEN_OFFSET,
      base + HW_GPIOCR_OFFSET, base + HW_GPIOLOCK_OFFSET]) :
    (Port_Init_regs s base cfg).mem x = s.mem x := by
  simp only [List.mem_cons, List.mem_singleton, List.not_mem_nil, or_false, not_or] at hx
  obtain ⟨hdir, haf, h2r, h4r, h8r, hod, hpu, hpd, hden, hcr, hlock⟩ := hx
  unfold Port_Init_regs
  simp only
  rw [port_set_pin_mode_regs_frame _ base _ _ _ hbase hlock hcr hden haf,
    port_init_open_drain_frame _ base _ _ _ hbase hod,
    port_init_pull_down_frame _ base _ _ _ hbase hlock hcr hpd,
    port_init_pull_up_frame _ base _ _ _ hbase hlock hcr hpu,
    port_init_drive_frame _ base _ _ _ hbase h2r h4r h8r,
    port_set_pin_direction_regs_frame _ base _ _ _ hbase hdir,
    port_init_clock_frame _ _ x h1 h2]

/-- The clock enable statements for port p change no other bit among the low
32 of any word. -/
theorem port_init_clock_keeps (s : HW) (p x i : Nat) (hi : i < 32) (hne : i ≠ p) :
    ((Port_Init_clock s p).mem x).testBit i = (s.mem x).testBit i := by
  unfold Port_Init_clock
  simp only [HW_S_BIT_testBit_ne _ _ _ _ _ hi hne]

/-- C32: what the three configuration calls may change, bit by bit among the
32 bits of each register word.  `Port_Init` on an accepted configuration
with target (port p, bit b) leaves every word unchanged except the two clock
gating registers and the DIR, AFSEL, DR2R, DR4R, DR8R, ODR, PUR, PDR, DEN, CR
and LOCK words of port p, so every word outside port p's block other than the
clock gating registers; in the first ten of those words it changes at most
bit b, and in the clock gating registers at most bit p.
`Port_SetPinDirection` changes at most bit b of DIR, and `Port_SetPinMode` at
most bit b of DEN, AFSEL and CR, and the LOCK word. -/
theorem Port_Init_touches_only_target_pin (s t u : HW) (cfg : Port_ConfigType)
    (pin dir mode : Nat) (hfit : cfg.fits)
    (hchk : Port_ConfigTypeCheck (some cfg) = some E_OK)
    (hpin : Port_PortPinCheck pin = E_OK) (hdir : dir ≤ 1) (hmode : mode ≤ 9) :
    (∃ base s1, HW_PortsAddresses[PORT_GET_PORT cfg.Port_Pin]? = some base ∧
      Port_Init s (some cfg) = Outcome.done () s1 ∧
      (∀ x, x ≠ HW_SYSTEM_CONTROL_BA + HW_RCGC2_OFFSET →
        x ≠ HW_SYSTEM_CONTROL_BA + HW_RCGCGPIO_OFFSET →
        x ∉ [base + HW_GPIODIR_OFFSET, base + HW_GPIOAFSEL_OFFSET, base + HW_GPIODR2R_OFFSET,
          base + HW_GPIODR4R_OFFSET, base + HW_GPIODR8R_OFFSET, base + HW_GPIOODR_OFFSET,
          base + HW_GPIOPUR_OFFSET, base + HW_GPIOPDR_OFFSET, base + HW_GPIODEN_OFFSET,
          base + HW_GPIOCR_OFFSET, base + HW_GPIOLOCK_OFFSET] → s1.mem x = s.mem x) ∧
      (∀ x, x ≠ HW_SYSTEM_CONTROL_BA + HW_RCGC2_OFFSET →
        x ≠ HW_SYSTEM_CONTROL_BA + HW_RCGCGPIO_OFFSET →
        ¬ (base ≤ x ∧ x ≤ base + 0xFFF) → s1.mem x = s.mem x) ∧
      (∀ x, x ∈ [base + HW_GPIODIR_OFFSET, base + HW_GPIOAFSEL_OFFSET,
          base + HW_GPIODR2R_OFFSET, base + HW_GPIODR4R_OFFSET, base + HW_GPIODR8R_OFFSET,
          base + HW_GPIOODR_OFFSET, base + HW_GPIOPUR_OFFSET, base + HW_GPIOPDR_OFFSET,
          base + HW_GPIODEN_OFFSET, base + HW_GPIOCR_OFFSET] →
        ∀ i, i < 32 → i ≠ PORT_GET_PIN cfg.Port_Pin →
          (s1.mem x).testBit i = (s.mem x).testBit i) ∧
      (∀ x, x = HW_SYSTEM_CONTROL_BA + HW_RCGC2_OFFSET ∨
          x = HW_SYSTEM_CONTROL_BA + HW_RCGCGPIO_OFFSET →
        ∀ i, i < 32 → i ≠ PORT_GET_PORT cfg.Port_Pin →
          (s1.mem x).testBit i = (s.mem x).testBit i)) ∧
    (∃ base t1, HW_PortsAddresses[PORT_GET_PORT pin]? = some base ∧
      Port_SetPinDirection t pin dir = Outcome.done () t1 ∧
      (∀ x, x ≠ base + HW_GPIODIR_OFFSET → t1.mem x = t.mem x) ∧
      (∀ i, i < 32 → i ≠ PORT_GET_PIN pin →
        (t1.mem (base + HW_GPIODIR_OFFSET)).testBit i =
          (t.mem (base + HW_GPIODIR_OFFSET)).testBit i)) ∧
    ∃ base u1, HW_PortsAddresses[PORT_GET_PORT pin]? = some base ∧
      Port_SetPinMode u pin mode = Outcome.done () u1 ∧
      (∀ x, x ∉ [base + HW_GPIODEN_OFFSET, base + HW_GPIOAFSEL_OFFSET, base + HW_GPIOCR_OFFSET,
          base + HW_GPIOLOCK_OFFSET] → u1.mem x = u.mem x) ∧
      (∀ x, x ∈ [base + HW_GPIODEN_OFFSET, base + HW_GPIOAFSEL_OFFSET,
          base + HW_GPIOCR_OFFSET] →
        ∀ i, i < 32 → i ≠ PORT_GET_PIN pin →
          (u1.mem x).testBit i = (u.mem x).testBit i) := by
  refine ⟨?_, ?_, ?_⟩
  · obtain ⟨base, hb, hbase, -, -, hrun⟩ := port_init_run s cfg hfit hchk
    refine ⟨base, _, hb, hrun, ?_, ?_, ?_, ?_⟩
    · intro x h1 h2 hx
      exact port_init_regs_frame s base cfg x hbase h1 h2 hx
    · intro x h1 h2 hout
      apply port_init_regs_frame s base cfg x hbase h1 h2
      simp only [List.mem_cons, List.mem_singleton, List.not_mem_nil, or_false]
      unfold HW_GPIODIR_OFFSET HW_GPIOAFSEL_OFFSET HW_GPIODR2R_OFFSET HW_GPIODR4R_OFFSET
        HW_GPIODR8R_OFFSET HW_GPIOODR_OFFSET HW_GPIOPUR_OFFSET HW_GPIOPDR_OFFSET
        HW_GPIODEN_OFFSET HW_GPIOCR_OFFSET HW_GPIOLOCK_OFFSET
      omega
    · intro x hx i hi hne
      have hoff : ∃ off, off ≤ 0xFFF ∧ off ≠ HW_GPIOLOCK_OFFSET ∧ x = base + off := by
        simp only [List.mem_cons, List.mem_singleton, List.not_mem_nil, or_false] at hx
        rcases hx with h | h | h | h | h | h | h | h | h | h <;>
          exact ⟨_, by decide, by decide, h⟩
      obtain ⟨off, hoff, hnl, rfl⟩ := hoff
      exact port_init_regs_keeps s base cfg _ i hbase (port_reg_ne base _ _ hnl)
        (Ne.symm (clock_reg_ne base _ _ hbase hoff)) (Ne.symm (clock_reg_ne base _ _ hbase hoff))
        hi hne
    · intro x hx i hi hne
      have hk : ∃ k, x = HW_SYSTEM_CONTROL_BA + k := by
        rcases hx with h | h
        · exact ⟨_, h⟩
        · exact ⟨_, h⟩
      obtain ⟨k, rfl⟩ := hk
      rw [port_init_regs_clock s base cfg hbase k]
      exact port_init_clock_keeps s _ _ i hi hne
  · obtain ⟨base, hb, hbase, -, hrun⟩ := port_set_pin_direction_run t pin dir hpin hdir
    refine ⟨base, _, hb, hrun, ?_, ?_⟩
    · intro x hx
      exact port_set_pin_direction_regs_frame t base _ dir x hbase hx
    · intro i hi hne
      exact port_set_pin_direction_regs_keeps t base _ dir _ i hi hne
  · obtain ⟨base, hb, hbase, -, hrun⟩ := port_set_pin_mode_run u pin mode hpin hmode
    refine ⟨base, _, hb, hrun, ?_, ?_⟩
    · intro x hx
      simp only [List.mem_cons, List.mem_singleton, List.not_mem_nil, or_false, not_or] at hx
      obtain ⟨hden, haf, hcr, hlock⟩ := hx
      exact port_set_pin_mode_regs_frame u base _ mode x hbase hlock hcr hden haf
    · intro x hx i hi hne
      have hoff : ∃ off, off ≠ HW_GPIOLOCK_OFFSET ∧ x = base + off := by
        simp only [List.mem_cons, List.mem_singleton, List.not_mem_nil, or_false] at hx
        rcases hx with h | h | h <;> exact ⟨_, by decide, h⟩
      obtain ⟨off, hnl, rfl⟩ := hoff
      exact port_set_pin_mode_regs_keeps u base _ mode _ i hbase (port_reg_ne base _ _ hnl) hi hne

/-- C32 at `Port_Init` with an ADC configuration of pin E2 (0x42), and at
`Port_SetPinDirection` (output) and `Port_SetPinMode` (UART) for pin B3
(0x13), each on the all-zero register file. -/
theorem Port_Init_touches_only_target_pin_witness :
    ((⟨0x42, PORT_PIN_ADC, PORT_CURRENT_8mA, PORT_PIN_OUT, STD_LOW,
        PORT_PULL_UP_ENABLE, PORT_PULL_DOWN_DISABLE, PORT_OPEN_DRAIN_ENABLE⟩ :
        Port_ConfigType).fits ∧
      Port_ConfigTypeCheck (some ⟨0x42, PORT_PIN_ADC, PORT_CURRENT_8mA, PORT_PIN_OUT, STD_LOW,
        PORT_PULL_UP_ENABLE, PORT_PULL_DOWN_DISABLE, PORT_OPEN_DRAIN_ENABLE⟩) = some E_OK ∧
      Port_PortPinCheck 0x13 = E_OK ∧ PORT_PIN_OUT ≤ 1 ∧ PORT_PIN_UART ≤ 9) ∧
    ((∃ base s1, HW_PortsAddresses[PORT_GET_PORT 0x42]? = some base ∧
      Port_Init HW.zero (some ⟨0x42, PORT_PIN_ADC, PORT_CURRENT_8mA, PORT_PIN_OUT, STD_LOW,
        PORT_PULL_UP_ENABLE, PORT_PULL_DOWN_DISABLE, PORT_OPEN_DRAIN_ENABLE⟩) =
        Outcome.done () s1 ∧
      (∀ x, x ≠ HW_SYSTEM_CONTROL_BA + HW_RCGC2_OFFSET →
        x ≠ HW_SYSTEM_CONTROL_BA + HW_RCGCGPIO_OFFSET →
        x ∉ [base + HW_GPIODIR_OFFSET, base + HW_GPIOAFSEL_OFFSET, base + HW_GPIODR2R_OFFSET,
          base + HW_GPIODR4R_OFFSET, base + HW_GPIODR8R_OFFSET, base + HW_GPIOODR_OFFSET,
          base + HW_GPIOPUR_OFFSET, base + HW_GPIOPDR_OFFSET, base + HW_GPIODEN_OFFSET,
          base + HW_GPIOCR_OFFSET, base + HW_GPIOLOCK_OFFSET] → s1.mem x = HW.zero.mem x) ∧
      (∀ x, x ≠ HW_SYSTEM_CONTROL_BA + HW_RCGC2_OFFSET →
        x ≠ HW_SYSTEM_CONTROL_BA + HW_RCGCGPIO_OFFSET →
        ¬ (base ≤ x ∧ x ≤ base + 0xFFF) → s1.mem x = HW.zero.mem x) ∧
      (∀ x, x ∈ [base + HW_GPIODIR_OFFSET, base + HW_GPIOAFSEL_OFFSET,
          base + HW_GPIODR2R_OFFSET, base + HW_GPIODR4R_OFFSET, base + HW_GPIODR8R_OFFSET,
          base + HW_GPIOODR_OFFSET, base + HW_GPIOPUR_OFFSET, base + HW_GPIOPDR_OFFSET,
          base + HW_GPIODEN_OFFSET, base + HW_GPIOCR_OFFSET] →
        ∀ i, i < 32 → i ≠ PORT_GET_PIN 0x42 →
          (s1.mem x).testBit i = (HW.zero.mem x).testBit i) ∧
      (∀ x, x = HW_SYSTEM_CONTROL_BA + HW_RCGC2_OFFSET ∨
          x = HW_SYSTEM_CONTROL_BA + HW_RCGCGPIO_OFFSET →
        ∀ i, i < 32 → i ≠ PORT_GET_PORT 0x42 →
          (s1.mem x).testBit i = (HW.zero.mem x).testBit i)) ∧
    (∃ base t1, HW_PortsAddresses[PORT_GET_PORT 0x13]? = some base ∧
      Port_SetPinDirection HW.zero 0x13 PORT_PIN_OUT = Outcome.done () t1 ∧
      (∀ x, x ≠ base + HW_GPIODIR_OFFSET → t1.mem x = HW.zero.mem x) ∧
      (∀ i, i < 32 → i ≠ PORT_GET_PIN 0x13 →
        (t1.mem (base + HW_GPIODIR_OFFSET)).testBit i =
          (HW.zero.mem (base + HW_GPIODIR_OFFSET)).testBit i)) ∧
    ∃ base u1, HW_PortsAddresses[PORT_GET_PORT 0x13]? = some base ∧
      Port_SetPinMode HW.zero 0x13 PORT_PIN_UART = Outcome.done () u1 ∧
      (∀ x, x ∉ [base + HW_GPIODEN_OFFSET, base + HW_GPIOAFSEL_OFFSET, base + HW_GPIOCR_OFFSET,
          base + HW_GPIOLOCK_OFFSET] → u1.mem x = HW.zero.mem x) ∧
      (∀ x, x ∈ [base + HW_GPIODEN_OFFSET, base + HW_GPIOAFSEL_OFFSET,
          base + HW_GPIOCR_OFFSET] →
        ∀ i, i < 32 → i ≠ PORT_GET_PIN 0x13 →
          (u1.mem x).testBit i = (HW.zero.mem x).testBit i)) :=
  ⟨⟨by decide, by decide, by decide, by decide, by decide⟩,
    Port_Init_touches_only_target_pin HW.zero HW.zero HW.zero
      ⟨0x42, PORT_PIN_ADC, PORT_CURRENT_8mA, PORT_PIN_OUT, STD_LOW,
        PORT_PULL_UP_ENABLE, PORT_PULL_DOWN_DISABLE, PORT_OPEN_DRAIN_ENABLE⟩
      0x13 PORT_PIN_OUT PORT_PIN_UART (by decide) (by decide) (by decide) (by decide)
      (by decide)⟩

/-! ## Running `Port_Init` twice -/

/-- Leaving the register file alone keeps every bit. -/
theorem bit_assign_id : BitAssign (fun s => s) :=
  fun _ _ => Or.inl fun _ => rfl

/-- Two changes of this kind, one after the other, make a change of this
kind. -/
theorem bit_assign_comp (T U : HW → HW) (hT : BitAssign T) (hU : BitAssign U) :
    BitAssign (fun s => U (T s)) := by
  intro x i
  rcases hU x i with hu | ⟨c, hu⟩
  · rcases hT x i with ht | ⟨c, ht⟩
    · exact Or.inl fun s => (hu (T s)).trans (ht s)
    · exact Or.inr ⟨c, fun s => (hu (T s)).trans (ht s)⟩
  · exact Or.inr ⟨c, fun s => hu (T s)⟩

/-- A choice between two changes of this kind, made on a condition that does
not depend on the register file, is a change of this kind. -/
theorem bit_assign_ite (c : Prop) [Decidable c] (T U : HW → HW) (hT : BitAssign T)
    (hU : BitAssign U) : BitAssign (fun s => if c then T s else U s) := by
  by_cases h : c
  · simp only [if_pos h]
    exact hT
  · simp only [if_neg h]
    exact hU

/-- `HW_S_BIT` keeps or fixes every bit. -/
theorem bit_assign_s_bit (a b : Nat) : BitAssign (fun s => HW_S_BIT s a b) := by
  intro x i
  by_cases hx : x = a
  · subst hx
    by_cases hi : i < 32
    · by_cases hb : b = i
      · refine Or.inr ⟨true, fun s => ?_⟩
        rw [HW_S_BIT_mem_eq, Nat.testBit_mod_two_pow, Nat.testBit_or, Nat.one_shiftLeft,
          Nat.testBit_two_pow]
        simp [hi, hb]
      · exact Or.inl fun s => HW_S_BIT_testBit_ne s x b x i hi (Ne.symm hb)
    · refine Or.inr ⟨false, fun s => ?_⟩
      rw [HW_S_BIT_mem_eq, Nat.testBit_mod_two_pow]
      simp [hi]
  · exact Or.inl fun s => by rw [HW_S_BIT_mem_ne _ _ _ _ hx]

/-- `HW_C_BIT` keeps or fixes every bit. -/
theorem bit_assign_c_bit (a b : Nat) : BitAssign (fun s => HW_C_BIT s a b) := by
  intro x i
  by_cases hx : x = a
  · subst hx
    by_cases hi : i < 32
    · by_cases hb : b = i
      · refine Or.inr ⟨false, fun s => ?_⟩
        rw [HW_C_BIT_mem_eq, Nat.testBit_mod_two_pow, Nat.testBit_and, Nat.testBit_xor,
          Nat.one_shiftLeft, Nat.testBit_two_pow]
        have hff : (0xFFFFFFFF : Nat).testBit i = decide (i < 32) :=
          Nat.testBit_two_pow_sub_one 32 i
        rw [hff]
        simp [hi, hb]
      · exact Or.inl fun s => HW_C_BIT_testBit_ne s x b x i hi (Ne.symm hb)
    · refine Or.inr ⟨false, fun s => ?_⟩
      rw [HW_C_BIT_mem_eq, Nat.testBit_mod_two_pow]
      simp [hi]
  · exact Or.inl fun s => by rw [HW_C_BIT_mem_ne _ _ _ _ hx]

/-- `HW_W_8RIG` keeps or fixes every bit. -/
theorem bit_assign_w_8rig (a v : Nat) : BitAssign (fun s => HW_W_8RIG s a v) := by
  intro x i
  by_cases hx : x = a
  · subst hx
    exact Or.inr ⟨(v % 2 ^ 32).testBit i, fun s => by rw [HW_W_8RIG_mem_eq]⟩
  · exact Or.inl fun s => by rw [HW_W_8RIG_mem_ne _ _ _ _ hx]

/-- Running a change of this kind a second time changes no word. -/
theorem bit_assign_idem (T : HW → HW) (hT : BitAssign T) (s : HW) (x : Nat) :
    (T (T s)).mem x = (T s).mem x := by
  apply Nat.eq_of_testBit_eq
  intro i
  rcases hT x i with h | ⟨c, h⟩
  · exact h (T s)
  · rw [h (T s), h s]

/-- A change of this kind followed by `HW_S_BIT` is a change of this kind. -/
theorem bit_assign_then_s (T : HW → HW) (hT : BitAssign T) (a b : Nat) :
    BitAssign (fun s => HW_S_BIT (T s) a b) :=
  bit_assign_comp T (fun s => HW_S_BIT s a b) hT (bit_assign_s_bit a b)

/-- A change of this kind followed by `HW_C_BIT` is a change of this kind. -/
theorem bit_assign_then_c (T : HW → HW) (hT : BitAssign T) (a b : Nat) :
    BitAssign (fun s => HW_C_BIT (T s) a b) :=
  bit_assign_comp T (fun s => HW_C_BIT s a b) hT (bit_assign_c_bit a b)

/-- A change of this kind followed by `HW_W_8RIG` is a change of this kind. -/
theorem bit_assign_then_w (T : HW → HW) (hT : BitAssign T) (a v : Nat) :
    BitAssign (fun s => HW_W_8RIG (T s) a v) :=
  bit_assign_comp T (fun s => HW_W_8RIG s a v) hT (bit_assign_w_8rig a v)

/-- The clock enable statements keep or fix every bit. -/
theorem bit_assign_clock (p : Nat) : BitAssign (fun s => Port_Init_clock s p) := by
  unfold Port_Init_clock
  exact bit_assign_then_s _ (bit_assign_then_s _ bit_assign_id _ _) _ _

/-- The statements of `Port_SetPinDirection` keep or fix every bit. -/
theorem bit_assign_direction (base b dir : Nat) :
    BitAssign (fun s => Port_SetPinDirection_regs s base b dir) := by
  unfold Port_SetPinDirection_regs
  exact bit_assign_ite _ _ _ (bit_assign_then_c _ bit_assign_id _ _)
    (bit_assign_ite _ _ _ (bit_assign_then_s _ bit_assign_id _ _) bit_assign_id)

/-- The drive strength statement keeps or fixes every bit. -/
theorem bit_assign_drive (base b cur : Nat) :
    BitAssign (fun s => Port_Init_driveStrength s base b cur) := by
  unfold Port_Init_driveStrength
  exact bit_assign_ite _ _ _
    (bit_assign_then_c _ (bit_assign_then_c _ (bit_assign_then_c _ bit_assign_id _ _) _ _) _ _)
    (bit_assign_ite _ _ _
      (bit_assign_then_c _ (bit_assign_then_c _ (bit_assign_then_s _ bit_assign_id _ _) _ _) _ _)
      (bit_assign_ite _ _ _
        (bit_assign_then_c _ (bit_assign_then_s _ (bit_assign_then_c _ bit_assign_id _ _) _ _)
          _ _)
        (bit_assign_ite _ _ _
          (bit_assign_then_s _ (bit_assign_then_c _ (bit_assign_then_c _ bit_assign_id _ _) _ _)
            _ _)
          bit_assign_id)))

/-- The pull-up statements keep or fix every bit. -/
theorem bit_assign_pull_up (base b pu : Nat) :
    BitAssign (fun s => Port_Init_pullUp s base b pu) := by
  unfold Port_Init_pullUp
  exact bit_assign_ite _ _ _
    (bit_assign_then_c _ (bit_assign_then_s _ (bit_assign_then_w _ bit_assign_id _ _) _ _) _ _)
    (bit_assign_ite _ _ _
      (bit_assign_then_s _ (bit_assign_then_s _ (bit_assign_then_w _ bit_assign_id _ _) _ _) _ _)
      (bit_assign_then_s _ (bit_assign_then_w _ bit_assign_id _ _) _ _))

/-- The pull-down statements keep or fix every bit. -/
theorem bit_assign_pull_down (base b pd : Nat) :
    BitAssign (fun s => Port_Init_pullDown s base b pd) := by
  unfold Port_Init_pullDown
  exact bit_assign_ite _ _ _
    (bit_assign_then_c _ (bit_assign_then_s _ (bit_assign_then_w _ bit_assign_id _ _) _ _) _ _)
    (bit_assign_ite _ _ _
      (bit_assign_then_s _ (bit_assign_then_s _ (bit_assign_then_w _ bit_assign_id _ _) _ _) _ _)
      (bit_assign_then_s _ (bit_assign_then_w _ bit_assign_id _ _) _ _))

/-- The open-drain statement keeps or fixes every bit. -/
theorem bit_assign_open_drain (base b od : Nat) :
    BitAssign (fun s => Port_Init_openDrain s base b od) := by
  unfold Port_Init_openDrain
  exact bit_assign_ite _ _ _ (bit_assign_then_c _ bit_assign_id _ _)
    (bit_assign_ite _ _ _ (bit_assign_then_s _ bit_assign_id _ _) bit_assign_id)

/-- The statements of `Port_SetPinMode` keep or fix every bit. -/
theorem bit_assign_mode (base b mode : Nat) :
    BitAssign (fun s => Port_SetPinMode_regs s base b mode) := by
  have hden := bit_assign_ite (mode = PORT_PIN_ADC) _ _
    (bit_assign_then_c _ (bit_assign_then_s _ (bit_assign_then_w _ bit_assign_id
      ((base + HW_GPIOLOCK_OFFSET) % 2 ^ 32) HW_GPIO_UNLOCK_PATTERN)
      ((base + HW_GPIOCR_OFFSET) % 2 ^ 32) b) ((base + HW_GPIODEN_OFFSET) % 2 ^ 32) b)
    (bit_assign_then_s _ (bit_assign_then_s _ (bit_assign_then_w _ bit_assign_id
      ((base + HW_GPIOLOCK_OFFSET) % 2 ^ 32) HW_GPIO_UNLOCK_PATTERN)
      ((base + HW_GPIOCR_OFFSET) % 2 ^ 32) b) ((base + HW_GPIODEN_OFFSET) % 2 ^ 32) b)
  have hcr := bit_assign_then_s _ (bit_assign_then_w _ hden
    ((base + HW_GPIOLOCK_OFFSET) % 2 ^ 32) HW_GPIO_UNLOCK_PATTERN)
    ((base + HW_GPIOCR_OFFSET) % 2 ^ 32) b
  unfold Port_SetPinMode_regs
  exact bit_assign_ite _ _ _ (bit_assign_then_c _ hcr _ _) (bit_assign_then_s _ hcr _ _)

/-- The register accesses of a `Port_Init` call whose assertions pass keep or
fix every bit. -/
theorem bit_assign_port_init (base : Nat) (cfg : Port_ConfigType) :
    BitAssign (fun s => Port_Init_regs s base cfg) := by
  have h1 := bit_assign_clock (PORT_GET_PORT cfg.Port_Pin)
  have h2 := bit_assign_comp _ _ h1
    (bit_assign_direction base (PORT_GET_PIN cfg.Port_Pin) cfg.Port_PinDirection)
  have h3 := bit_assign_comp _ _ h2
    (bit_assign_drive base (PORT_GET_PIN cfg.Port_Pin) cfg.Port_Current)
  have h4 := bit_assign_comp _ _ h3
    (bit_assign_pull_up base (PORT_GET_PIN cfg.Port_Pin) cfg.Port_PinPullUpRes)
  have h5 := bit_assign_comp _ _ h4
    (bit_assign_pull_down base (PORT_GET_PIN cfg.Port_Pin) cfg.Port_PinPullDownRes)
  have h6 := bit_assign_comp _ _ h5
    (bit_assign_open_drain base (PORT_GET_PIN cfg.Port_Pin) cfg.Port_PinOpenDrain)
  have h7 := bit_assign_comp _ _ h6
    (bit_assign_mode base (PORT_GET_PIN cfg.Port_Pin) cfg.Port_PinMode)
  unfold Port_Init_regs
  exact h7

/-- C31: for every accepted configuration and every starting register state,
with the registers as an address-to-word map: `Port_Init` completes, a second
`Port_Init` with the same configuration on the register state the first one
left completes too, and it leaves every register word as the first one left
it. -/
theorem Port_Init_idempotent (s : HW) (cfg : Port_ConfigType) (hfit : cfg.fits)
    (hchk : Port_ConfigTypeCheck (some cfg) = some E_OK) :
    ∃ s1 s2, Port_Init s (some cfg) = Outcome.done () s1 ∧
      Port_Init s1 (some cfg) = Outcome.done () s2 ∧ (∀ x, s2.mem x = s1.mem x) ∧
      s2.mem = s1.mem := by
  obtain ⟨base, hb, -, -, -, hrun⟩ := port_init_run s cfg hfit hchk
  obtain ⟨base2, hb2, -, -, -, hrun2⟩ := port_init_run (Port_Init_regs s base cfg) cfg hfit hchk
  have e : base2 = base := Option.some.inj (hb2.symm.trans hb)
  subst e
  have hidem := bit_assign_idem (fun s => Port_Init_regs s base2 cfg)
    (bit_assign_port_init base2 cfg) s
  exact ⟨_, _, hrun, hrun2, hidem, funext hidem⟩

/-- C31 at a configuration of pin E2 (0x42) on the all-zero register file. -/
theorem Port_Init_idempotent_witness :
    ((⟨0x42, PORT_PIN_ADC, PORT_CURRENT_8mA, PORT_PIN_OUT, STD_LOW, PORT_PULL_UP_ENABLE,
        PORT_PULL_DOWN_DISABLE, PORT_OPEN_DRAIN_ENABLE⟩ : Port_ConfigType).fits ∧
      Port_ConfigTypeCheck (some ⟨0x42, PORT_PIN_ADC, PORT_CURRENT_8mA, PORT_PIN_OUT, STD_LOW,
        PORT_PULL_UP_ENABLE, PORT_PULL_DOWN_DISABLE, PORT_OPEN_DRAIN_ENABLE⟩) = some E_OK) ∧
    ∃ s1 s2, Port_Init HW.zero (some ⟨0x42, PORT_PIN_ADC, PORT_CURRENT_8mA, PORT_PIN_OUT,
        STD_LOW, PORT_PULL_UP_ENABLE, PORT_PULL_DOWN_DISABLE, PORT_OPEN_DRAIN_ENABLE⟩) =
        Outcome.done () s1 ∧
      Port_Init s1 (some ⟨0x42, PORT_PIN_ADC, PORT_CURRENT_8mA, PORT_PIN_OUT, STD_LOW,
        PORT_PULL_UP_ENABLE, PORT_PULL_DOWN_DISABLE, PORT_OPEN_DRAIN_ENABLE⟩) =
        Outcome.done () s2 ∧ (∀ x, s2.mem x = s1.mem x) ∧ s2.mem = s1.mem :=
  ⟨⟨by decide, by decide⟩,
    Port_Init_idempotent HW.zero
      ⟨0x42, PORT_PIN_ADC, PORT_CURRENT_8mA, PORT_PIN_OUT, STD_LOW, PORT_PULL_UP_ENABLE,
        PORT_PULL_DOWN_DISABLE, PORT_OPEN_DRAIN_ENABLE⟩ (by decide) (by decide)⟩

end Autosar
